import Mathlib

/-!
# baton-datadog: pagination, listing and mutation of the Datadog connector

A shallow embedding of `pkg/connector` (helpers.go, users.go, teams.go, roles.go,
connector.go) and of `cmd/baton-datadog/config.go`.

* Go `int64` values are integers kept in range by `wrapInt64`.
* A Go result tuple `(v, err)` is a structure or a pair whose last component is
  `Option Error` (`none` is the nil error).
* The upstream Datadog API is a record of response functions (`APIClient`); every
  operation returns, next to its Go result, the list of upstream requests it issued,
  in order.
* Library code that is not part of the sources (strconv, fmt, the SDK's pagination
  bag, resource, entitlement and grant constructors, the Datadog client types) is
  modelled next to its first use, and marked as such.
-/

namespace BatonDatadog

/-! ## Errors -/

/-- Go `error` values: an error with a message of its own, or `fmt.Errorf(ctx + "%w", cause)`. -/
inductive Error where
  | leaf (message : String)
  | wrapped (ctx : String) (cause : Error)
  deriving DecidableEq, Repr

/-- The text of `err.Error()`. -/
def Error.message : Error → String
  | .leaf m => m
  | .wrapped ctx cause => ctx ++ cause.message

/-- The chain walked by `errors.Unwrap`: the error itself, then its causes. -/
def Error.chain : Error → List Error
  | .leaf m => [.leaf m]
  | .wrapped ctx cause => .wrapped ctx cause :: cause.chain

/-! ## strconv.ParseInt and fmt.Sprintf("%d") -/

/-- The two failure kinds of `strconv`: `ErrSyntax` and `ErrRange`. -/
inductive NumErr where
  | ErrSyntax
  | ErrRange
  deriving DecidableEq, Repr

def maxUint64 : Nat := 18446744073709551615

def maxInt64 : Int := 9223372036854775807

def minInt64 : Int := -9223372036854775808

/-- Two's-complement reduction of an integer to the `int64` range. -/
def wrapInt64 (x : Int) : Int := (x + 9223372036854775808) % 18446744073709551616 - 9223372036854775808

/-- The byte test `'0' <= c && c <= '9'` of `strconv.ParseUint`. -/
def isDecimalDigit (c : Char) : Bool := decide (48 ≤ c.toNat) && decide (c.toNat ≤ 57)

/-- The digit value `c - '0'`. -/
def digitValue (c : Char) : Nat := c.toNat - 48

/-- The loop of `strconv.ParseUint(s, 10, 64)`: the base-10 cutoff is
`maxUint64/10 + 1`; a character that is not a decimal digit is a syntax error, an
overflow of `uint64` is a range error, whichever comes first. -/
def parseUintLoop : List Char → Nat → Except NumErr Nat
  | [], n => .ok n
  | c :: cs, n =>
    if isDecimalDigit c then
      if n ≥ maxUint64 / 10 + 1 then .error .ErrRange
      else if n * 10 + digitValue c > maxUint64 then .error .ErrRange
      else parseUintLoop cs (n * 10 + digitValue c)
    else .error .ErrSyntax

/-- Go `strconv.ParseUint(s, 10, 64)`. -/
def ParseUint (s : List Char) : Except NumErr Nat :=
  match s with
  | [] => .error .ErrSyntax
  | _ :: _ => parseUintLoop s 0

/-- Go `strconv.ParseInt(s, 10, 64)`: an optional leading sign, then `ParseUint`, then
the signed range check against `1 << 63`. -/
def ParseInt (s : String) : Except NumErr Int :=
  match s.data with
  | [] => .error .ErrSyntax
  | c :: rest =>
    let neg : Bool := c = '-'
    let body : List Char := if c = '+' then rest else if c = '-' then rest else c :: rest
    match ParseUint body with
    | .error e => .error e
    | .ok un =>
      if !neg && decide (un ≥ 9223372036854775808) then .error .ErrRange
      else if neg && decide (un > 9223372036854775808) then .error .ErrRange
      else .ok (if neg then -(un : Int) else (un : Int))

/-- Go `strconv.IsPrint`: exact on Latin-1, the fast path of the Go function (space to
"~", and U+00A1 to U+00FF without the soft hyphen U+00AD). Above U+00FF Go consults
Unicode tables; those runes are taken as printable here. -/
def IsPrint (r : Char) : Bool :=
  if r.toNat ≤ 0xFF then
    if 0x20 ≤ r.toNat ∧ r.toNat ≤ 0x7E then true
    else if 0xA1 ≤ r.toNat ∧ r.toNat ≤ 0xFF then r.toNat != 0xAD
    else false
  else true

/-- The lower-case hexadecimal digit of a number below 16. -/
def hexDigit (n : Nat) : Char :=
  if n < 10 then Char.ofNat (48 + n) else Char.ofNat (87 + n)

/-- Go `appendEscapedRune` of `strconv` for the double quote: the double quote (34) and
the backslash (92) are escaped with a backslash, printable runes are kept, the seven
named control characters get their letter, other runes below space and DEL become
`\xhh`, and the remaining runes of the basic plane `\uhhhh`. -/
def appendEscapedRune (r : Char) : List Char :=
  let n := r.toNat
  if n = 34 ∨ n = 92 then [Char.ofNat 92, r]
  else if IsPrint r then [r]
  else if n = 7 then [Char.ofNat 92, 'a']
  else if n = 8 then [Char.ofNat 92, 'b']
  else if n = 12 then [Char.ofNat 92, 'f']
  else if n = 10 then [Char.ofNat 92, 'n']
  else if n = 13 then [Char.ofNat 92, 'r']
  else if n = 9 then [Char.ofNat 92, 't']
  else if n = 11 then [Char.ofNat 92, 'v']
  else if n < 32 ∨ n = 127 then
    [Char.ofNat 92, 'x', hexDigit (n / 16 % 16), hexDigit (n % 16)]
  else
    [Char.ofNat 92, 'u', hexDigit (n / 4096 % 16), hexDigit (n / 256 % 16),
     hexDigit (n / 16 % 16), hexDigit (n % 16)]

/-- Go `strconv.Quote`: the text between double quotes, rune by rune through
`appendEscapedRune`. -/
def Quote (s : String) : String :=
  String.mk (Char.ofNat 34 :: (s.data.flatMap appendEscapedRune ++ [Char.ofNat 34]))

/-- The `*strconv.NumError` returned by `ParseInt`, as an error value: the text of
`NumError.Error()` is "strconv.ParseInt: parsing " followed by `strconv.Quote(Num)`, ": "
and the text of the failure kind. -/
def NumErr.toError (num : String) : NumErr → Error
  | .ErrSyntax => .leaf ("strconv.ParseInt: parsing " ++ Quote num ++ ": invalid syntax")
  | .ErrRange => .leaf ("strconv.ParseInt: parsing " ++ Quote num ++ ": value out of range")

/-- Decimal digits of a natural number, most significant first (`fuel` bounds the
number of digits). -/
def natDigitsAux : Nat → Nat → List Char → List Char
  | 0, _, acc => acc
  | fuel + 1, n, acc =>
    if n / 10 = 0 then Char.ofNat (48 + n % 10) :: acc
    else natDigitsAux fuel (n / 10) (Char.ofNat (48 + n % 10) :: acc)

def natDigits (n : Nat) : List Char := natDigitsAux (n + 1) n []

/-- Go `fmt.Sprintf("%d", page)` for an `int64`. -/
def formatInt (page : Int) : String :=
  if page < 0 then String.mk ('-' :: natDigits page.natAbs) else String.mk (natDigits page.toNat)

/-! ## The pagination bag (SDK package `pagination`) -/

/-- One frame of the pagination stack; `Token` is the page field, kept as a string. -/
structure PageState where
  Token : String
  ResourceTypeID : String
  ResourceID : String
  deriving DecidableEq, Repr

/-- The pagination bag: the frames below the top one, oldest first, and the top
(current) frame. -/
structure Bag where
  states : List PageState
  currentState : Option PageState
  deriving DecidableEq, Repr

/-- The caller-side token `pagination.Token`. -/
structure Token where
  Size : Nat
  Token : String
  deriving DecidableEq, Repr

/-- Modelled from the spec: the string encoding of a bag (`Bag.Marshal` and
`Bag.Unmarshal` of the SDK) is not among the sources. Section 6: "an opaque string
that must round-trip through decode/encode". The encoding is left open: any pair of
functions such that decoding an encoded bag gives the bag back and no bag is encoded
as the empty string (the empty string is the fresh-start token). -/
structure TokenCodec where
  encode : Bag → String
  decode : String → Option Bag
  decode_encode : ∀ b : Bag, decode (encode b) = some b
  encode_ne_empty : ∀ b : Bag, encode b ≠ ""

/-- Modelled from the spec: `Bag.Push` of the SDK is not among the sources. Section
4.1: "Push(PageState) enters a nested context": the new frame becomes the top one and
the former top frame goes below it. -/
def Bag.Push (pb : Bag) (s : PageState) : Bag :=
  match pb.currentState with
  | none => { states := pb.states, currentState := some s }
  | some cur => { states := pb.states ++ [cur], currentState := some s }

/-- Modelled from the spec: `Bag.Pop` of the SDK is not among the sources. It removes
the top frame of the "ordered stack of PageState" and returns it; the frame below, if
any, becomes the top one. -/
def Bag.Pop (pb : Bag) : Option PageState × Bag :=
  match pb.currentState with
  | none => (none, pb)
  | some cur =>
    match pb.states.getLast? with
    | some below => (some cur, { states := pb.states.dropLast, currentState := some below })
    | none => (some cur, { states := pb.states, currentState := none })

/-- Modelled from the spec: `Bag.Current` of the SDK is not among the sources. Section
4.1: "Current() → top PageState" (nil for a bag without frames; seeding the root frame
is done by `parsePageToken`). -/
def Bag.Current (pb : Bag) : Option PageState := pb.currentState

/-- Modelled from the spec: `Bag.PageToken` of the SDK is not among the sources.
Section 4.1: "PageToken() → string form of the top frame's page_index"; an absent page
field is the empty string, which `getPageFromPageToken` reads as page 0. -/
def Bag.PageToken (pb : Bag) : String :=
  match pb.Current with
  | none => ""
  | some c => c.Token

/-- Modelled from the spec: `Bag.Unmarshal` of the SDK is not among the sources.
Section 4.1: "Decode(token) → Bag; fails with InvalidToken on malformed input"; the
empty token is the bag without frames. -/
def Bag.Unmarshal (codec : TokenCodec) (input : String) : Except Error Bag :=
  if input ≠ "" then
    match codec.decode input with
    | none => .error (.wrapped "page token corrupt: " (.leaf "invalid character"))
    | some b => .ok b
  else .ok { states := [], currentState := none }

/-- Modelled from the spec: `Bag.Marshal` of the SDK is not among the sources. It is
the encoding direction of the opaque token; a bag without a current frame is the
terminal empty token. -/
def Bag.Marshal (codec : TokenCodec) (pb : Bag) : String × Option Error :=
  match pb.currentState with
  | none => ("", none)
  | some _ => (codec.encode pb, none)

/-- Modelled from the spec: `Bag.Next` of the SDK is not among the sources. Section
4.1: the "top frame's page [is] replaced by nextPageValue": the top frame is popped
and pushed back with the new page field (an empty page value leaves it popped); a bag
without a top frame is an error. Returns the updated bag. -/
def Bag.Next (pb : Bag) (pageToken : String) : Bag × Option Error :=
  match pb.Pop with
  | (none, pb1) => (pb1, some (.leaf "no active page state"))
  | (some st, pb1) =>
    if pageToken ≠ "" then (pb1.Push { st with Token := pageToken }, none)
    else (pb1, none)

/-- Modelled from the spec: `Bag.NextToken` of the SDK is not among the sources.
Section 4.1: "NextToken(nextPageValue) re-encodes the bag with the top frame's page
replaced by nextPageValue and returns the opaque string". -/
def Bag.NextToken (codec : TokenCodec) (pb : Bag) (pageToken : String) : String × Option Error :=
  match pb.Next pageToken with
  | (_, some err) => ("", some err)
  | (pb1, none) => pb1.Marshal codec

/-! ## helpers.go -/

/-- The SDK message `v2.ResourceId`. -/
structure ResourceId where
  ResourceType : String
  Resource : String
  deriving DecidableEq, Repr

/-- Go `getPageFromPageToken` (helpers.go): the empty page field is page 0, anything else
goes through `strconv.ParseInt(token, 10, 64)`. -/
def getPageFromPageToken (token : String) : Int × Option Error :=
  if token = "" then (0, none)
  else
    match ParseInt token with
    | .error e => (0, some (e.toError token))
    | .ok page => (page, none)

/-- Go `parsePageToken` (helpers.go): decode the bag, seed the root frame when the bag has
no current frame, then read the page number of the top frame. -/
def parsePageToken (codec : TokenCodec) (i : String) (resourceID : ResourceId) :
    Option Bag × Int × Option Error :=
  match Bag.Unmarshal codec i with
  | .error err => (none, 0, some err)
  | .ok b =>
    let b : Bag :=
      if b.Current = none then
        b.Push { Token := "", ResourceTypeID := resourceID.ResourceType, ResourceID := resourceID.Resource }
      else b
    match getPageFromPageToken b.PageToken with
    | (_, some err) => (none, 0, some err)
    | (page, none) => (some b, page, none)

/-- Go `getPageTokenFromPage` (helpers.go): print the page with `%d` and ask the bag for
the next token. -/
def getPageTokenFromPage (codec : TokenCodec) (bag : Bag) (page : Int) : String × Option Error :=
  let nextPage := formatInt page
  match bag.NextToken codec nextPage with
  | (_, some err) => ("", some err)
  | (pageToken, none) => (pageToken, none)

/-! ## Request context (helpers.go, `withAuthContext`) -/

/-- The client type `datadog.APIKey`. -/
structure APIKey where
  Key : String
  deriving DecidableEq, Repr

/-- Context keys: the two keys of the Datadog client, and any other key of the caller. -/
inductive ContextKey where
  | ContextAPIKeys
  | ContextServerVariables
  | other (name : String)
  deriving DecidableEq, Repr

/-- Context values: the two maps `withAuthContext` stores (a Go map literal is the list
of its entries), and any other value of the caller. -/
inductive ContextValue where
  | apiKeys (m : List (String × APIKey))
  | serverVariables (m : List (String × String))
  | other (v : String)
  deriving DecidableEq, Repr

/-- Go `context.Context`: the background context or `context.WithValue(parent, key, val)`. -/
inductive Context where
  | background
  | WithValue (parent : Context) (key : ContextKey) (val : ContextValue)
  deriving DecidableEq, Repr

/-- Go `ctx.Value(key)`: the innermost value stored under the key. -/
def Context.Value : Context → ContextKey → Option ContextValue
  | .background, _ => none
  | .WithValue parent k v, key => if k = key then some v else parent.Value key

/-- Go `withAuthContext` (helpers.go). -/
def withAuthContext (ctx : Context) (apiKey appKey site : String) : Context :=
  let ctx := Context.WithValue ctx .ContextAPIKeys
    (.apiKeys [("apiKeyAuth", { Key := apiKey }), ("appKeyAuth", { Key := appKey })])
  let ctx := Context.WithValue ctx .ContextServerVariables
    (.serverVariables [("site", site)])
  ctx

/-! ## Upstream records (Datadog client package `datadogV2`)

Pointer fields are options; the getters return the zero value for a nil receiver or a
nil field, as the generated client does. -/

structure RoleAttributes where
  Name : Option String
  deriving DecidableEq, Repr

structure Role where
  Id : Option String
  Attributes : Option RoleAttributes
  deriving DecidableEq, Repr

def RoleAttributes.GetName (o : Option RoleAttributes) : String :=
  match o with
  | none => ""
  | some a => a.Name.getD ""

def Role.GetId (o : Role) : String := o.Id.getD ""

structure UserAttributes where
  Name : Option String
  Email : Option String
  Status : Option String
  ServiceAccount : Option Bool
  deriving DecidableEq, Repr

structure User where
  Id : Option String
  Attributes : Option UserAttributes
  deriving DecidableEq, Repr

def UserAttributes.GetName (o : Option UserAttributes) : String :=
  match o with
  | none => ""
  | some a => a.Name.getD ""

def UserAttributes.GetEmail (o : Option UserAttributes) : String :=
  match o with
  | none => ""
  | some a => a.Email.getD ""

def UserAttributes.GetStatus (o : Option UserAttributes) : String :=
  match o with
  | none => ""
  | some a => a.Status.getD ""

def UserAttributes.GetServiceAccount (o : Option UserAttributes) : Bool :=
  match o with
  | none => false
  | some a => a.ServiceAccount.getD false

def User.GetId (o : User) : String := o.Id.getD ""

structure TeamAttributes where
  Name : String
  Description : Option String
  deriving DecidableEq, Repr

structure Team where
  Id : String
  Attributes : TeamAttributes
  deriving DecidableEq, Repr

def TeamAttributes.GetName (o : TeamAttributes) : String := o.Name

def TeamAttributes.GetDescription (o : TeamAttributes) : String := o.Description.getD ""

def Team.GetId (o : Team) : String := o.Id

/-- The client type `NullableUserTeamRole`: a role value that may be null, and whether
the field is set at all. -/
structure NullableUserTeamRole where
  value : Option String
  isSet : Bool
  deriving DecidableEq, Repr

def NewNullableUserTeamRole (val : Option String) : NullableUserTeamRole :=
  { value := val, isSet := true }

structure UserTeamAttributes where
  Role : NullableUserTeamRole
  deriving DecidableEq, Repr

structure RelationshipToUserTeamUserData where
  Id : String
  Type_ : String
  deriving DecidableEq, Repr

structure RelationshipToUserTeamUser where
  Data : RelationshipToUserTeamUserData
  deriving DecidableEq, Repr

structure UserTeamRelationships where
  User : Option RelationshipToUserTeamUser
  deriving DecidableEq, Repr

/-- A team membership record (`datadogV2.UserTeam`). -/
structure UserTeam where
  Attributes : Option UserTeamAttributes
  Id : String
  Relationships : Option UserTeamRelationships
  deriving DecidableEq, Repr

def UserTeam.HasAttributes (o : UserTeam) : Bool := o.Attributes.isSome

def UserTeamAttributes.GetRole (o : Option UserTeamAttributes) : String :=
  match o with
  | none => ""
  | some a => a.Role.value.getD ""

def RelationshipToUserTeamUser.GetData (o : Option RelationshipToUserTeamUser) :
    RelationshipToUserTeamUserData :=
  match o with
  | none => { Id := "", Type_ := "" }
  | some r => r.Data

structure RolesResponse where
  Data : List Role
  deriving DecidableEq, Repr

structure UsersResponse where
  Data : List User
  deriving DecidableEq, Repr

structure TeamsResponse where
  Data : List Team
  deriving DecidableEq, Repr

structure UserTeamsResponse where
  Data : List UserTeam
  deriving DecidableEq, Repr

structure UserResponse where
  Data : Option User
  deriving DecidableEq, Repr

def RolesResponse.GetData (o : RolesResponse) : List Role := o.Data

def UsersResponse.GetData (o : UsersResponse) : List User := o.Data

def TeamsResponse.GetData (o : TeamsResponse) : List Team := o.Data

def UserTeamsResponse.GetData (o : UserTeamsResponse) : List UserTeam := o.Data

def UserResponse.GetData (o : UserResponse) : User :=
  match o.Data with
  | none => { Id := none, Attributes := none }
  | some u => u

structure RelationshipToUserData where
  Id : String
  Type_ : String
  deriving DecidableEq, Repr

/-- Body of the role membership calls (`datadogV2.RelationshipToUser`). -/
structure RelationshipToUser where
  Data : RelationshipToUserData
  deriving DecidableEq, Repr

structure UserTeamCreate where
  Attributes : Option UserTeamAttributes
  Relationships : Option UserTeamRelationships
  Type_ : String
  deriving DecidableEq, Repr

/-- Body of the team membership creation (`datadogV2.UserTeamRequest`). -/
structure UserTeamRequest where
  Data : UserTeamCreate
  deriving DecidableEq, Repr

structure AuthenticationValidationResponse where
  Valid : Option Bool
  deriving DecidableEq, Repr

def AuthenticationValidationResponse.GetValid (o : AuthenticationValidationResponse) : Bool :=
  o.Valid.getD false

def USERSTYPE_USERS : String := "users"

def USERTEAMUSERTYPE_USERS : String := "users"

def USERTEAMTYPE_TEAM_MEMBERSHIPS : String := "team_memberships"

def USERTEAMROLE_ADMIN : String := "admin"

/-! ## The upstream API and the requests issued to it -/

/-- An upstream call with its arguments. -/
inductive Call where
  | ListUsers (PageNumber : Int)
  | ListTeams (PageNumber : Int)
  | ListRoles (PageNumber : Int)
  | ListRoleUsers (roleId : String) (PageNumber : Int)
  | GetTeamMemberships (teamId : String) (PageNumber : Int)
  | GetUser (userId : String)
  | AddUserToRole (roleId : String) (body : RelationshipToUser)
  | RemoveUserFromRole (roleId : String) (body : RelationshipToUser)
  | CreateTeamMembership (teamId : String) (body : UserTeamRequest)
  | DeleteTeamMembership (teamId : String) (userId : String)
  | Validate
  deriving DecidableEq, Repr

/-- The calls that change upstream state. -/
def Call.isWrite : Call → Bool
  | .AddUserToRole _ _ => true
  | .RemoveUserFromRole _ _ => true
  | .CreateTeamMembership _ _ => true
  | .DeleteTeamMembership _ _ => true
  | _ => false

/-- One upstream request: the call and the context it was issued with. -/
structure Request where
  ctx : Context
  call : Call
  deriving DecidableEq, Repr

/-- The upstream authority behind `*datadog.APIClient`: the answer to each call. The
write calls answer with their error only (the connector discards their response). -/
structure APIClient where
  ListUsers : Context → Int → Except Error UsersResponse
  ListTeams : Context → Int → Except Error TeamsResponse
  ListRoles : Context → Int → Except Error RolesResponse
  ListRoleUsers : Context → String → Int → Except Error UsersResponse
  GetTeamMemberships : Context → String → Int → Except Error UserTeamsResponse
  GetUser : Context → String → Except Error UserResponse
  AddUserToRole : Context → String → RelationshipToUser → Option Error
  RemoveUserFromRole : Context → String → RelationshipToUser → Option Error
  CreateTeamMembership : Context → String → UserTeamRequest → Option Error
  DeleteTeamMembership : Context → String → String → Option Error
  Validate : Context → Except Error AuthenticationValidationResponse

/-- The result of running an operation: the upstream requests it issued, in order, and
what it returned. -/
structure Run (α : Type) where
  requests : List Request
  outcome : α
  deriving DecidableEq, Repr

/-- How a call ends: it returns, or the goroutine panics. -/
inductive Completion (α : Type) where
  | returned (v : α)
  | panicked (reason : String)
  deriving DecidableEq, Repr

/-! ## SDK messages and constructors -/

/-- Annotations returned next to a result (`annotations.Annotations`); nil is the
empty list. -/
inductive Annotation where
  | SkipEntitlementsAndGrants
  deriving DecidableEq, Repr

inductive ResourceType_Trait where
  | TRAIT_UNSPECIFIED
  | TRAIT_USER
  | TRAIT_GROUP
  | TRAIT_ROLE
  | TRAIT_APP
  deriving DecidableEq, Repr

/-- The SDK message `v2.ResourceType`. -/
structure ResourceType where
  Id : String
  DisplayName : String
  Traits : List ResourceType_Trait
  Annotations : List Annotation
  deriving DecidableEq, Repr

/-- The enum `UserTrait_AccountType` (annotation_trait.pb.go). -/
inductive UserTrait_AccountType where
  | ACCOUNT_TYPE_UNSPECIFIED
  | ACCOUNT_TYPE_HUMAN
  | ACCOUNT_TYPE_SERVICE
  | ACCOUNT_TYPE_SYSTEM
  deriving DecidableEq, Repr

/-- The enum `UserTrait_Status_Status` (annotation_trait.pb.go). -/
inductive UserTrait_Status_Status where
  | STATUS_UNSPECIFIED
  | STATUS_ENABLED
  | STATUS_DISABLED
  | STATUS_DELETED
  deriving DecidableEq, Repr

/-- The options handed to `rs.NewUserResource`, as the connector builds them; a profile
map literal is the list of its entries. -/
inductive UserTraitOption where
  | WithUserProfile (profile : List (String × String))
  | WithEmail (email : String) (primary : Bool)
  | WithStatus (status : UserTrait_Status_Status)
  | WithAccountType (accountType : UserTrait_AccountType)
  deriving DecidableEq, Repr

inductive GroupTraitOption where
  | WithGroupProfile (profile : List (String × String))
  deriving DecidableEq, Repr

inductive RoleTraitOption where
  | WithRoleProfile (profile : List (String × String))
  deriving DecidableEq, Repr

/-- The trait payload of a resource: the kind of trait and the options it was built
from. -/
inductive Trait where
  | user (opts : List UserTraitOption)
  | group (opts : List GroupTraitOption)
  | role (opts : List RoleTraitOption)
  deriving DecidableEq, Repr

/-- The SDK message `v2.Resource`. -/
structure Resource where
  Id : ResourceId
  DisplayName : String
  Annotations : List Trait
  deriving DecidableEq, Repr

inductive Entitlement_PurposeValue where
  | PURPOSE_VALUE_UNSPECIFIED
  | PURPOSE_VALUE_ASSIGNMENT
  | PURPOSE_VALUE_PERMISSION
  deriving DecidableEq, Repr

/-- The SDK message `v2.Entitlement`. -/
structure Entitlement where
  Resource : Resource
  Id : String
  DisplayName : String
  Description : String
  GrantableTo : List ResourceType
  Purpose : Entitlement_PurposeValue
  Slug : String
  deriving DecidableEq, Repr

/-- The SDK message `v2.Grant`. -/
structure Grant where
  Entitlement : Entitlement
  Principal : Resource
  Id : String
  deriving DecidableEq, Repr

/-- Modelled from the spec: `rs.NewUserResource` of the SDK is not among the sources.
Section 3: "Resource: {id, resource_type_id, display_name, trait payload}". The
constructor fails only for an object id that is not a string or an integer and for
profile text that is not valid UTF-8; neither can be written here, so it succeeds. -/
def NewUserResource (name : String) (resourceType : ResourceType) (objectID : String)
    (userTraitOptions : List UserTraitOption) : Except Error Resource :=
  .ok { Id := { ResourceType := resourceType.Id, Resource := objectID }, DisplayName := name,
        Annotations := [.user userTraitOptions] }

/-- Modelled from the spec: `rs.NewGroupResource` of the SDK is not among the sources;
see `NewUserResource`. -/
def NewGroupResource (name : String) (resourceType : ResourceType) (objectID : String)
    (groupTraitOptions : List GroupTraitOption) : Except Error Resource :=
  .ok { Id := { ResourceType := resourceType.Id, Resource := objectID }, DisplayName := name,
        Annotations := [.group groupTraitOptions] }

/-- Modelled from the spec: `rs.NewRoleResource` of the SDK is not among the sources;
see `NewUserResource`. -/
def NewRoleResource (name : String) (resourceType : ResourceType) (objectID : String)
    (roleTraitOptions : List RoleTraitOption) : Except Error Resource :=
  .ok { Id := { ResourceType := resourceType.Id, Resource := objectID }, DisplayName := name,
        Annotations := [.role roleTraitOptions] }

/-- Modelled from the spec: `NewEntitlementID` of the SDK is not among the sources.
Section 3: "entitlement_ref = (resource_id, slug)", printed as `type:id:slug`. -/
def NewEntitlementID (resource : Resource) (permission : String) : String :=
  resource.Id.ResourceType ++ ":" ++ resource.Id.Resource ++ ":" ++ permission

/-- Modelled from the spec: `grant.NewGrant` of the SDK is not among the sources.
Section 3: "Grant: {principal_resource_id, entitlement_ref = (resource_id, slug)}": the
grant names the entitlement by its id and owning resource, and the principal by its
resource id. -/
def NewGrant (resource : Resource) (entitlementName : String) (principal : ResourceId) : Grant :=
  { Entitlement :=
      { Resource := resource, Id := NewEntitlementID resource entitlementName, DisplayName := "",
        Description := "", GrantableTo := [], Purpose := .PURPOSE_VALUE_UNSPECIFIED, Slug := "" },
    Principal := { Id := principal, DisplayName := "", Annotations := [] },
    Id := NewEntitlementID resource entitlementName ++ ":" ++ principal.ResourceType ++ ":"
      ++ principal.Resource }

/-- The options handed to the SDK entitlement constructors. -/
inductive EntitlementOption where
  | WithGrantableTo (grantableTo : List ResourceType)
  | WithDisplayName (displayName : String)
  | WithDescription (description : String)
  deriving DecidableEq, Repr

/-- Modelled from the spec: the SDK entitlement options are not among the sources.
Section 3: "Entitlement: {owning resource_id, slug, kind, grantable_to, display_name,
description}": each option sets the field it names. -/
def EntitlementOption.apply (e : Entitlement) : EntitlementOption → Entitlement
  | .WithGrantableTo grantableTo => { e with GrantableTo := grantableTo }
  | .WithDisplayName displayName => { e with DisplayName := displayName }
  | .WithDescription description => { e with Description := description }

/-- Modelled from the spec: `ent.NewAssignmentEntitlement` of the SDK is not among the
sources. Section 3: an entitlement of kind assignment owned by the resource, with the
given slug, then the options in order. -/
def NewAssignmentEntitlement (resource : Resource) (name : String)
    (entitlementOptions : List EntitlementOption) : Entitlement :=
  entitlementOptions.foldl EntitlementOption.apply
    { Resource := resource, Id := NewEntitlementID resource name, DisplayName := name,
      Description := "", GrantableTo := [], Purpose := .PURPOSE_VALUE_ASSIGNMENT, Slug := name }

/-- Modelled from the spec: `ent.NewPermissionEntitlement` of the SDK is not among the
sources. Section 3: an entitlement of kind permission owned by the resource, with the
given slug, then the options in order. -/
def NewPermissionEntitlement (resource : Resource) (name : String)
    (entitlementOptions : List EntitlementOption) : Entitlement :=
  entitlementOptions.foldl EntitlementOption.apply
    { Resource := resource, Id := NewEntitlementID resource name, DisplayName := name,
      Description := "", GrantableTo := [], Purpose := .PURPOSE_VALUE_PERMISSION, Slug := name }

/-- Modelled from the spec: `helpers.SplitFullName` of the SDK is not among the
sources: the name is cut at its first space into a first and a last name. -/
def SplitFullName (name : String) : String × String :=
  match name.data.span (fun c => c != ' ') with
  | (first, []) => (String.mk first, "")
  | (first, _ :: last) => (String.mk first, String.mk last)

/-- Go `annotationsForUserResourceType` (helpers.go). -/
def annotationsForUserResourceType : List Annotation := [.SkipEntitlementsAndGrants]

/-- Modelled from the spec: the package variable `userResourceType` is not among the
sources. Section 3: "ResourceType: {id, display name, capability flags}. Fixed, small,
closed set (Principal, Group, Role)"; section 6: the marker "this resource kind has no
entitlements/grants phase" is set for Principal. -/
def userResourceType : ResourceType :=
  { Id := "user", DisplayName := "User", Traits := [.TRAIT_USER],
    Annotations := annotationsForUserResourceType }

/-- Modelled from the spec: the package variable `teamResourceType` is not among the
sources; see `userResourceType`. -/
def teamResourceType : ResourceType :=
  { Id := "team", DisplayName := "Team", Traits := [.TRAIT_GROUP], Annotations := [] }

/-- Modelled from the spec: the package variable `roleResourceType` is not among the
sources; see `userResourceType`. -/
def roleResourceType : ResourceType :=
  { Id := "role", DisplayName := "Role", Traits := [.TRAIT_ROLE], Annotations := [] }

/-! ## Results of the syncer operations -/

/-- The Go result `([]*v2.Resource, string, annotations.Annotations, error)`. -/
structure ListResult where
  rv : List Resource
  nextPageToken : String
  annos : List Annotation
  err : Option Error
  deriving DecidableEq, Repr

/-- The Go result `([]*v2.Grant, string, annotations.Annotations, error)`. -/
structure GrantsResult where
  rv : List Grant
  nextPageToken : String
  annos : List Annotation
  err : Option Error
  deriving DecidableEq, Repr

/-- The Go result `([]*v2.Entitlement, string, annotations.Annotations, error)`. -/
structure EntitlementsResult where
  rv : List Entitlement
  nextPageToken : String
  annos : List Annotation
  err : Option Error
  deriving DecidableEq, Repr

/-- The Go result `(annotations.Annotations, error)` of Grant and Revoke. -/
structure MutationResult where
  annos : List Annotation
  err : Option Error
  deriving DecidableEq, Repr

/-! ## users.go -/

structure userBuilder where
  resourceType : ResourceType
  client : APIClient
  apiKey : String
  appKey : String
  site : String

/-- Go `userResource` (users.go). -/
def userResource (user : User) : Except Error Resource :=
  let (firstname, lastname) := SplitFullName (UserAttributes.GetName user.Attributes)
  let profile : List (String × String) :=
    [("first_name", firstname), ("last_name", lastname),
     ("login", UserAttributes.GetEmail user.Attributes), ("user_id", user.GetId)]
  let accountType := UserTrait_AccountType.ACCOUNT_TYPE_HUMAN
  let status : UserTrait_Status_Status :=
    if UserAttributes.GetStatus user.Attributes = "Active" then .STATUS_ENABLED
    else if UserAttributes.GetStatus user.Attributes = "Disabled" then .STATUS_DISABLED
    else .STATUS_UNSPECIFIED
  let accountType :=
    if UserAttributes.GetServiceAccount user.Attributes then
      UserTrait_AccountType.ACCOUNT_TYPE_SERVICE
    else accountType
  let userTraitOptions : List UserTraitOption :=
    [.WithUserProfile profile, .WithEmail (UserAttributes.GetEmail user.Attributes) true,
     .WithStatus status, .WithAccountType accountType]
  match NewUserResource (UserAttributes.GetName user.Attributes) userResourceType user.GetId
      userTraitOptions with
  | .error err => .error err
  | .ok ret => .ok ret

/-- Go `userBuilder.Entitlements` (users.go): always the empty result. -/
def userBuilder.Entitlements (_u : userBuilder) (_ctx : Context) (_resource : Resource)
    (_pToken : Token) : Run EntitlementsResult :=
  ⟨[], ⟨[], "", [], none⟩⟩

/-- The `for _, user := range users.GetData()` loop of `userBuilder.List`. -/
def userBuilder.List.loop : List User → List Resource → Except Error (List Resource)
  | [], rv => .ok rv
  | user :: rest, rv =>
    match userResource user with
    | .error err => .error (.wrapped "error creating user resource: " err)
    | .ok ur => userBuilder.List.loop rest (rv ++ [ur])

/-- Go `userBuilder.List` (users.go). A nil bag next to a nil error (which
`parsePageToken` never returns) would be dereferenced by `NextToken`. -/
def userBuilder.List (codec : TokenCodec) (u : userBuilder) (ctx : Context)
    (_parentResourceID : Option ResourceId) (pToken : Token) : Run (Completion ListResult) :=
  let ctx := withAuthContext ctx u.apiKey u.appKey u.site
  match parsePageToken codec pToken.Token { ResourceType := u.resourceType.Id, Resource := "" } with
  | (_, _, some err) => ⟨[], .returned ⟨[], "", [], some err⟩⟩
  | (bag, page, none) =>
    match u.client.ListUsers ctx page with
    | .error err =>
      ⟨[⟨ctx, .ListUsers page⟩], .returned ⟨[], "", [], some (.wrapped "error listing users: " err)⟩⟩
    | .ok users =>
      match userBuilder.List.loop users.GetData [] with
      | .error err => ⟨[⟨ctx, .ListUsers page⟩], .returned ⟨[], "", [], some err⟩⟩
      | .ok rv =>
        if users.GetData.length ≠ 0 then
          match bag with
          | none => ⟨[⟨ctx, .ListUsers page⟩], .panicked "nil pointer dereference"⟩
          | some bag =>
            match getPageTokenFromPage codec bag (wrapInt64 (page + 1)) with
            | (_, some err) =>
              ⟨[⟨ctx, .ListUsers page⟩], .returned ⟨[], "", [],
                some (.wrapped "datadog-connector: failed to get token from page: " err)⟩⟩
            | (nextPageToken, none) =>
              ⟨[⟨ctx, .ListUsers page⟩], .returned ⟨rv, nextPageToken, [], none⟩⟩
        else ⟨[⟨ctx, .ListUsers page⟩], .returned ⟨rv, "", [], none⟩⟩

/-- Go `userBuilder.Grants` (users.go): always the empty result. -/
def userBuilder.Grants (_u : userBuilder) (_ctx : Context) (_resource : Resource)
    (_pToken : Token) : Run (Completion GrantsResult) :=
  ⟨[], .returned ⟨[], "", [], none⟩⟩

/-- Go `newUserBuilder` (users.go). -/
def newUserBuilder (client : APIClient) (site apiKey appKey : String) : userBuilder :=
  { resourceType := userResourceType, client := client, site := site, apiKey := apiKey,
    appKey := appKey }

/-! ## teams.go

The methods named like a type they mention (`Grant`, `List`) come last. -/

def memberRole : String := "member"

def adminRole : String := "admin"

structure teamBuilder where
  resourceType : ResourceType
  client : APIClient
  apiKey : String
  appKey : String
  site : String

/-- Go `teamResource` (teams.go). -/
def teamResource (team : Team) : Except Error Resource :=
  let profile : List (String × String) :=
    [("team_name", team.Attributes.GetName), ("team_description", team.Attributes.GetDescription),
     ("team_id", team.GetId)]
  let teamTraitOptions : List GroupTraitOption := [.WithGroupProfile profile]
  match NewGroupResource team.Attributes.GetName teamResourceType team.GetId teamTraitOptions with
  | .error err => .error err
  | .ok ret => .ok ret

/-- Go `populateOptions` (teams.go). -/
def populateOptions (name permission : String) : List EntitlementOption :=
  [.WithGrantableTo [userResourceType],
   .WithDisplayName (name ++ " Team " ++ permission),
   .WithDescription (permission ++ " of " ++ name ++ " Datadog team")]

/-- Go `teamBuilder.Entitlements` (teams.go). -/
def teamBuilder.Entitlements (_t : teamBuilder) (_ctx : Context) (resource : Resource)
    (_pToken : Token) : Run EntitlementsResult :=
  let memberOptions := populateOptions resource.DisplayName memberRole
  let memberEntitlement := NewAssignmentEntitlement resource memberRole memberOptions
  let adminOptions := populateOptions resource.DisplayName adminRole
  let adminEntitlement := NewPermissionEntitlement resource adminRole adminOptions
  ⟨[], ⟨[] ++ [memberEntitlement, adminEntitlement], "", [], none⟩⟩

/-- The `for _, membership := range memberships.GetData()` loop of `teamBuilder.Grants`:
one `GetUser` lookup per membership record, then the "member" grant and, for a record
whose attributes carry the role "admin", the "admin" grant. Reading the user
relationship of a record without a relationships block dereferences a nil pointer. -/
def teamBuilder.Grants.loop (t : teamBuilder) (ctx : Context) (resource : Resource) :
    List UserTeam → List Grant → Run (Completion (Except Error (List Grant)))
  | [], rv => ⟨[], .returned (.ok rv)⟩
  | membership :: rest, rv =>
    match membership.Relationships with
    | none => ⟨[], .panicked "nil pointer dereference"⟩
    | some relationships =>
      let userId := (RelationshipToUserTeamUser.GetData relationships.User).Id
      match t.client.GetUser ctx userId with
      | .error err =>
        ⟨[⟨ctx, .GetUser userId⟩], .returned (.error
          (.wrapped ("error getting user " ++ userId ++ " from team membership: ") err))⟩
      | .ok res =>
        let user := res.GetData
        match userResource user with
        | .error err =>
          ⟨[⟨ctx, .GetUser userId⟩], .returned (.error
            (.wrapped ("error creating user resource for team " ++ resource.Id.Resource ++ ": ") err))⟩
        | .ok ur =>
          let rv := rv ++ [NewGrant resource memberRole ur.Id]
          let rv :=
            if membership.HasAttributes then
              if UserTeamAttributes.GetRole membership.Attributes = adminRole then
                rv ++ [NewGrant resource adminRole ur.Id]
              else rv
            else rv
          let r := teamBuilder.Grants.loop t ctx resource rest rv
          ⟨⟨ctx, .GetUser userId⟩ :: r.requests, r.outcome⟩

/-- Go `teamBuilder.Grants` (teams.go). -/
def teamBuilder.Grants (codec : TokenCodec) (t : teamBuilder) (ctx : Context)
    (resource : Resource) (pToken : Token) : Run (Completion GrantsResult) :=
  let ctx := withAuthContext ctx t.apiKey t.appKey t.site
  match parsePageToken codec pToken.Token { ResourceType := t.resourceType.Id, Resource := "" } with
  | (_, _, some err) => ⟨[], .returned ⟨[], "", [], some err⟩⟩
  | (bag, page, none) =>
    match t.client.GetTeamMemberships ctx resource.Id.Resource page with
    | .error err =>
      ⟨[⟨ctx, .GetTeamMemberships resource.Id.Resource page⟩], .returned ⟨[], "", [], some err⟩⟩
    | .ok memberships =>
      let r := teamBuilder.Grants.loop t ctx resource memberships.GetData []
      let requests := ⟨ctx, .GetTeamMemberships resource.Id.Resource page⟩ :: r.requests
      match r.outcome with
      | .panicked reason => ⟨requests, .panicked reason⟩
      | .returned (.error err) => ⟨requests, .returned ⟨[], "", [], some err⟩⟩
      | .returned (.ok rv) =>
        if memberships.GetData.length ≠ 0 then
          match bag with
          | none => ⟨requests, .panicked "nil pointer dereference"⟩
          | some bag =>
            match getPageTokenFromPage codec bag (wrapInt64 (page + 1)) with
            | (_, some err) =>
              ⟨requests, .returned ⟨[], "", [],
                some (.wrapped "datadog-connector: failed to get token from page: " err)⟩⟩
            | (nextPageToken, none) => ⟨requests, .returned ⟨rv, nextPageToken, [], none⟩⟩
        else ⟨requests, .returned ⟨rv, "", [], none⟩⟩

/-- Go `teamBuilder.Revoke` (teams.go). -/
def teamBuilder.Revoke (t : teamBuilder) (ctx : Context) (grant : Grant) : Run MutationResult :=
  let principal := grant.Principal
  let entitlement := grant.Entitlement
  if principal.Id.ResourceType ≠ userResourceType.Id then
    ⟨[], ⟨[], some (.leaf "baton-datadog: only users can have team membership revoked")⟩⟩
  else
    let ctx := withAuthContext ctx t.apiKey t.appKey t.site
    match t.client.DeleteTeamMembership ctx entitlement.Resource.Id.Resource principal.Id.Resource with
    | some err =>
      ⟨[⟨ctx, .DeleteTeamMembership entitlement.Resource.Id.Resource principal.Id.Resource⟩],
        ⟨[], some (.wrapped "baton-datadog: failed to remove user from team: " err)⟩⟩
    | none =>
      ⟨[⟨ctx, .DeleteTeamMembership entitlement.Resource.Id.Resource principal.Id.Resource⟩],
        ⟨[], none⟩⟩

/-- Go `teamBuilder.Grant` (teams.go). -/
def teamBuilder.Grant (t : teamBuilder) (ctx : Context) (principal : Resource)
    (entitlement : Entitlement) : Run MutationResult :=
  if principal.Id.ResourceType ≠ userResourceType.Id then
    ⟨[], ⟨[], some (.leaf "baton-datadog: only users can be granted team membership")⟩⟩
  else
    let role : Option String := if entitlement.Slug = "admin" then some USERTEAMROLE_ADMIN else none
    let body : UserTeamRequest :=
      { Data :=
          { Attributes := some { Role := NewNullableUserTeamRole role },
            Relationships := some
              { User := some { Data := { Id := principal.Id.Resource, Type_ := USERTEAMUSERTYPE_USERS } } },
            Type_ := USERTEAMTYPE_TEAM_MEMBERSHIPS } }
    let ctx := withAuthContext ctx t.apiKey t.appKey t.site
    match t.client.CreateTeamMembership ctx entitlement.Resource.Id.Resource body with
    | some err =>
      ⟨[⟨ctx, .CreateTeamMembership entitlement.Resource.Id.Resource body⟩],
        ⟨[], some (.wrapped "baton-datadog: failed to add user to role: " err)⟩⟩
    | none => ⟨[⟨ctx, .CreateTeamMembership entitlement.Resource.Id.Resource body⟩], ⟨[], none⟩⟩

/-- The `for _, team := range teams.GetData()` loop of `teamBuilder.List`. -/
def teamBuilder.List.loop : List Team → List Resource → Except Error (List Resource)
  | [], rv => .ok rv
  | team :: rest, rv =>
    match teamResource team with
    | .error err => .error (.wrapped "error creating team resource: " err)
    | .ok tr => teamBuilder.List.loop rest (rv ++ [tr])

/-- Go `teamBuilder.List` (teams.go). -/
def teamBuilder.List (codec : TokenCodec) (t : teamBuilder) (ctx : Context)
    (_parentResourceID : Option ResourceId) (pToken : Token) : Run (Completion ListResult) :=
  let ctx := withAuthContext ctx t.apiKey t.appKey t.site
  match parsePageToken codec pToken.Token { ResourceType := t.resourceType.Id, Resource := "" } with
  | (_, _, some err) => ⟨[], .returned ⟨[], "", [], some err⟩⟩
  | (bag, page, none) =>
    match t.client.ListTeams ctx page with
    | .error err =>
      ⟨[⟨ctx, .ListTeams page⟩], .returned ⟨[], "", [], some (.wrapped "error listing teams: " err)⟩⟩
    | .ok teams =>
      match teamBuilder.List.loop teams.GetData [] with
      | .error err => ⟨[⟨ctx, .ListTeams page⟩], .returned ⟨[], "", [], some err⟩⟩
      | .ok rv =>
        if teams.GetData.length ≠ 0 then
          match bag with
          | none => ⟨[⟨ctx, .ListTeams page⟩], .panicked "nil pointer dereference"⟩
          | some bag =>
            match getPageTokenFromPage codec bag (wrapInt64 (page + 1)) with
            | (_, some err) =>
              ⟨[⟨ctx, .ListTeams page⟩], .returned ⟨[], "", [],
                some (.wrapped "datadog-connector: failed to get token from page: " err)⟩⟩
            | (nextPageToken, none) =>
              ⟨[⟨ctx, .ListTeams page⟩], .returned ⟨rv, nextPageToken, [], none⟩⟩
        else ⟨[⟨ctx, .ListTeams page⟩], .returned ⟨rv, "", [], none⟩⟩

/-- Go `newTeamBuilder` (teams.go). -/
def newTeamBuilder (client : APIClient) (site apiKey appKey : String) : teamBuilder :=
  { resourceType := teamResourceType, client := client, site := site, apiKey := apiKey,
    appKey := appKey }

/-! ## roles.go -/

def roleMembership : String := "member"

structure roleBuilder where
  resourceType : ResourceType
  client : APIClient
  apiKey : String
  appKey : String
  site : String

/-- Go `roleResource` (roles.go). -/
def roleResource (role : Role) : Except Error Resource :=
  let profile : List (String × String) :=
    [("role_name", RoleAttributes.GetName role.Attributes), ("role_id", role.GetId)]
  let roleTraitOptions : List RoleTraitOption := [.WithRoleProfile profile]
  match NewRoleResource (RoleAttributes.GetName role.Attributes) roleResourceType role.GetId
      roleTraitOptions with
  | .error err => .error err
  | .ok ret => .ok ret

/-- Go `roleBuilder.Entitlements` (roles.go). -/
def roleBuilder.Entitlements (_r : roleBuilder) (_ctx : Context) (resource : Resource)
    (_pToken : Token) : Run EntitlementsResult :=
  let assignmentOptions : List EntitlementOption :=
    [.WithGrantableTo [userResourceType],
     .WithDisplayName (resource.DisplayName ++ " Role " ++ roleMembership),
     .WithDescription ("Member of " ++ resource.DisplayName ++ " Datadog role")]
  ⟨[], ⟨[] ++ [NewAssignmentEntitlement resource roleMembership assignmentOptions], "", [], none⟩⟩

/-- The `for _, user := range users.GetData()` loop of `roleBuilder.Grants`. -/
def roleBuilder.Grants.loop (resource : Resource) : List User → List Grant → Except Error (List Grant)
  | [], rv => .ok rv
  | user :: rest, rv =>
    match userResource user with
    | .error err =>
      .error (.wrapped ("error creating user resource for role " ++ resource.Id.Resource ++ ": ") err)
    | .ok ur => roleBuilder.Grants.loop resource rest (rv ++ [NewGrant resource roleMembership ur.Id])

/-- Go `roleBuilder.Grants` (roles.go). -/
def roleBuilder.Grants (codec : TokenCodec) (r : roleBuilder) (ctx : Context)
    (resource : Resource) (pToken : Token) : Run (Completion GrantsResult) :=
  let ctx := withAuthContext ctx r.apiKey r.appKey r.site
  match parsePageToken codec pToken.Token { ResourceType := userResourceType.Id, Resource := "" } with
  | (_, _, some err) => ⟨[], .returned ⟨[], "", [], some err⟩⟩
  | (bag, page, none) =>
    match r.client.ListRoleUsers ctx resource.Id.Resource page with
    | .error err =>
      ⟨[⟨ctx, .ListRoleUsers resource.Id.Resource page⟩], .returned ⟨[], "", [],
        some (.wrapped ("error listing users for role " ++ resource.DisplayName ++ ": ") err)⟩⟩
    | .ok users =>
      match roleBuilder.Grants.loop resource users.GetData [] with
      | .error err =>
        ⟨[⟨ctx, .ListRoleUsers resource.Id.Resource page⟩], .returned ⟨[], "", [], some err⟩⟩
      | .ok rv =>
        if users.GetData.length ≠ 0 then
          match bag with
          | none => ⟨[⟨ctx, .ListRoleUsers resource.Id.Resource page⟩], .panicked "nil pointer dereference"⟩
          | some bag =>
            match getPageTokenFromPage codec bag (wrapInt64 (page + 1)) with
            | (_, some err) =>
              ⟨[⟨ctx, .ListRoleUsers resource.Id.Resource page⟩], .returned ⟨[], "", [],
                some (.wrapped "datadog-connector: failed to get token from page: " err)⟩⟩
            | (nextPageToken, none) =>
              ⟨[⟨ctx, .ListRoleUsers resource.Id.Resource page⟩],
                .returned ⟨rv, nextPageToken, [], none⟩⟩
        else ⟨[⟨ctx, .ListRoleUsers resource.Id.Resource page⟩], .returned ⟨rv, "", [], none⟩⟩

/-- Go `roleBuilder.Revoke` (roles.go). -/
def roleBuilder.Revoke (r : roleBuilder) (ctx : Context) (grant : Grant) : Run MutationResult :=
  let principal := grant.Principal
  let entitlement := grant.Entitlement
  if principal.Id.ResourceType ≠ userResourceType.Id then
    ⟨[], ⟨[], some (.leaf "baton-datadog: only users can have role membership revoked")⟩⟩
  else
    let body : RelationshipToUser :=
      { Data := { Id := principal.Id.Resource, Type_ := USERSTYPE_USERS } }
    let ctx := withAuthContext ctx r.apiKey r.appKey r.site
    match r.client.RemoveUserFromRole ctx entitlement.Resource.Id.Resource body with
    | some err =>
      ⟨[⟨ctx, .RemoveUserFromRole entitlement.Resource.Id.Resource body⟩],
        ⟨[], some (.wrapped "baton-datadog: failed to remove user from role: " err)⟩⟩
    | none => ⟨[⟨ctx, .RemoveUserFromRole entitlement.Resource.Id.Resource body⟩], ⟨[], none⟩⟩

/-- Go `roleBuilder.Grant` (roles.go). -/
def roleBuilder.Grant (r : roleBuilder) (ctx : Context) (principal : Resource)
    (entitlement : Entitlement) : Run MutationResult :=
  if principal.Id.ResourceType ≠ userResourceType.Id then
    ⟨[], ⟨[], some (.leaf "baton-datadog: only users can be granted role membership")⟩⟩
  else
    let body : RelationshipToUser :=
      { Data := { Id := principal.Id.Resource, Type_ := USERSTYPE_USERS } }
    let ctx := withAuthContext ctx r.apiKey r.appKey r.site
    match r.client.AddUserToRole ctx entitlement.Resource.Id.Resource body with
    | some err =>
      ⟨[⟨ctx, .AddUserToRole entitlement.Resource.Id.Resource body⟩],
        ⟨[], some (.wrapped "baton-datadog: failed to add user to role: " err)⟩⟩
    | none => ⟨[⟨ctx, .AddUserToRole entitlement.Resource.Id.Resource body⟩], ⟨[], none⟩⟩

/-- The `for _, role := range roles.GetData()` loop of `roleBuilder.List`. -/
def roleBuilder.List.loop : List Role → List Resource → Except Error (List Resource)
  | [], rv => .ok rv
  | role :: rest, rv =>
    match roleResource role with
    | .error err => .error err
    | .ok tr => roleBuilder.List.loop rest (rv ++ [tr])

/-- Go `roleBuilder.List` (roles.go). -/
def roleBuilder.List (codec : TokenCodec) (r : roleBuilder) (ctx : Context)
    (_parentResourceID : Option ResourceId) (pToken : Token) : Run (Completion ListResult) :=
  let ctx := withAuthContext ctx r.apiKey r.appKey r.site
  match parsePageToken codec pToken.Token { ResourceType := r.resourceType.Id, Resource := "" } with
  | (_, _, some err) => ⟨[], .returned ⟨[], "", [], some err⟩⟩
  | (bag, page, none) =>
    match r.client.ListRoles ctx page with
    | .error err => ⟨[⟨ctx, .ListRoles page⟩], .returned ⟨[], "", [], some err⟩⟩
    | .ok roles =>
      match roleBuilder.List.loop roles.GetData [] with
      | .error err => ⟨[⟨ctx, .ListRoles page⟩], .returned ⟨[], "", [], some err⟩⟩
      | .ok rv =>
        if roles.GetData.length ≠ 0 then
          match bag with
          | none => ⟨[⟨ctx, .ListRoles page⟩], .panicked "nil pointer dereference"⟩
          | some bag =>
            match getPageTokenFromPage codec bag (wrapInt64 (page + 1)) with
            | (_, some err) =>
              ⟨[⟨ctx, .ListRoles page⟩], .returned ⟨[], "", [],
                some (.wrapped "datadog-connector: failed to get token from page: " err)⟩⟩
            | (nextPageToken, none) =>
              ⟨[⟨ctx, .ListRoles page⟩], .returned ⟨rv, nextPageToken, [], none⟩⟩
        else ⟨[⟨ctx, .ListRoles page⟩], .returned ⟨rv, "", [], none⟩⟩

/-- Go `newRoleBuilder` (roles.go). -/
def newRoleBuilder (client : APIClient) (site apiKey appKey : String) : roleBuilder :=
  { resourceType := roleResourceType, client := client, site := site, apiKey := apiKey,
    appKey := appKey }

/-! ## connector.go -/

/-- The connector (`Datadog` struct). -/
structure Datadog where
  client : APIClient
  site : String
  apiKey : String
  appKey : String

/-- The SDK interface `connectorbuilder.ResourceSyncer`, closed over the three syncers
of this connector. -/
inductive ResourceSyncer where
  | user (b : userBuilder)
  | team (b : teamBuilder)
  | role (b : roleBuilder)

/-- Go `Datadog.ResourceSyncers` (connector.go). -/
def Datadog.ResourceSyncers (d : Datadog) (_ctx : Context) : List ResourceSyncer :=
  [.user (newUserBuilder d.client d.site d.apiKey d.appKey),
   .team (newTeamBuilder d.client d.site d.apiKey d.appKey),
   .role (newRoleBuilder d.client d.site d.apiKey d.appKey)]

/-- Go `Datadog.Validate` (connector.go). -/
def Datadog.Validate (d : Datadog) (ctx : Context) : Run MutationResult :=
  let ctx := withAuthContext ctx d.apiKey d.appKey d.site
  match d.client.Validate ctx with
  | .error err =>
    ⟨[⟨ctx, .Validate⟩],
      ⟨[], some (.wrapped "datadog-connector: failed to validate API key: " err)⟩⟩
  | .ok resp =>
    if !resp.GetValid then
      ⟨[⟨ctx, .Validate⟩], ⟨[], some (.leaf "datadog-connector: API key not valid")⟩⟩
    else ⟨[⟨ctx, .Validate⟩], ⟨[], none⟩⟩

/-! ## config.go -/

/-- The connector options of `config` (config.go). -/
structure config where
  Site : String
  ApiKey : String
  AppKey : String
  deriving DecidableEq, Repr

/-- Go `validateConfig` (config.go). -/
def validateConfig (cfg : config) : Option Error :=
  if cfg.Site = "" then
    some (.leaf "site is required, please provide it via --site flag or BATON_SITE environment variable")
  else if cfg.ApiKey = "" then
    some (.leaf "API key is required, please provide it via --api-key flag or BATON_API_KEY environment variable")
  else if cfg.AppKey = "" then
    some (.leaf "app key is required, please provide it via --app-key flag or BATON_APP_KEY environment variable")
  else none

/-! ## Definitions used to state the properties -/

/-- Value of a digit string read left to right from an accumulator. -/
def digitsValue (acc : Nat) (ds : List Char) : Nat :=
  ds.foldl (fun a c => a * 10 + digitValue c) acc

/-! ### A concrete token codec

The codec laws can be met: fields are written character by character (`c` before each
character, `e` at the end of a field), frames are introduced by `s`, the list of lower
frames ends with `n`, and the top frame follows `S` (or `N` when there is none). -/

def encStr (s : List Char) (tail : List Char) : List Char :=
  s.foldr (fun x acc => 'c' :: x :: acc) ('e' :: tail)

def decStr : List Char → Option (List Char × List Char)
  | [] => none
  | c :: rest =>
    if c = 'e' then some ([], rest)
    else if c = 'c' then
      match rest with
      | [] => none
      | x :: rest1 =>
        match decStr rest1 with
        | none => none
        | some (s, tail) => some (x :: s, tail)
    else none

def encState (st : PageState) (tail : List Char) : List Char :=
  encStr st.Token.data (encStr st.ResourceTypeID.data (encStr st.ResourceID.data tail))

def decState (l : List Char) : Option (PageState × List Char) :=
  match decStr l with
  | none => none
  | some (a, l1) =>
    match decStr l1 with
    | none => none
    | some (b, l2) =>
      match decStr l2 with
      | none => none
      | some (c, l3) =>
        some ({ Token := String.mk a, ResourceTypeID := String.mk b, ResourceID := String.mk c }, l3)

def encStates (sts : List PageState) (tail : List Char) : List Char :=
  sts.foldr (fun st acc => 's' :: encState st acc) ('n' :: tail)

def decStates : Nat → List Char → Option (List PageState × List Char)
  | 0, _ => none
  | _ + 1, [] => none
  | fuel + 1, c :: rest =>
    if c = 'n' then some ([], rest)
    else if c = 's' then
      match decState rest with
      | none => none
      | some (st, l1) =>
        match decStates fuel l1 with
        | none => none
        | some (sts, tail) => some (st :: sts, tail)
    else none

def encBag (b : Bag) : List Char :=
  encStates b.states
    (match b.currentState with
     | none => ['N']
     | some st => 'S' :: encState st [])

def decBag (l : List Char) : Option Bag :=
  match decStates (l.length + 1) l with
  | none => none
  | some (sts, rest) =>
    match rest with
    | [] => none
    | c :: r =>
      if c = 'N' then
        (if r = [] then some { states := sts, currentState := none } else none)
      else if c = 'S' then
        match decState r with
        | some (st, []) => some { states := sts, currentState := some st }
        | _ => none
      else none

/-- A concrete token codec, with its two laws. -/
def sampleCodec : TokenCodec where
  encode b := String.mk (encBag b)
  decode s := decBag s.data
  decode_encode := by
    intro b
    have hstr : ∀ (s tail : List Char), decStr (encStr s tail) = some (s, tail) := by
      intro s tail
      induction s with
      | nil =>
        rw [decStr.eq_def]
        simp [encStr]
      | cons x xs ih =>
        have hx : encStr (x :: xs) tail = 'c' :: x :: encStr xs tail := rfl
        rw [hx, decStr.eq_def]
        simp [ih]
    have hstate : ∀ (st : PageState) (tail : List Char),
        decState (encState st tail) = some (st, tail) := by
      intro st tail
      simp [decState, encState, hstr]
    have hlen : ∀ (sts : List PageState) (tail : List Char),
        sts.length < (encStates sts tail).length := by
      intro sts tail
      induction sts with
      | nil => simp [encStates]
      | cons st sts ih =>
        have hx : encStates (st :: sts) tail = 's' :: encState st (encStates sts tail) := rfl
        have hs : ∀ (s t : List Char), t.length ≤ (encStr s t).length := by
          intro s t
          induction s with
          | nil => simp [encStr]
          | cons y ys ihy =>
            have hy : encStr (y :: ys) t = 'c' :: y :: encStr ys t := rfl
            rw [hy]
            simp only [List.length_cons]
            omega
        have h1 := hs st.ResourceID.data (encStates sts tail)
        have h2 := hs st.ResourceTypeID.data (encStr st.ResourceID.data (encStates sts tail))
        have h3 := hs st.Token.data
          (encStr st.ResourceTypeID.data (encStr st.ResourceID.data (encStates sts tail)))
        rw [hx]
        simp only [List.length_cons, encState]
        omega
    have hstates : ∀ (sts : List PageState) (tail : List Char) (fuel : Nat),
        sts.length < fuel → decStates fuel (encStates sts tail) = some (sts, tail) := by
      intro sts tail
      induction sts with
      | nil =>
        intro fuel hf
        cases fuel with
        | zero => omega
        | succ f =>
          rw [decStates.eq_def]
          simp [encStates]
      | cons st sts ih =>
        intro fuel hf
        cases fuel with
        | zero => omega
        | succ f =>
          have hx : encStates (st :: sts) tail = 's' :: encState st (encStates sts tail) := rfl
          rw [hx, decStates.eq_def]
          simp [hstate, ih f (by simpa using hf)]
    have h := hstates b.states
      (match b.currentState with
       | none => ['N']
       | some st => 'S' :: encState st []) (List.length (encBag b) + 1)
      (by have := hlen b.states
            (match b.currentState with
             | none => ['N']
             | some st => 'S' :: encState st [])
          unfold encBag
          omega)
    show decBag (encBag b) = some b
    unfold decBag
    rw [show decStates (List.length (encBag b) + 1) (encBag b) = _ from h]
    cases hb : b.currentState with
    | none =>
      cases b
      simp_all
    | some st =>
      cases b
      simp_all
  encode_ne_empty := by
    intro b h
    have h1 : encBag b = [] := congrArg String.data h
    have h2 : ∀ (sts : List PageState) (tail : List Char), encStates sts tail ≠ [] := by
      intro sts tail
      cases sts <;> simp [encStates]
    exact h2 _ _ h1

/-- What the claims read off a listed resource: its id, its display name and its
resource type id. -/
def Resource.view (r : Resource) : String × String × String :=
  (r.Id.Resource, r.DisplayName, r.Id.ResourceType)

/-- The token that follows an accepted token: the bag re-encoded with the top frame's
page replaced by `page`. -/
def nextTokenOf (codec : TokenCodec) (bag : Bag) (st : PageState) (page : Int) : String :=
  codec.encode { states := bag.states, currentState := some { st with Token := formatInt page } }


/-! ### Scenarios -/

/-- An upstream that refuses every call; the scenarios below replace single answers. -/
def refusingClient : APIClient where
  ListUsers _ _ := .error (.leaf "unavailable")
  ListTeams _ _ := .error (.leaf "unavailable")
  ListRoles _ _ := .error (.leaf "unavailable")
  ListRoleUsers _ _ _ := .error (.leaf "unavailable")
  GetTeamMemberships _ _ _ := .error (.leaf "unavailable")
  GetUser _ _ := .error (.leaf "unavailable")
  AddUserToRole _ _ _ := some (.leaf "unavailable")
  RemoveUserFromRole _ _ _ := some (.leaf "unavailable")
  CreateTeamMembership _ _ _ := some (.leaf "unavailable")
  DeleteTeamMembership _ _ _ := some (.leaf "unavailable")
  Validate _ := .error (.leaf "unavailable")

/-- The upstream role with id "r1" and name "SRE". -/
def sreRole : Role := { Id := some "r1", Attributes := some { Name := some "SRE" } }

/-- Scenario of section 8: role page 0 holds the role "SRE", every other page is empty. -/
def sreClient : APIClient :=
  { refusingClient with
    ListRoles := fun _ page => if page = 0 then .ok ⟨[sreRole]⟩ else .ok ⟨[]⟩ }

/-- An upstream whose every role page holds the role "SRE". -/
def endlessClient : APIClient :=
  { refusingClient with ListRoles := fun _ _ => .ok ⟨[sreRole]⟩ }

/-- The bag whose only frame is the role listing with the given page field. -/
def roleBagAt (page : String) : Bag :=
  { states := [], currentState := some { Token := page, ResourceTypeID := "role", ResourceID := "" } }

/-- The token of `roleBagAt`. -/
def roleTokenAt (page : String) : String := sampleCodec.encode (roleBagAt page)

/-- The upstream team "Eng" as a connector resource. -/
def engTeam : Resource :=
  { Id := { ResourceType := "team", Resource := "Eng" }, DisplayName := "Eng", Annotations := [] }

/-- The upstream role "SRE" as a connector resource. -/
def sreResource : Resource :=
  { Id := { ResourceType := "role", Resource := "r1" }, DisplayName := "SRE", Annotations := [] }

/-- The upstream user "alice" as a connector resource. -/
def aliceResource : Resource :=
  { Id := { ResourceType := "user", Resource := "alice" }, DisplayName := "Alice", Annotations := [] }

/-- The "member" entitlement of the role "SRE". -/
def sreMember : Entitlement :=
  { Resource := sreResource, Id := "role:r1:member", DisplayName := "SRE Role member",
    Description := "Member of SRE Datadog role", GrantableTo := [userResourceType],
    Purpose := .PURPOSE_VALUE_ASSIGNMENT, Slug := "member" }

/-- The "member" entitlement of the team "Eng". -/
def engMember : Entitlement :=
  { Resource := engTeam, Id := "team:Eng:member", DisplayName := "Eng Team member",
    Description := "member of Eng Datadog team", GrantableTo := [userResourceType],
    Purpose := .PURPOSE_VALUE_ASSIGNMENT, Slug := "member" }

/-- The elevation attribute of a membership record: attributes present and role equal
to "admin". -/
def UserTeam.elevated (m : UserTeam) : Bool :=
  m.Attributes.isSome && decide (UserTeamAttributes.GetRole m.Attributes = "admin")

/-- The user id a membership record points to (read through the relationships block). -/
def UserTeam.userId (m : UserTeam) : String :=
  match m.Relationships with
  | none => ""
  | some relationships => (RelationshipToUserTeamUser.GetData relationships.User).Id

/-- The principal a looked-up user stands for: the user resource type and the user's
upstream id. -/
def User.principalId (u : User) : ResourceId :=
  { ResourceType := userResourceType.Id, Resource := u.GetId }

/-- The grants expected for one membership record and its looked-up user: the "member"
grant, followed by the "admin" grant when the record is elevated. -/
def expectedGrants (resource : Resource) (m : UserTeam) (res : UserResponse) : List Grant :=
  NewGrant resource "member" res.GetData.principalId ::
    (if m.elevated then [NewGrant resource "admin" res.GetData.principalId] else [])

/-- The per-member lookup of a membership record succeeds with the given response: the
record has a relationships block and `GetUser` on its user id answers. -/
def lookupSucceeds (client : APIClient) (ctx : Context) (m : UserTeam) (res : UserResponse) : Prop :=
  m.Relationships.isSome = true ∧ client.GetUser ctx m.userId = .ok res

/-- The upstream user "alice". -/
def aliceUser : User :=
  { Id := some "alice",
    Attributes := some { Name := some "Alice", Email := some "alice@example.com",
                         Status := some "Active", ServiceAccount := some false } }

/-- The upstream user "bob". -/
def bobUser : User :=
  { Id := some "bob",
    Attributes := some { Name := some "Bob", Email := some "bob@example.com",
                         Status := some "Active", ServiceAccount := some false } }

/-- A membership record of the given user with the given role attribute. -/
def membershipOf (userId : String) (role : Option String) : UserTeam :=
  { Attributes := some { Role := { value := role, isSet := true } },
    Id := "membership-" ++ userId,
    Relationships := some { User := some { Data := { Id := userId, Type_ := "users" } } } }

/-- Scenario of section 8: team "Eng", page 0 holds Alice (role admin) and Bob (no
role), every other page is empty. -/
def engClient : APIClient :=
  { refusingClient with
    GetTeamMemberships := fun _ teamId page =>
      if teamId = "Eng" ∧ page = 0 then
        .ok ⟨[membershipOf "alice" (some "admin"), membershipOf "bob" none]⟩
      else .ok ⟨[]⟩
    GetUser := fun _ userId =>
      if userId = "alice" then .ok ⟨some aliceUser⟩
      else if userId = "bob" then .ok ⟨some bobUser⟩
      else .error (.leaf "not found") }

/-- The bag whose only frame is the team listing with the given page field. -/
def teamBagAt (page : String) : Bag :=
  { states := [], currentState := some { Token := page, ResourceTypeID := "team", ResourceID := "" } }

/-- A decimal integer: an optional sign followed by one or more decimal digits. -/
def isDecimalInteger (s : String) : Bool :=
  match s.data with
  | [] => false
  | c :: rest =>
    if c = '+' ∨ c = '-' then !rest.isEmpty && rest.all isDecimalDigit
    else (c :: rest).all isDecimalDigit

/-- Scenario: a team page that lists the user "alice" twice, once with the role admin and
once without a role. -/
def twiceClient : APIClient :=
  { engClient with
    GetTeamMemberships := fun _ _ _ =>
      .ok ⟨[membershipOf "alice" (some "admin"), membershipOf "alice" none]⟩ }

/-- The token decodes, with the given seed, to page `q`, where `q` is the `int64` sum
`p + 1`: one more than `p` (so not below `p`) for every `p` under the largest `int64`,
and the smallest `int64` at the largest. -/
def decodesToNextPage (codec : TokenCodec) (rid : ResourceId) (p : Int) (tok : String) : Prop :=
  ∃ bag2 q, parsePageToken codec tok rid = (some bag2, q, none)
    ∧ q = wrapInt64 (p + 1)
    ∧ (p < maxInt64 → q = p + 1 ∧ q ≥ p)
    ∧ (p = maxInt64 → q = minInt64)

/-- The token of the team listing frame with the given page field. -/
def teamTokenAt (page : String) : String := sampleCodec.encode (teamBagAt page)

/-- Scenario: the team "Eng" with Alice (role admin) and Carol on page 0; the lookup of
Alice succeeds, the lookup of Carol fails. -/
def carolClient : APIClient :=
  { engClient with
    GetTeamMemberships := fun _ _ _ =>
      .ok ⟨[membershipOf "alice" (some "admin"), membershipOf "carol" none,
            membershipOf "bob" none]⟩ }

/-- Scenario: the role "SRE" (id "r1") whose page 0 of users holds Alice and Bob; every
other page is empty. -/
def sreUsersClient : APIClient :=
  { refusingClient with
    ListRoleUsers := fun _ roleId page =>
      if roleId = "r1" ∧ page = 0 then .ok ⟨[aliceUser, bobUser]⟩ else .ok ⟨[]⟩ }

/-- The bag whose only frame is the user listing with the given page field (the frame
`roleBuilder.Grants` seeds). -/
def userBagAt (page : String) : Bag :=
  { states := [], currentState := some { Token := page, ResourceTypeID := "user", ResourceID := "" } }

/-- The membership creation body for a user and a role attribute (null when `none`). -/
def membershipRequest (userId : String) (role : Option String) : UserTeamRequest :=
  { Data :=
      { Attributes := some { Role := { value := role, isSet := true } },
        Relationships := some { User := some { Data := { Id := userId, Type_ := "users" } } },
        Type_ := "team_memberships" } }

/-- The "admin" entitlement of the team "Eng". -/
def engAdmin : Entitlement :=
  { Resource := engTeam, Id := "team:Eng:admin", DisplayName := "Eng Team admin",
    Description := "admin of Eng Datadog team", GrantableTo := [userResourceType],
    Purpose := .PURPOSE_VALUE_PERMISSION, Slug := "admin" }

/-- Scenario: a team whose page 0 holds one membership record without a relationships
block, page 1 one record whose relationships block has no user, and page 2 one record of
Alice without an attributes block; every other page is empty. -/
def shapesClient : APIClient :=
  { engClient with
    GetTeamMemberships := fun _ _ page =>
      if page = 0 then .ok ⟨[{ Attributes := none, Id := "m0", Relationships := none }]⟩
      else if page = 1 then
        .ok ⟨[{ Attributes := none, Id := "m1", Relationships := some { User := none } }]⟩
      else if page = 2 then
        .ok ⟨[{ Attributes := none, Id := "m2", Relationships :=
                some { User := some { Data := { Id := "alice", Type_ := "users" } } } }]⟩
      else .ok ⟨[]⟩ }

/-- An upstream user with the given status and service-account flag. -/
def userWith (status : String) (serviceAccount : Bool) : User :=
  { Id := some "u1",
    Attributes := some { Name := some "Dana Doe", Email := some "dana@example.com",
                         Status := some status, ServiceAccount := some serviceAccount } }

/-- The status option among the options of the user trait of a resource. -/
def Resource.statusOptions (r : Resource) : List UserTrait_Status_Status :=
  r.Annotations.flatMap fun t =>
    match t with
    | .user opts => opts.flatMap fun o =>
        match o with
        | .WithStatus s => [s]
        | _ => []
    | _ => []


/-! # Properties

Lemmas first, then one theorem per claim (with its witness or counterexample). -/

/-! ## Decimal printing and parsing -/

theorem digitValue_ofNat (d : Nat) (h : d < 10) :
    digitValue (Char.ofNat (48 + d)) = d ∧ isDecimalDigit (Char.ofNat (48 + d)) = true := by
  interval_cases d <;> decide

theorem digitsValue_ge (ds : List Char) (acc : Nat) : acc ≤ digitsValue acc ds := by
  induction ds generalizing acc with
  | nil => simp [digitsValue]
  | cons c cs ih =>
    have := ih (acc * 10 + digitValue c)
    simp only [digitsValue, List.foldl_cons] at this ⊢
    omega

theorem parseUintLoop_digits (ds : List Char) (acc : Nat)
    (hd : ∀ c ∈ ds, isDecimalDigit c = true) (hv : digitsValue acc ds ≤ maxUint64) :
    parseUintLoop ds acc = .ok (digitsValue acc ds) := by
  induction ds generalizing acc with
  | nil => simp [parseUintLoop, digitsValue]
  | cons c cs ih =>
    have hc : isDecimalDigit c = true := hd c (List.mem_cons_self _ _)
    have hv2 : digitsValue (acc * 10 + digitValue c) cs ≤ maxUint64 := by
      simpa [digitsValue] using hv
    have hge := digitsValue_ge cs (acc * 10 + digitValue c)
    have h1 : ¬ acc ≥ maxUint64 / 10 + 1 := by
      simp only [maxUint64] at hv2 hge ⊢
      omega
    have h2 : ¬ acc * 10 + digitValue c > maxUint64 := by omega
    rw [parseUintLoop, if_pos hc, if_neg h1, if_neg h2,
      ih _ (fun c hc => hd c (List.mem_cons_of_mem _ hc)) hv2]
    simp [digitsValue]

theorem natDigitsAux_spec (fuel n : Nat) (acc : List Char) (h : n < fuel) :
    digitsValue 0 (natDigitsAux fuel n acc) = digitsValue n acc
    ∧ ((∀ c ∈ acc, isDecimalDigit c = true) →
        ∀ c ∈ natDigitsAux fuel n acc, isDecimalDigit c = true)
    ∧ ∃ c cs, natDigitsAux fuel n acc = c :: cs ∧ isDecimalDigit c = true := by
  induction fuel generalizing n acc with
  | zero => omega
  | succ fuel ih =>
    have hlt : n % 10 < 10 := Nat.mod_lt _ (by decide)
    obtain ⟨hdv, hdd⟩ := digitValue_ofNat (n % 10) hlt
    by_cases h0 : n / 10 = 0
    · have hn : n % 10 = n := by omega
      rw [hn] at hdv hdd
      simp only [natDigitsAux, if_pos h0, hn]
      refine ⟨?_, ?_, ?_⟩
      · simp [digitsValue, hdv, hn]
      · intro hacc c hc
        rcases List.mem_cons.mp hc with rfl | hc
        · exact hdd
        · exact hacc c hc
      · exact ⟨_, _, rfl, hdd⟩
    · have hlt2 : n / 10 < fuel := by omega
      obtain ⟨ih1, ih2, ih3⟩ := ih (n / 10) (Char.ofNat (48 + n % 10) :: acc) hlt2
      simp only [natDigitsAux, if_neg h0]
      refine ⟨?_, ?_, ih3⟩
      · rw [ih1]
        have : n / 10 * 10 + n % 10 = n := by omega
        simp [digitsValue, hdv, this]
      · intro hacc
        apply ih2
        intro c hc
        rcases List.mem_cons.mp hc with rfl | hc
        · exact hdd
        · exact hacc c hc

theorem ParseUint_natDigits (n : Nat) (h : n ≤ maxUint64) :
    ParseUint (natDigits n) = .ok n
    ∧ ∃ c cs, natDigits n = c :: cs ∧ isDecimalDigit c = true := by
  obtain ⟨h1, h2, c, cs, h3, h4⟩ := natDigitsAux_spec (n + 1) n [] (by omega)
  have h3n : natDigits n = c :: cs := h3
  refine ⟨?_, c, cs, h3n, h4⟩
  have hd : ∀ c ∈ natDigits n, isDecimalDigit c = true := h2 (by simp)
  have hv : digitsValue 0 (natDigits n) = n := by simpa [natDigits, digitsValue] using h1
  have hloop := parseUintLoop_digits _ _ hd (by rw [hv]; exact h)
  rw [hv] at hloop
  unfold ParseUint
  rw [h3n] at hloop ⊢
  exact hloop

/-- Printing an `int64` with `%d` and parsing it back with `ParseInt` gives the value. -/
theorem ParseInt_formatInt (p : Int) (hlo : minInt64 ≤ p) (hhi : p ≤ maxInt64) :
    ParseInt (formatInt p) = .ok p := by
  simp only [minInt64, maxInt64] at hlo hhi
  by_cases hneg : p < 0
  · obtain ⟨h1, -⟩ := ParseUint_natDigits p.natAbs (by simp only [maxUint64]; omega)
    simp only [formatInt, if_pos hneg, ParseInt]
    have hr : ¬ (9223372036854775808 < p.natAbs) := by omega
    simp [h1, hr, abs_of_neg hneg]
  · obtain ⟨h1, c, cs, h3, h4⟩ := ParseUint_natDigits p.toNat (by simp only [maxUint64]; omega)
    have hplus : c ≠ '+' := by rintro rfl; simp [isDecimalDigit] at h4
    have hminus : c ≠ '-' := by rintro rfl; simp [isDecimalDigit] at h4
    simp only [formatInt, if_neg hneg, ParseInt, h3]
    simp only [if_neg hplus, if_neg hminus, ← h3, h1]
    have hr : ¬ (9223372036854775808 ≤ p.toNat) := by omega
    have hv : 0 ≤ p := by omega
    simp [hminus, hr, hv]

theorem formatInt_ne_empty (p : Int) : formatInt p ≠ "" := by
  unfold formatInt
  split
  · intro h
    have := congrArg String.data h
    simp at this
  · obtain ⟨-, -, c, cs, h3, -⟩ := natDigitsAux_spec (p.toNat + 1) p.toNat [] (by omega)
    intro h
    have := congrArg String.data h
    simp [natDigits, h3] at this

/-! ## int64 arithmetic -/

theorem wrapInt64_range (x : Int) : minInt64 ≤ wrapInt64 x ∧ wrapInt64 x ≤ maxInt64 := by
  simp only [wrapInt64, minInt64, maxInt64]
  omega

theorem wrapInt64_of_range (x : Int) (hlo : minInt64 ≤ x) (hhi : x ≤ maxInt64) :
    wrapInt64 x = x := by
  simp only [wrapInt64, minInt64, maxInt64] at *
  omega

theorem wrapInt64_succ_max : wrapInt64 (maxInt64 + 1) = minInt64 := by decide

theorem ParseInt_range (s : String) (v : Int) (h : ParseInt s = .ok v) :
    minInt64 ≤ v ∧ v ≤ maxInt64 := by
  unfold ParseInt at h
  split at h
  · simp at h
  · rename_i c rest _
    simp only at h
    split at h
    · simp at h
    · rename_i un _
      by_cases hneg : c = '-'
      · by_cases hr : un > 9223372036854775808
        · simp [hneg, hr] at h
        · simp [hneg, hr] at h
          subst h
          simp only [minInt64, maxInt64]
          omega
      · by_cases hr : un ≥ 9223372036854775808
        · simp [hneg, hr] at h
        · simp [hneg, hr] at h
          subst h
          simp only [minInt64, maxInt64]
          omega

/-! ## Page tokens -/

theorem getPageFromPageToken_formatInt (p : Int) (hlo : minInt64 ≤ p) (hhi : p ≤ maxInt64) :
    getPageFromPageToken (formatInt p) = (p, none) := by
  simp [getPageFromPageToken, formatInt_ne_empty, ParseInt_formatInt p hlo hhi]

theorem getPageFromPageToken_range (tok : String) (p : Int)
    (h : getPageFromPageToken tok = (p, none)) : minInt64 ≤ p ∧ p ≤ maxInt64 := by
  unfold getPageFromPageToken at h
  split at h
  · simp only [Prod.mk.injEq, and_true] at h
    subst h
    decide
  · split at h
    · simp at h
    · rename_i page hpage
      simp only [Prod.mk.injEq, and_true] at h
      subst h
      exact ParseInt_range _ _ hpage

theorem getPageFromPageToken_err_page (tok : String) (p : Int) (e : Error)
    (h : getPageFromPageToken tok = (p, some e)) : p = 0 := by
  unfold getPageFromPageToken at h
  split at h
  · simp at h
  · split at h
    · simp only [Prod.mk.injEq] at h
      exact h.1.symm
    · simp at h

/-- With a top frame in the bag, `getPageTokenFromPage` succeeds and returns the
encoding of the bag whose top frame carries the printed page; the frames below are
untouched. -/
theorem getPageTokenFromPage_eq (codec : TokenCodec) (bag : Bag) (st : PageState) (page : Int)
    (h : bag.currentState = some st) :
    getPageTokenFromPage codec bag page =
      (codec.encode { states := bag.states,
                      currentState := some { st with Token := formatInt page } }, none) := by
  obtain ⟨states, cur⟩ := bag
  simp only at h
  subst h
  have hne := formatInt_ne_empty page
  cases hl : states.getLast? with
  | none =>
    have hs : states = [] := List.getLast?_eq_none_iff.mp hl
    subst hs
    simp [getPageTokenFromPage, Bag.NextToken, Bag.Next, Bag.Pop, Bag.Push, Bag.Marshal, hne]
  | some below =>
    have hs : states.dropLast ++ [below] = states := List.dropLast_append_getLast? below hl
    simp [getPageTokenFromPage, Bag.NextToken, Bag.Next, Bag.Pop, Bag.Push, Bag.Marshal, hne, hl, hs]

/-- What an accepted token decodes to: a bag with a top frame whose page field reads
as the returned page. -/
theorem parsePageToken_accepted (codec : TokenCodec) (i : String) (rid : ResourceId)
    (ob : Option Bag) (p : Int) (h : parsePageToken codec i rid = (ob, p, none)) :
    ∃ bag st, ob = some bag ∧ bag.currentState = some st
      ∧ getPageFromPageToken st.Token = (p, none) := by
  unfold parsePageToken at h
  split at h
  · simp at h
  · rename_i b hb
    simp only at h
    split at h
    · simp at h
    · rename_i page hpage
      simp only [Prod.mk.injEq, and_true] at h
      obtain ⟨h1, h2⟩ := h
      subst h2
      by_cases hc : b.Current = none
      · simp only [hc, if_true] at hpage h1
        simp only [Bag.Current] at hc
        refine ⟨_, { Token := "", ResourceTypeID := rid.ResourceType, ResourceID := rid.Resource },
          h1.symm, ?_, ?_⟩
        · simp [Bag.Push, hc]
        · simpa [Bag.PageToken, Bag.Current, Bag.Push, hc] using hpage
      · simp only [hc, if_false] at hpage h1
        simp only [Bag.Current] at hc
        obtain ⟨st, hst⟩ := Option.ne_none_iff_exists'.mp hc
        refine ⟨b, st, h1.symm, hst, ?_⟩
        simpa [Bag.PageToken, Bag.Current, hst] using hpage

/-- Decoding the encoding of a bag with a top frame whose page field reads as `p`. -/
theorem parsePageToken_encode (codec : TokenCodec) (b : Bag) (st : PageState) (p : Int)
    (rid : ResourceId) (hb : b.currentState = some st)
    (hp : getPageFromPageToken st.Token = (p, none)) :
    parsePageToken codec (codec.encode b) rid = (some b, p, none) := by
  simp [parsePageToken, Bag.Unmarshal, codec.encode_ne_empty, codec.decode_encode, Bag.Current,
    Bag.PageToken, hb, hp]

/-- The next token of an accepted token: it is never empty and decodes, for any seed,
to the same frames with the new page on top. -/
theorem next_token_of_accepted (codec : TokenCodec) (i : String) (rid rid2 : ResourceId)
    (ob : Option Bag) (p q : Int) (h : parsePageToken codec i rid = (ob, p, none))
    (hlo : minInt64 ≤ q) (hhi : q ≤ maxInt64) :
    ∃ bag st tok, ob = some bag ∧ bag.currentState = some st
      ∧ getPageTokenFromPage codec bag q = (tok, none) ∧ tok ≠ ""
      ∧ parsePageToken codec tok rid2 =
          (some { states := bag.states, currentState := some { st with Token := formatInt q } },
            q, none) := by
  obtain ⟨bag, st, hob, hst, -⟩ := parsePageToken_accepted codec i rid ob p h
  refine ⟨bag, st, _, hob, hst, getPageTokenFromPage_eq codec bag st q hst,
    codec.encode_ne_empty _, ?_⟩
  exact parsePageToken_encode codec _ _ q rid2 rfl (getPageFromPageToken_formatInt q hlo hhi)

theorem parsePageToken_page_range (codec : TokenCodec) (i : String) (rid : ResourceId)
    (ob : Option Bag) (p : Int) (h : parsePageToken codec i rid = (ob, p, none)) :
    minInt64 ≤ p ∧ p ≤ maxInt64 := by
  obtain ⟨bag, st, -, -, hp⟩ := parsePageToken_accepted codec i rid ob p h
  exact getPageFromPageToken_range _ _ hp

/-! ## Listing -/

theorem userResource_ok (user : User) :
    ∃ r, userResource user = .ok r
      ∧ r.Id = { ResourceType := userResourceType.Id, Resource := user.GetId }
      ∧ r.DisplayName = UserAttributes.GetName user.Attributes := by
  simp [userResource, NewUserResource]

theorem teamResource_ok (team : Team) :
    ∃ r, teamResource team = .ok r
      ∧ r.Id = { ResourceType := teamResourceType.Id, Resource := team.GetId }
      ∧ r.DisplayName = team.Attributes.GetName := by
  simp [teamResource, NewGroupResource]

theorem roleResource_ok (role : Role) :
    ∃ r, roleResource role = .ok r
      ∧ r.Id = { ResourceType := roleResourceType.Id, Resource := role.GetId }
      ∧ r.DisplayName = RoleAttributes.GetName role.Attributes := by
  simp [roleResource, NewRoleResource]

theorem userBuilder_List_loop_ok (users : List User) (acc : List Resource) :
    ∃ rv, userBuilder.List.loop users acc = .ok (acc ++ rv)
      ∧ rv.map Resource.view = users.map (fun r =>
          (r.GetId, UserAttributes.GetName r.Attributes, userResourceType.Id)) := by
  induction users generalizing acc with
  | nil => exact ⟨[], by simp [userBuilder.List.loop], rfl⟩
  | cons user rest ih =>
    obtain ⟨r, hr, hid, hname⟩ := userResource_ok user
    obtain ⟨rv, hrv, hview⟩ := ih (acc ++ [r])
    refine ⟨r :: rv, ?_, ?_⟩
    · simp [userBuilder.List.loop, hr, hrv]
    · simp [hview, Resource.view, hid, hname]

theorem teamBuilder_List_loop_ok (teams : List Team) (acc : List Resource) :
    ∃ rv, teamBuilder.List.loop teams acc = .ok (acc ++ rv)
      ∧ rv.map Resource.view = teams.map (fun r =>
          (r.GetId, r.Attributes.GetName, teamResourceType.Id)) := by
  induction teams generalizing acc with
  | nil => exact ⟨[], by simp [teamBuilder.List.loop], rfl⟩
  | cons team rest ih =>
    obtain ⟨r, hr, hid, hname⟩ := teamResource_ok team
    obtain ⟨rv, hrv, hview⟩ := ih (acc ++ [r])
    refine ⟨r :: rv, ?_, ?_⟩
    · simp [teamBuilder.List.loop, hr, hrv]
    · simp [hview, Resource.view, hid, hname]

theorem roleBuilder_List_loop_ok (roles : List Role) (acc : List Resource) :
    ∃ rv, roleBuilder.List.loop roles acc = .ok (acc ++ rv)
      ∧ rv.map Resource.view = roles.map (fun r =>
          (r.GetId, RoleAttributes.GetName r.Attributes, roleResourceType.Id)) := by
  induction roles generalizing acc with
  | nil => exact ⟨[], by simp [roleBuilder.List.loop], rfl⟩
  | cons role rest ih =>
    obtain ⟨r, hr, hid, hname⟩ := roleResource_ok role
    obtain ⟨rv, hrv, hview⟩ := ih (acc ++ [r])
    refine ⟨r :: rv, ?_, ?_⟩
    · simp [roleBuilder.List.loop, hr, hrv]
    · simp [hview, Resource.view, hid, hname]

/-- Behaviour of `userBuilder.List` on an accepted token and a successful upstream page: one
request, the projected records, and the next token (empty for an empty page). -/
theorem userBuilder_List_spec (codec : TokenCodec) (u : userBuilder) (ctx : Context)
    (parent : Option ResourceId) (pToken : Token) (ob : Option Bag) (p : Int)
    (users : UsersResponse)
    (h : parsePageToken codec pToken.Token { ResourceType := u.resourceType.Id, Resource := "" }
      = (ob, p, none))
    (hu : u.client.ListUsers (withAuthContext ctx u.apiKey u.appKey u.site) p = .ok users) :
    ∃ rv bag st, ob = some bag ∧ bag.currentState = some st
      ∧ rv.map Resource.view = users.GetData.map (fun r =>
          (r.GetId, UserAttributes.GetName r.Attributes, userResourceType.Id))
      ∧ userBuilder.List codec u ctx parent pToken =
          ⟨[⟨withAuthContext ctx u.apiKey u.appKey u.site, .ListUsers p⟩],
            .returned ⟨rv, if users.GetData = [] then ""
              else nextTokenOf codec bag st (wrapInt64 (p + 1)), [], none⟩⟩ := by
  obtain ⟨bag, st, hob, hst, -⟩ := parsePageToken_accepted codec _ _ ob p h
  obtain ⟨rv, hrv, hview⟩ := userBuilder_List_loop_ok users.GetData []
  refine ⟨rv, bag, st, hob, hst, hview, ?_⟩
  subst hob
  have hnext := getPageTokenFromPage_eq codec bag st (wrapInt64 (p + 1)) hst
  by_cases hd : users.GetData = []
  · simp [hd] at hrv
    simp [userBuilder.List, h, hu, hd, hrv]
  · simp only [List.nil_append] at hrv
    simp [userBuilder.List, h, hu, hd, hrv, hnext, nextTokenOf]

/-- Behaviour of `teamBuilder.List` on an accepted token and a successful upstream page: one
request, the projected records, and the next token (empty for an empty page). -/
theorem teamBuilder_List_spec (codec : TokenCodec) (t : teamBuilder) (ctx : Context)
    (parent : Option ResourceId) (pToken : Token) (ob : Option Bag) (p : Int)
    (teams : TeamsResponse)
    (h : parsePageToken codec pToken.Token { ResourceType := t.resourceType.Id, Resource := "" }
      = (ob, p, none))
    (hu : t.client.ListTeams (withAuthContext ctx t.apiKey t.appKey t.site) p = .ok teams) :
    ∃ rv bag st, ob = some bag ∧ bag.currentState = some st
      ∧ rv.map Resource.view = teams.GetData.map (fun r =>
          (r.GetId, r.Attributes.GetName, teamResourceType.Id))
      ∧ teamBuilder.List codec t ctx parent pToken =
          ⟨[⟨withAuthContext ctx t.apiKey t.appKey t.site, .ListTeams p⟩],
            .returned ⟨rv, if teams.GetData = [] then ""
              else nextTokenOf codec bag st (wrapInt64 (p + 1)), [], none⟩⟩ := by
  obtain ⟨bag, st, hob, hst, -⟩ := parsePageToken_accepted codec _ _ ob p h
  obtain ⟨rv, hrv, hview⟩ := teamBuilder_List_loop_ok teams.GetData []
  refine ⟨rv, bag, st, hob, hst, hview, ?_⟩
  subst hob
  have hnext := getPageTokenFromPage_eq codec bag st (wrapInt64 (p + 1)) hst
  by_cases hd : teams.GetData = []
  · simp [hd] at hrv
    simp [teamBuilder.List, h, hu, hd, hrv]
  · simp only [List.nil_append] at hrv
    simp [teamBuilder.List, h, hu, hd, hrv, hnext, nextTokenOf]

/-- Behaviour of `roleBuilder.List` on an accepted token and a successful upstream page: one
request, the projected records, and the next token (empty for an empty page). -/
theorem roleBuilder_List_spec (codec : TokenCodec) (r0 : roleBuilder) (ctx : Context)
    (parent : Option ResourceId) (pToken : Token) (ob : Option Bag) (p : Int)
    (roles : RolesResponse)
    (h : parsePageToken codec pToken.Token { ResourceType := r0.resourceType.Id, Resource := "" }
      = (ob, p, none))
    (hu : r0.client.ListRoles (withAuthContext ctx r0.apiKey r0.appKey r0.site) p = .ok roles) :
    ∃ rv bag st, ob = some bag ∧ bag.currentState = some st
      ∧ rv.map Resource.view = roles.GetData.map (fun r =>
          (r.GetId, RoleAttributes.GetName r.Attributes, roleResourceType.Id))
      ∧ roleBuilder.List codec r0 ctx parent pToken =
          ⟨[⟨withAuthContext ctx r0.apiKey r0.appKey r0.site, .ListRoles p⟩],
            .returned ⟨rv, if roles.GetData = [] then ""
              else nextTokenOf codec bag st (wrapInt64 (p + 1)), [], none⟩⟩ := by
  obtain ⟨bag, st, hob, hst, -⟩ := parsePageToken_accepted codec _ _ ob p h
  obtain ⟨rv, hrv, hview⟩ := roleBuilder_List_loop_ok roles.GetData []
  refine ⟨rv, bag, st, hob, hst, hview, ?_⟩
  subst hob
  have hnext := getPageTokenFromPage_eq codec bag st (wrapInt64 (p + 1)) hst
  by_cases hd : roles.GetData = []
  · simp [hd] at hrv
    simp [roleBuilder.List, h, hu, hd, hrv]
  · simp only [List.nil_append] at hrv
    simp [roleBuilder.List, h, hu, hd, hrv, hnext, nextTokenOf]


/-! ## C1: the next token of a non-empty page -/

/-- C1, as stated, fails at the last `int64` page: the token whose top frame is at page
9223372036854775807 is accepted, the upstream page holds one role, the call returns no
error, and the next token decodes to page -9223372036854775808, not to
9223372036854775808. -/
theorem list_next_page_wraps_at_max :
    parsePageToken sampleCodec (roleTokenAt "9223372036854775807")
        { ResourceType := (newRoleBuilder endlessClient "datadoghq.com" "api" "app").resourceType.Id,
          Resource := "" }
      = (some (roleBagAt "9223372036854775807"), 9223372036854775807, none)
    ∧ endlessClient.ListRoles (withAuthContext .background "api" "app" "datadoghq.com")
        9223372036854775807 = .ok ⟨[sreRole]⟩
    ∧ ∃ res, (roleBuilder.List sampleCodec (newRoleBuilder endlessClient "datadoghq.com" "api" "app")
          .background none ⟨0, roleTokenAt "9223372036854775807"⟩).outcome = .returned res
        ∧ res.err = none
        ∧ (parsePageToken sampleCodec res.nextPageToken { ResourceType := "role", Resource := "" }).2
            = (-9223372036854775808, none)
        ∧ (-9223372036854775808 : Int) ≠ 9223372036854775807 + 1 := by
  refine ⟨by decide, rfl, _, rfl, by decide, by decide, by decide⟩

/-- C1 (amended): for each of the three List operations, for every accepted token with
page `p` and every successful upstream page holding at least one record, the call
returns no error and a next-token that decodes to the `int64` sum `p + 1`; that sum is
`p + 1` for every page below the largest `int64`. -/
theorem list_next_token_decodes_to_next_page (codec : TokenCodec) (ctx : Context)
    (parent : Option ResourceId) (pToken : Token) (ob : Option Bag) (p : Int) :
    (∀ (u : userBuilder) (users : UsersResponse),
        parsePageToken codec pToken.Token { ResourceType := u.resourceType.Id, Resource := "" }
          = (ob, p, none) →
        u.client.ListUsers (withAuthContext ctx u.apiKey u.appKey u.site) p = .ok users →
        users.GetData ≠ [] →
        ∃ res bag2, (userBuilder.List codec u ctx parent pToken).outcome = .returned res
          ∧ res.err = none
          ∧ parsePageToken codec res.nextPageToken
              { ResourceType := u.resourceType.Id, Resource := "" }
              = (some bag2, wrapInt64 (p + 1), none)
          ∧ (p < maxInt64 → wrapInt64 (p + 1) = p + 1))
    ∧ (∀ (t : teamBuilder) (teams : TeamsResponse),
        parsePageToken codec pToken.Token { ResourceType := t.resourceType.Id, Resource := "" }
          = (ob, p, none) →
        t.client.ListTeams (withAuthContext ctx t.apiKey t.appKey t.site) p = .ok teams →
        teams.GetData ≠ [] →
        ∃ res bag2, (teamBuilder.List codec t ctx parent pToken).outcome = .returned res
          ∧ res.err = none
          ∧ parsePageToken codec res.nextPageToken
              { ResourceType := t.resourceType.Id, Resource := "" }
              = (some bag2, wrapInt64 (p + 1), none)
          ∧ (p < maxInt64 → wrapInt64 (p + 1) = p + 1))
    ∧ (∀ (r : roleBuilder) (roles : RolesResponse),
        parsePageToken codec pToken.Token { ResourceType := r.resourceType.Id, Resource := "" }
          = (ob, p, none) →
        r.client.ListRoles (withAuthContext ctx r.apiKey r.appKey r.site) p = .ok roles →
        roles.GetData ≠ [] →
        ∃ res bag2, (roleBuilder.List codec r ctx parent pToken).outcome = .returned res
          ∧ res.err = none
          ∧ parsePageToken codec res.nextPageToken
              { ResourceType := r.resourceType.Id, Resource := "" }
              = (some bag2, wrapInt64 (p + 1), none)
          ∧ (p < maxInt64 → wrapInt64 (p + 1) = p + 1)) := by
  have hwrap : ∀ q : Int, minInt64 ≤ q → q < maxInt64 → wrapInt64 (q + 1) = q + 1 := by
    intro q h1 h2
    apply wrapInt64_of_range <;> simp only [minInt64, maxInt64] at * <;> omega
  have hdec : ∀ (bag : Bag) (st : PageState) (rid : ResourceId), ∃ bag2,
      parsePageToken codec (nextTokenOf codec bag st (wrapInt64 (p + 1))) rid
        = (some bag2, wrapInt64 (p + 1), none) := by
    intro bag st rid
    exact ⟨_, parsePageToken_encode codec _ _ _ rid rfl
      (getPageFromPageToken_formatInt _ (wrapInt64_range _).1 (wrapInt64_range _).2)⟩
  refine ⟨?_, ?_, ?_⟩
  · intro u users h hu hne
    obtain ⟨rv, bag, st, -, -, -, hrun⟩ := userBuilder_List_spec codec u ctx parent pToken ob p users h hu
    obtain ⟨bag2, hb2⟩ := hdec bag st { ResourceType := u.resourceType.Id, Resource := "" }
    refine ⟨_, bag2, by rw [hrun], rfl, ?_, hwrap p (parsePageToken_page_range _ _ _ _ _ h).1⟩
    simp only [if_neg hne]
    exact hb2
  · intro t teams h hu hne
    obtain ⟨rv, bag, st, -, -, -, hrun⟩ := teamBuilder_List_spec codec t ctx parent pToken ob p teams h hu
    obtain ⟨bag2, hb2⟩ := hdec bag st { ResourceType := t.resourceType.Id, Resource := "" }
    refine ⟨_, bag2, by rw [hrun], rfl, ?_, hwrap p (parsePageToken_page_range _ _ _ _ _ h).1⟩
    simp only [if_neg hne]
    exact hb2
  · intro r roles h hu hne
    obtain ⟨rv, bag, st, -, -, -, hrun⟩ := roleBuilder_List_spec codec r ctx parent pToken ob p roles h hu
    obtain ⟨bag2, hb2⟩ := hdec bag st { ResourceType := r.resourceType.Id, Resource := "" }
    refine ⟨_, bag2, by rw [hrun], rfl, ?_, hwrap p (parsePageToken_page_range _ _ _ _ _ h).1⟩
    simp only [if_neg hne]
    exact hb2

/-- C1 (amended), at the fresh token of the role listing: page 0 holds the role "SRE"
and the next token decodes to page 1. -/
theorem list_next_token_decodes_to_next_page_witness :
    parsePageToken sampleCodec ""
        { ResourceType := (newRoleBuilder sreClient "datadoghq.com" "api" "app").resourceType.Id,
          Resource := "" } = (some (roleBagAt ""), 0, none)
    ∧ sreClient.ListRoles (withAuthContext .background "api" "app" "datadoghq.com") 0
        = .ok ⟨[sreRole]⟩
    ∧ (⟨[sreRole]⟩ : RolesResponse).GetData ≠ []
    ∧ ∃ res bag2, (roleBuilder.List sampleCodec (newRoleBuilder sreClient "datadoghq.com" "api" "app")
          .background none ⟨0, ""⟩).outcome = .returned res
        ∧ res.err = none
        ∧ parsePageToken sampleCodec res.nextPageToken { ResourceType := "role", Resource := "" }
            = (some bag2, 1, none) := by
  refine ⟨by decide, rfl, by decide, ?_⟩
  obtain ⟨res, bag2, h1, h2, h3, h4⟩ :=
    (list_next_token_decodes_to_next_page sampleCodec .background none ⟨0, ""⟩
      (some (roleBagAt "")) 0).2.2
      (newRoleBuilder sreClient "datadoghq.com" "api" "app") ⟨[sreRole]⟩ (by decide) rfl (by decide)
  refine ⟨res, bag2, h1, h2, ?_⟩
  rw [h4 (by decide)] at h3
  exact h3

/-! ## C2: an empty page ends the listing -/

/-- C2: for each of the three List operations, for every accepted token with page `p`,
when the upstream response for page `p` holds zero records the call returns the empty
resource list, the empty next-token and no error, and the single upstream request of
the call is the list request for page `p`. -/
theorem list_empty_page_is_terminal (codec : TokenCodec) (ctx : Context)
    (parent : Option ResourceId) (pToken : Token) (ob : Option Bag) (p : Int) :
    (∀ (u : userBuilder) (users : UsersResponse),
        parsePageToken codec pToken.Token { ResourceType := u.resourceType.Id, Resource := "" }
          = (ob, p, none) →
        u.client.ListUsers (withAuthContext ctx u.apiKey u.appKey u.site) p = .ok users →
        users.GetData = [] →
        userBuilder.List codec u ctx parent pToken =
          ⟨[⟨withAuthContext ctx u.apiKey u.appKey u.site, .ListUsers p⟩],
            .returned ⟨[], "", [], none⟩⟩)
    ∧ (∀ (t : teamBuilder) (teams : TeamsResponse),
        parsePageToken codec pToken.Token { ResourceType := t.resourceType.Id, Resource := "" }
          = (ob, p, none) →
        t.client.ListTeams (withAuthContext ctx t.apiKey t.appKey t.site) p = .ok teams →
        teams.GetData = [] →
        teamBuilder.List codec t ctx parent pToken =
          ⟨[⟨withAuthContext ctx t.apiKey t.appKey t.site, .ListTeams p⟩],
            .returned ⟨[], "", [], none⟩⟩)
    ∧ (∀ (r : roleBuilder) (roles : RolesResponse),
        parsePageToken codec pToken.Token { ResourceType := r.resourceType.Id, Resource := "" }
          = (ob, p, none) →
        r.client.ListRoles (withAuthContext ctx r.apiKey r.appKey r.site) p = .ok roles →
        roles.GetData = [] →
        roleBuilder.List codec r ctx parent pToken =
          ⟨[⟨withAuthContext ctx r.apiKey r.appKey r.site, .ListRoles p⟩],
            .returned ⟨[], "", [], none⟩⟩) := by
  refine ⟨?_, ?_, ?_⟩
  · intro u users h hu he
    obtain ⟨rv, bag, st, -, -, hview, hrun⟩ :=
      userBuilder_List_spec codec u ctx parent pToken ob p users h hu
    have hrv : rv = [] := by simpa [he] using hview
    rw [hrun, hrv, if_pos he]
  · intro t teams h hu he
    obtain ⟨rv, bag, st, -, -, hview, hrun⟩ :=
      teamBuilder_List_spec codec t ctx parent pToken ob p teams h hu
    have hrv : rv = [] := by simpa [he] using hview
    rw [hrun, hrv, if_pos he]
  · intro r roles h hu he
    obtain ⟨rv, bag, st, -, -, hview, hrun⟩ :=
      roleBuilder_List_spec codec r ctx parent pToken ob p roles h hu
    have hrv : rv = [] := by simpa [he] using hview
    rw [hrun, hrv, if_pos he]

/-- C2, at page 1 of the role scenario: the page is empty, the call returns nothing
with the empty token, and only the list request for page 1 was issued. -/
theorem list_empty_page_is_terminal_witness :
    parsePageToken sampleCodec (roleTokenAt "1")
        { ResourceType := (newRoleBuilder sreClient "datadoghq.com" "api" "app").resourceType.Id,
          Resource := "" } = (some (roleBagAt "1"), 1, none)
    ∧ sreClient.ListRoles (withAuthContext .background "api" "app" "datadoghq.com") 1 = .ok ⟨[]⟩
    ∧ (⟨[]⟩ : RolesResponse).GetData = []
    ∧ roleBuilder.List sampleCodec (newRoleBuilder sreClient "datadoghq.com" "api" "app")
          .background none ⟨0, roleTokenAt "1"⟩ =
        ⟨[⟨withAuthContext .background "api" "app" "datadoghq.com", .ListRoles 1⟩],
          .returned ⟨[], "", [], none⟩⟩ :=
  ⟨by decide, rfl, rfl,
    (list_empty_page_is_terminal sampleCodec .background none ⟨0, roleTokenAt "1"⟩
      (some (roleBagAt "1")) 1).2.2
      (newRoleBuilder sreClient "datadoghq.com" "api" "app") ⟨[]⟩ (by decide) rfl rfl⟩

/-! ## C8: the listed resources -/

/-- C8: for each List operation of a syncer built by the connector, for every accepted
token and every successful upstream page, the returned resources are as many as the
records and, in the same order, carry the record's upstream id, the record's upstream
name as display name, and the resource type of the syncer. -/
theorem list_projects_every_record (codec : TokenCodec) (ctx : Context)
    (parent : Option ResourceId) (pToken : Token) (ob : Option Bag) (p : Int)
    (client : APIClient) (site apiKey appKey : String) :
    (∀ users : UsersResponse,
        parsePageToken codec pToken.Token
          { ResourceType := (newUserBuilder client site apiKey appKey).resourceType.Id,
            Resource := "" } = (ob, p, none) →
        client.ListUsers (withAuthContext ctx apiKey appKey site) p = .ok users →
        ∃ res, (userBuilder.List codec (newUserBuilder client site apiKey appKey) ctx parent
              pToken).outcome = .returned res
          ∧ res.err = none
          ∧ res.rv.length = users.GetData.length
          ∧ res.rv.map Resource.view = users.GetData.map (fun r =>
              (r.GetId, UserAttributes.GetName r.Attributes,
                (newUserBuilder client site apiKey appKey).resourceType.Id)))
    ∧ (∀ teams : TeamsResponse,
        parsePageToken codec pToken.Token
          { ResourceType := (newTeamBuilder client site apiKey appKey).resourceType.Id,
            Resource := "" } = (ob, p, none) →
        client.ListTeams (withAuthContext ctx apiKey appKey site) p = .ok teams →
        ∃ res, (teamBuilder.List codec (newTeamBuilder client site apiKey appKey) ctx parent
              pToken).outcome = .returned res
          ∧ res.err = none
          ∧ res.rv.length = teams.GetData.length
          ∧ res.rv.map Resource.view = teams.GetData.map (fun r =>
              (r.GetId, r.Attributes.GetName,
                (newTeamBuilder client site apiKey appKey).resourceType.Id)))
    ∧ (∀ roles : RolesResponse,
        parsePageToken codec pToken.Token
          { ResourceType := (newRoleBuilder client site apiKey appKey).resourceType.Id,
            Resource := "" } = (ob, p, none) →
        client.ListRoles (withAuthContext ctx apiKey appKey site) p = .ok roles →
        ∃ res, (roleBuilder.List codec (newRoleBuilder client site apiKey appKey) ctx parent
              pToken).outcome = .returned res
          ∧ res.err = none
          ∧ res.rv.length = roles.GetData.length
          ∧ res.rv.map Resource.view = roles.GetData.map (fun r =>
              (r.GetId, RoleAttributes.GetName r.Attributes,
                (newRoleBuilder client site apiKey appKey).resourceType.Id))) := by
  refine ⟨?_, ?_, ?_⟩
  · intro users h hu
    obtain ⟨rv, bag, st, -, -, hview, hrun⟩ :=
      userBuilder_List_spec codec (newUserBuilder client site apiKey appKey) ctx parent pToken ob p
        users h hu
    refine ⟨_, by rw [hrun], rfl, ?_, hview⟩
    simpa using congrArg List.length hview
  · intro teams h hu
    obtain ⟨rv, bag, st, -, -, hview, hrun⟩ :=
      teamBuilder_List_spec codec (newTeamBuilder client site apiKey appKey) ctx parent pToken ob p
        teams h hu
    refine ⟨_, by rw [hrun], rfl, ?_, hview⟩
    simpa using congrArg List.length hview
  · intro roles h hu
    obtain ⟨rv, bag, st, -, -, hview, hrun⟩ :=
      roleBuilder_List_spec codec (newRoleBuilder client site apiKey appKey) ctx parent pToken ob p
        roles h hu
    refine ⟨_, by rw [hrun], rfl, ?_, hview⟩
    simpa using congrArg List.length hview

/-- C8, on the role scenario of section 8: page 0 yields exactly one role resource,
with id "r1", display name "SRE" and type "role", and a non-empty next-token; the call
with that next-token (page 1) yields no resources and the empty token. -/
theorem list_projects_every_record_witness :
    parsePageToken sampleCodec ""
        { ResourceType := (newRoleBuilder sreClient "datadoghq.com" "api" "app").resourceType.Id,
          Resource := "" } = (some (roleBagAt ""), 0, none)
    ∧ sreClient.ListRoles (withAuthContext .background "api" "app" "datadoghq.com") 0
        = .ok ⟨[sreRole]⟩
    ∧ ∃ res, (roleBuilder.List sampleCodec (newRoleBuilder sreClient "datadoghq.com" "api" "app")
          .background none ⟨0, ""⟩).outcome = .returned res
        ∧ res.err = none
        ∧ res.rv.length = 1
        ∧ res.rv.map Resource.view = [("r1", "SRE", "role")]
        ∧ res.nextPageToken ≠ ""
        ∧ (roleBuilder.List sampleCodec (newRoleBuilder sreClient "datadoghq.com" "api" "app")
            .background none ⟨0, res.nextPageToken⟩).outcome = .returned ⟨[], "", [], none⟩ := by
  refine ⟨by decide, rfl, ?_⟩
  obtain ⟨res, h1, h2, h3, h4⟩ :=
    (list_projects_every_record sampleCodec .background none ⟨0, ""⟩ (some (roleBagAt "")) 0
      sreClient "datadoghq.com" "api" "app").2.2 ⟨[sreRole]⟩ (by decide) rfl
  refine ⟨res, h1, h2, h3, h4, ?_, ?_⟩
  · have h5 : (roleBuilder.List sampleCodec (newRoleBuilder sreClient "datadoghq.com" "api" "app")
          .background none ⟨0, ""⟩).outcome
        = .returned ⟨[{ Id := ⟨"role", "r1"⟩, DisplayName := "SRE",
                        Annotations := [.role [.WithRoleProfile [("role_name", "SRE"), ("role_id", "r1")]]] }],
            roleTokenAt "1", [], none⟩ := by decide
    rw [h5] at h1
    cases h1
    decide
  · have h5 : (roleBuilder.List sampleCodec (newRoleBuilder sreClient "datadoghq.com" "api" "app")
          .background none ⟨0, ""⟩).outcome
        = .returned ⟨[{ Id := ⟨"role", "r1"⟩, DisplayName := "SRE",
                        Annotations := [.role [.WithRoleProfile [("role_name", "SRE"), ("role_id", "r1")]]] }],
            roleTokenAt "1", [], none⟩ := by decide
    rw [h5] at h1
    cases h1
    decide

/-! ## C3, C4, C5: the mutation gateway -/

/-- C3: for `roleBuilder.Grant` and `teamBuilder.Grant`, for every principal whose
resource type id differs from the user resource type id and every entitlement, the call
returns an error (with nil annotations) and issues no upstream call. -/
theorem grant_rejects_non_user_principal (ctx : Context) (principal : Resource)
    (entitlement : Entitlement) (h : principal.Id.ResourceType ≠ userResourceType.Id) :
    (∀ r : roleBuilder,
        (roleBuilder.Grant r ctx principal entitlement).outcome.err.isSome = true
        ∧ (roleBuilder.Grant r ctx principal entitlement).outcome.annos = []
        ∧ (roleBuilder.Grant r ctx principal entitlement).requests = [])
    ∧ (∀ t : teamBuilder,
        (teamBuilder.Grant t ctx principal entitlement).outcome.err.isSome = true
        ∧ (teamBuilder.Grant t ctx principal entitlement).outcome.annos = []
        ∧ (teamBuilder.Grant t ctx principal entitlement).requests = []) := by
  constructor
  · intro r
    simp [roleBuilder.Grant, h]
  · intro t
    simp [teamBuilder.Grant, h]

/-- C3, on the scenario of section 8: granting member of role "SRE" to the team "Eng"
fails and no upstream call is recorded. -/
theorem grant_rejects_non_user_principal_witness :
    engTeam.Id.ResourceType ≠ userResourceType.Id
    ∧ (roleBuilder.Grant (newRoleBuilder sreClient "datadoghq.com" "api" "app") .background
          engTeam sreMember).outcome.err.isSome = true
    ∧ (roleBuilder.Grant (newRoleBuilder sreClient "datadoghq.com" "api" "app") .background
          engTeam sreMember).requests = [] :=
  ⟨by decide,
    ((grant_rejects_non_user_principal .background engTeam sreMember (by decide)).1
      (newRoleBuilder sreClient "datadoghq.com" "api" "app")).1,
    ((grant_rejects_non_user_principal .background engTeam sreMember (by decide)).1
      (newRoleBuilder sreClient "datadoghq.com" "api" "app")).2.2⟩

/-- C4: for `roleBuilder.Revoke` and `teamBuilder.Revoke`, for every grant whose
principal's resource type id differs from the user resource type id, the call returns
an error and issues no upstream call; and Revoke refuses a grant without an upstream
call exactly when Grant refuses its principal and entitlement without one. -/
theorem revoke_rejects_non_user_principal (ctx : Context) (grant : Grant) :
    (grant.Principal.Id.ResourceType ≠ userResourceType.Id →
      (∀ r : roleBuilder,
          (roleBuilder.Revoke r ctx grant).outcome.err.isSome = true
          ∧ (roleBuilder.Revoke r ctx grant).outcome.annos = []
          ∧ (roleBuilder.Revoke r ctx grant).requests = [])
      ∧ (∀ t : teamBuilder,
          (teamBuilder.Revoke t ctx grant).outcome.err.isSome = true
          ∧ (teamBuilder.Revoke t ctx grant).outcome.annos = []
          ∧ (teamBuilder.Revoke t ctx grant).requests = []))
    ∧ (∀ r : roleBuilder,
        ((roleBuilder.Revoke r ctx grant).requests = []
          ↔ grant.Principal.Id.ResourceType ≠ userResourceType.Id)
        ∧ ((roleBuilder.Grant r ctx grant.Principal grant.Entitlement).requests = []
          ↔ grant.Principal.Id.ResourceType ≠ userResourceType.Id))
    ∧ (∀ t : teamBuilder,
        ((teamBuilder.Revoke t ctx grant).requests = []
          ↔ grant.Principal.Id.ResourceType ≠ userResourceType.Id)
        ∧ ((teamBuilder.Grant t ctx grant.Principal grant.Entitlement).requests = []
          ↔ grant.Principal.Id.ResourceType ≠ userResourceType.Id)) := by
  refine ⟨?_, ?_, ?_⟩
  · intro h
    constructor
    · intro r
      simp [roleBuilder.Revoke, h]
    · intro t
      simp [teamBuilder.Revoke, h]
  · intro r
    by_cases h : grant.Principal.Id.ResourceType = userResourceType.Id
    · constructor
      · simp only [roleBuilder.Revoke, h, ne_eq, not_true_eq_false, if_false]
        split <;> simp
      · simp only [roleBuilder.Grant, h, ne_eq, not_true_eq_false, if_false]
        split <;> simp
    · simp [roleBuilder.Revoke, roleBuilder.Grant, h]
  · intro t
    by_cases h : grant.Principal.Id.ResourceType = userResourceType.Id
    · constructor
      · simp only [teamBuilder.Revoke, h, ne_eq, not_true_eq_false, if_false]
        split <;> simp
      · simp only [teamBuilder.Grant, h, ne_eq, not_true_eq_false, if_false]
        split <;> simp
    · simp [teamBuilder.Revoke, teamBuilder.Grant, h]

/-- C4, on a grant of member of team "Eng" held by the role "SRE": Revoke fails and no
upstream call is recorded. -/
theorem revoke_rejects_non_user_principal_witness :
    (NewGrant engTeam "member" sreResource.Id).Principal.Id.ResourceType ≠ userResourceType.Id
    ∧ (teamBuilder.Revoke (newTeamBuilder sreClient "datadoghq.com" "api" "app") .background
          (NewGrant engTeam "member" sreResource.Id)).outcome.err.isSome = true
    ∧ (teamBuilder.Revoke (newTeamBuilder sreClient "datadoghq.com" "api" "app") .background
          (NewGrant engTeam "member" sreResource.Id)).requests = [] :=
  ⟨by decide,
    (((revoke_rejects_non_user_principal .background
        (NewGrant engTeam "member" sreResource.Id)).1 (by decide)).2
      (newTeamBuilder sreClient "datadoghq.com" "api" "app")).1,
    (((revoke_rejects_non_user_principal .background
        (NewGrant engTeam "member" sreResource.Id)).1 (by decide)).2
      (newTeamBuilder sreClient "datadoghq.com" "api" "app")).2.2⟩

/-- C5: for the Grant and Revoke of the role and team syncers, for every input whose
principal has the user resource type, the call issues exactly one upstream request,
a write, whether the upstream accepts it or not; that call names the resource id of the
entitlement's owning resource and the principal's resource id. -/
theorem mutation_issues_one_write (ctx : Context) (principal : Resource)
    (entitlement : Entitlement) (grantId : String)
    (h : principal.Id.ResourceType = userResourceType.Id) :
    (∀ r : roleBuilder,
        (roleBuilder.Grant r ctx principal entitlement).requests =
          [⟨withAuthContext ctx r.apiKey r.appKey r.site,
            .AddUserToRole entitlement.Resource.Id.Resource
              ⟨⟨principal.Id.Resource, USERSTYPE_USERS⟩⟩⟩]
        ∧ (roleBuilder.Grant r ctx principal entitlement).requests.map
            (fun q => q.call.isWrite) = [true])
    ∧ (∀ r : roleBuilder,
        (roleBuilder.Revoke r ctx ⟨entitlement, principal, grantId⟩).requests =
          [⟨withAuthContext ctx r.apiKey r.appKey r.site,
            .RemoveUserFromRole entitlement.Resource.Id.Resource
              ⟨⟨principal.Id.Resource, USERSTYPE_USERS⟩⟩⟩]
        ∧ (roleBuilder.Revoke r ctx ⟨entitlement, principal, grantId⟩).requests.map
            (fun q => q.call.isWrite) = [true])
    ∧ (∀ t : teamBuilder, ∃ body : UserTeamRequest,
        (teamBuilder.Grant t ctx principal entitlement).requests =
          [⟨withAuthContext ctx t.apiKey t.appKey t.site,
            .CreateTeamMembership entitlement.Resource.Id.Resource body⟩]
        ∧ body.Data.Relationships =
            some ⟨some ⟨⟨principal.Id.Resource, USERTEAMUSERTYPE_USERS⟩⟩⟩
        ∧ (teamBuilder.Grant t ctx principal entitlement).requests.map
            (fun q => q.call.isWrite) = [true])
    ∧ (∀ t : teamBuilder,
        (teamBuilder.Revoke t ctx ⟨entitlement, principal, grantId⟩).requests =
          [⟨withAuthContext ctx t.apiKey t.appKey t.site,
            .DeleteTeamMembership entitlement.Resource.Id.Resource principal.Id.Resource⟩]
        ∧ (teamBuilder.Revoke t ctx ⟨entitlement, principal, grantId⟩).requests.map
            (fun q => q.call.isWrite) = [true]) := by
  refine ⟨?_, ?_, ?_, ?_⟩
  · intro r
    simp only [roleBuilder.Grant, h, ne_eq, not_true_eq_false, if_false]
    split <;> simp [Call.isWrite]
  · intro r
    simp only [roleBuilder.Revoke, h, ne_eq, not_true_eq_false, if_false]
    split <;> simp [Call.isWrite]
  · intro t
    simp only [teamBuilder.Grant, h, ne_eq, not_true_eq_false, if_false]
    split <;> exact ⟨_, rfl, rfl, rfl⟩
  · intro t
    simp only [teamBuilder.Revoke, h, ne_eq, not_true_eq_false, if_false]
    split <;> simp [Call.isWrite]

/-- C5, granting member of role "SRE" to the user "alice" against an upstream that
refuses the call: the single request is the write `AddUserToRole("r1", alice)`. -/
theorem mutation_issues_one_write_witness :
    aliceResource.Id.ResourceType = userResourceType.Id
    ∧ (roleBuilder.Grant (newRoleBuilder refusingClient "datadoghq.com" "api" "app") .background
          aliceResource sreMember).requests =
        [⟨withAuthContext .background "api" "app" "datadoghq.com",
          .AddUserToRole "r1" ⟨⟨"alice", "users"⟩⟩⟩]
    ∧ (roleBuilder.Grant (newRoleBuilder refusingClient "datadoghq.com" "api" "app") .background
          aliceResource sreMember).outcome.err.isSome = true :=
  ⟨by decide,
    ((mutation_issues_one_write .background aliceResource sreMember "" (by decide)).1
      (newRoleBuilder refusingClient "datadoghq.com" "api" "app")).1,
    by decide⟩

/-! ## C6, C7: the grants of a team -/

theorem userResource_id (user : User) :
    ∃ r, userResource user = .ok r ∧ r.Id = user.principalId := by
  obtain ⟨r, h1, h2, -⟩ := userResource_ok user
  exact ⟨r, h1, h2⟩

/-- The membership loop when every lookup succeeds: one `GetUser` request per record, in
order, and the expected grants appended record by record. -/
theorem teamBuilder_Grants_loop_ok (t : teamBuilder) (ctx : Context) (resource : Resource)
    (ms : List UserTeam) (rs : List UserResponse) (acc : List Grant)
    (h : List.Forall₂ (lookupSucceeds t.client ctx) ms rs) :
    teamBuilder.Grants.loop t ctx resource ms acc =
      ⟨ms.map (fun m => ⟨ctx, .GetUser m.userId⟩),
        .returned (.ok (acc ++ (List.zipWith (expectedGrants resource) ms rs).flatten))⟩ := by
  induction h generalizing acc with
  | nil => simp [teamBuilder.Grants.loop]
  | @cons m res ms rs hm _ ih =>
    obtain ⟨hrel, hget⟩ := hm
    obtain ⟨rel, hrel⟩ := Option.isSome_iff_exists.mp hrel
    have hid : (RelationshipToUserTeamUser.GetData rel.User).Id = m.userId := by
      simp [UserTeam.userId, hrel]
    obtain ⟨ur, hur, hurid⟩ := userResource_id res.GetData
    rw [teamBuilder.Grants.loop]
    simp only [hrel, hid, hget, hur, hurid]
    rw [ih]
    by_cases he : m.elevated = true
    · have he2 := he
      simp only [UserTeam.elevated, Bool.and_eq_true, decide_eq_true_eq] at he2
      simp [expectedGrants, he, UserTeam.HasAttributes, he2.1, he2.2, memberRole, adminRole]
    · have he2 := he
      simp only [UserTeam.elevated, Bool.and_eq_true, decide_eq_true_eq, not_and] at he2
      by_cases ha : m.Attributes.isSome = true
      · simp [expectedGrants, he, UserTeam.HasAttributes, ha, he2 ha, memberRole, adminRole]
      · simp [expectedGrants, he, UserTeam.HasAttributes, ha, memberRole]

/-- Behaviour of `teamBuilder.Grants` on an accepted token, a successful membership page and
successful lookups. -/
theorem teamBuilder_Grants_spec (codec : TokenCodec) (t : teamBuilder) (ctx : Context)
    (resource : Resource) (pToken : Token) (ob : Option Bag) (p : Int)
    (memberships : UserTeamsResponse) (rs : List UserResponse)
    (h : parsePageToken codec pToken.Token { ResourceType := t.resourceType.Id, Resource := "" }
      = (ob, p, none))
    (hm : t.client.GetTeamMemberships (withAuthContext ctx t.apiKey t.appKey t.site)
      resource.Id.Resource p = .ok memberships)
    (hl : List.Forall₂ (lookupSucceeds t.client (withAuthContext ctx t.apiKey t.appKey t.site))
      memberships.GetData rs) :
    ∃ bag st, ob = some bag ∧ bag.currentState = some st
      ∧ teamBuilder.Grants codec t ctx resource pToken =
          ⟨⟨withAuthContext ctx t.apiKey t.appKey t.site,
              .GetTeamMemberships resource.Id.Resource p⟩ ::
            memberships.GetData.map (fun m =>
              ⟨withAuthContext ctx t.apiKey t.appKey t.site, .GetUser m.userId⟩),
            .returned ⟨(List.zipWith (expectedGrants resource) memberships.GetData rs).flatten,
              if memberships.GetData = [] then ""
              else nextTokenOf codec bag st (wrapInt64 (p + 1)), [], none⟩⟩ := by
  obtain ⟨bag, st, hob, hst, -⟩ := parsePageToken_accepted codec _ _ ob p h
  refine ⟨bag, st, hob, hst, ?_⟩
  subst hob
  have hnext := getPageTokenFromPage_eq codec bag st (wrapInt64 (p + 1)) hst
  have hloop := teamBuilder_Grants_loop_ok t (withAuthContext ctx t.apiKey t.appKey t.site)
    resource memberships.GetData rs [] hl
  simp only [List.nil_append] at hloop
  simp only [teamBuilder.Grants, h, hm, hloop]
  by_cases hd : memberships.GetData = []
  · simp [hd]
  · simp [hd, hnext, nextTokenOf]

theorem String_append_left_cancel (a s t : String) (h : a ++ s = a ++ t) : s = t := by
  have h2 := congrArg String.data h
  simp only [String.data_append, List.append_cancel_left_eq] at h2
  exact String.ext h2

theorem NewGrant_injective (resource : Resource) (s t : String) (pid qid : ResourceId)
    (h : NewGrant resource s pid = NewGrant resource t qid) : s = t ∧ pid = qid := by
  have h1 : (NewGrant resource s pid).Entitlement.Id = (NewGrant resource t qid).Entitlement.Id := by
    rw [h]
  have h2 : (NewGrant resource s pid).Principal.Id = (NewGrant resource t qid).Principal.Id := by
    rw [h]
  exact ⟨String_append_left_cancel _ _ _ h1, h2⟩

/-- C7: for `teamBuilder.Grants`, for every accepted token and every page of membership
records whose lookups all succeed, the returned grant list is exactly the in-order
concatenation, record by record, of the "member" grant of the record's user followed by
the "admin" grant of that user when the record is elevated; the next-token is non-empty
for a non-empty page and empty for an empty page. -/
theorem team_grants_exact_list (codec : TokenCodec) (t : teamBuilder) (ctx : Context)
    (resource : Resource) (pToken : Token) (ob : Option Bag) (p : Int)
    (memberships : UserTeamsResponse) (rs : List UserResponse)
    (h : parsePageToken codec pToken.Token { ResourceType := t.resourceType.Id, Resource := "" }
      = (ob, p, none))
    (hm : t.client.GetTeamMemberships (withAuthContext ctx t.apiKey t.appKey t.site)
      resource.Id.Resource p = .ok memberships)
    (hl : List.Forall₂ (lookupSucceeds t.client (withAuthContext ctx t.apiKey t.appKey t.site))
      memberships.GetData rs) :
    ∃ res, (teamBuilder.Grants codec t ctx resource pToken).outcome = .returned res
      ∧ res.err = none
      ∧ res.rv = (List.zipWith (fun m r =>
            NewGrant resource "member" r.GetData.principalId ::
              (if m.elevated then [NewGrant resource "admin" r.GetData.principalId] else []))
          memberships.GetData rs).flatten
      ∧ (memberships.GetData ≠ [] → res.nextPageToken ≠ "")
      ∧ (memberships.GetData = [] → res.nextPageToken = "") := by
  obtain ⟨bag, st, -, -, hrun⟩ :=
    teamBuilder_Grants_spec codec t ctx resource pToken ob p memberships rs h hm hl
  refine ⟨_, by rw [hrun], rfl, rfl, ?_, ?_⟩
  · intro hne
    simp only [if_neg hne]
    exact codec.encode_ne_empty _
  · intro he
    simp only [if_pos he]

/-- C7, on the team scenario of section 8: page 0 = [Alice (elevated), Bob (not
elevated)] yields [member:Alice, admin:Alice, member:Bob] and a non-empty token; the
call with that token (page 1, empty) yields no grants and the empty token. -/
theorem team_grants_exact_list_witness :
    parsePageToken sampleCodec ""
        { ResourceType := (newTeamBuilder engClient "datadoghq.com" "api" "app").resourceType.Id,
          Resource := "" } = (some (teamBagAt ""), 0, none)
    ∧ engClient.GetTeamMemberships (withAuthContext .background "api" "app" "datadoghq.com")
        engTeam.Id.Resource 0
        = .ok ⟨[membershipOf "alice" (some "admin"), membershipOf "bob" none]⟩
    ∧ List.Forall₂ (lookupSucceeds engClient (withAuthContext .background "api" "app" "datadoghq.com"))
        [membershipOf "alice" (some "admin"), membershipOf "bob" none]
        [⟨some aliceUser⟩, ⟨some bobUser⟩]
    ∧ ∃ res, (teamBuilder.Grants sampleCodec (newTeamBuilder engClient "datadoghq.com" "api" "app")
          .background engTeam ⟨0, ""⟩).outcome = .returned res
        ∧ res.err = none
        ∧ res.rv = [NewGrant engTeam "member" ⟨"user", "alice"⟩,
                    NewGrant engTeam "admin" ⟨"user", "alice"⟩,
                    NewGrant engTeam "member" ⟨"user", "bob"⟩]
        ∧ res.nextPageToken ≠ ""
        ∧ (teamBuilder.Grants sampleCodec (newTeamBuilder engClient "datadoghq.com" "api" "app")
            .background engTeam ⟨0, res.nextPageToken⟩).outcome = .returned ⟨[], "", [], none⟩ := by
  have hl : List.Forall₂
      (lookupSucceeds engClient (withAuthContext .background "api" "app" "datadoghq.com"))
      [membershipOf "alice" (some "admin"), membershipOf "bob" none]
      [⟨some aliceUser⟩, ⟨some bobUser⟩] :=
    List.Forall₂.cons ⟨rfl, rfl⟩ (List.Forall₂.cons ⟨rfl, rfl⟩ List.Forall₂.nil)
  refine ⟨by decide, rfl, hl, ?_⟩
  obtain ⟨res, h1, h2, h3, h4, -⟩ :=
    team_grants_exact_list sampleCodec (newTeamBuilder engClient "datadoghq.com" "api" "app")
      .background engTeam ⟨0, ""⟩ (some (teamBagAt "")) 0
      ⟨[membershipOf "alice" (some "admin"), membershipOf "bob" none]⟩
      [⟨some aliceUser⟩, ⟨some bobUser⟩] (by decide) rfl hl
  refine ⟨res, h1, h2, ?_, h4 (by decide), ?_⟩
  · rw [h3]
    decide
  · have h5 : (teamBuilder.Grants sampleCodec (newTeamBuilder engClient "datadoghq.com" "api" "app")
          .background engTeam ⟨0, ""⟩).outcome
        = .returned ⟨[NewGrant engTeam "member" ⟨"user", "alice"⟩,
                      NewGrant engTeam "admin" ⟨"user", "alice"⟩,
                      NewGrant engTeam "member" ⟨"user", "bob"⟩],
            sampleCodec.encode (teamBagAt "1"), [], none⟩ := by decide
    rw [h5] at h1
    cases h1
    decide

theorem mem_flatten_zipWith {α β γ : Type} (f : α → β → List γ) (as : List α) (bs : List β)
    (g : γ) :
    g ∈ (List.zipWith f as bs).flatten ↔ ∃ a b, (a, b) ∈ as.zip bs ∧ g ∈ f a b := by
  induction as generalizing bs with
  | nil => simp
  | cons a as ih =>
    cases bs with
    | nil => simp
    | cons b bs =>
      simp only [List.zipWith_cons_cons, List.flatten_cons, List.mem_append, ih, List.zip_cons_cons,
        List.mem_cons, Prod.mk.injEq]
      constructor
      · rintro (h | ⟨a2, b2, h1, h2⟩)
        · exact ⟨a, b, Or.inl ⟨rfl, rfl⟩, h⟩
        · exact ⟨a2, b2, Or.inr h1, h2⟩
      · rintro ⟨a2, b2, (⟨rfl, rfl⟩ | h1), h2⟩
        · exact Or.inl h2
        · exact Or.inr ⟨a2, b2, h1, h2⟩

theorem mem_expectedGrants (resource : Resource) (m : UserTeam) (r : UserResponse)
    (slug : String) (pid : ResourceId) :
    NewGrant resource slug pid ∈ expectedGrants resource m r ↔
      r.GetData.principalId = pid ∧ (slug = "member" ∨ (slug = "admin" ∧ m.elevated = true)) := by
  unfold expectedGrants
  by_cases he : m.elevated = true
  · simp only [he, if_true, List.mem_cons, List.mem_singleton, List.not_mem_nil, or_false]
    constructor
    · rintro (h | h)
      · obtain ⟨h1, h2⟩ := NewGrant_injective _ _ _ _ _ h
        exact ⟨h2.symm, Or.inl h1⟩
      · obtain ⟨h1, h2⟩ := NewGrant_injective _ _ _ _ _ h
        exact ⟨h2.symm, Or.inr ⟨h1, trivial⟩⟩
    · rintro ⟨rfl, (rfl | ⟨rfl, -⟩)⟩
      · exact Or.inl rfl
      · exact Or.inr rfl
  · simp only [he, List.mem_cons, List.not_mem_nil, or_false, and_false, Bool.false_eq_true,
      if_false]
    constructor
    · intro h
      obtain ⟨h1, h2⟩ := NewGrant_injective _ _ _ _ _ h
      exact ⟨h2.symm, h1⟩
    · rintro ⟨rfl, rfl⟩
      rfl

/-- C6 (amended): for `teamBuilder.Grants`, for every accepted token and every page of
membership records whose lookups all succeed, the output holds a "member" grant for
every record's principal and an "admin" grant for the principal of every elevated
record; it holds an "admin" grant for a principal exactly when some record of that
principal on the page is elevated (so, for a record whose principal's records agree on
the elevation, exactly when that record is elevated); and every principal with an
"admin" grant in the output has a "member" grant in the same output. -/
theorem team_grants_member_and_admin (codec : TokenCodec) (t : teamBuilder) (ctx : Context)
    (resource : Resource) (pToken : Token) (ob : Option Bag) (p : Int)
    (memberships : UserTeamsResponse) (rs : List UserResponse)
    (h : parsePageToken codec pToken.Token { ResourceType := t.resourceType.Id, Resource := "" }
      = (ob, p, none))
    (hm : t.client.GetTeamMemberships (withAuthContext ctx t.apiKey t.appKey t.site)
      resource.Id.Resource p = .ok memberships)
    (hl : List.Forall₂ (lookupSucceeds t.client (withAuthContext ctx t.apiKey t.appKey t.site))
      memberships.GetData rs) :
    ∃ res, (teamBuilder.Grants codec t ctx resource pToken).outcome = .returned res
      ∧ res.err = none
      ∧ (∀ m r, (m, r) ∈ memberships.GetData.zip rs →
          NewGrant resource "member" r.GetData.principalId ∈ res.rv
          ∧ (m.elevated = true → NewGrant resource "admin" r.GetData.principalId ∈ res.rv))
      ∧ (∀ pid, NewGrant resource "admin" pid ∈ res.rv ↔
          ∃ m r, (m, r) ∈ memberships.GetData.zip rs ∧ m.elevated = true
            ∧ r.GetData.principalId = pid)
      ∧ (∀ m r, (m, r) ∈ memberships.GetData.zip rs →
          (∀ m2 r2, (m2, r2) ∈ memberships.GetData.zip rs →
            r2.GetData.principalId = r.GetData.principalId → m2.elevated = m.elevated) →
          (NewGrant resource "admin" r.GetData.principalId ∈ res.rv ↔ m.elevated = true))
      ∧ (∀ pid, NewGrant resource "admin" pid ∈ res.rv →
          NewGrant resource "member" pid ∈ res.rv) := by
  obtain ⟨bag, st, -, -, hrun⟩ :=
    teamBuilder_Grants_spec codec t ctx resource pToken ob p memberships rs h hm hl
  have hmem : ∀ slug pid,
      NewGrant resource slug pid ∈
          (List.zipWith (expectedGrants resource) memberships.GetData rs).flatten ↔
        ∃ m r, (m, r) ∈ memberships.GetData.zip rs ∧ r.GetData.principalId = pid
          ∧ (slug = "member" ∨ (slug = "admin" ∧ m.elevated = true)) := by
    intro slug pid
    rw [mem_flatten_zipWith]
    simp only [mem_expectedGrants]
  have hadmin : ∀ pid,
      NewGrant resource "admin" pid ∈
          (List.zipWith (expectedGrants resource) memberships.GetData rs).flatten ↔
        ∃ m r, (m, r) ∈ memberships.GetData.zip rs ∧ m.elevated = true
          ∧ r.GetData.principalId = pid := by
    intro pid
    rw [hmem]
    constructor
    · rintro ⟨m, r, h1, h2, (h3 | ⟨-, h3⟩)⟩
      · exact absurd h3 (by decide)
      · exact ⟨m, r, h1, h3, h2⟩
    · rintro ⟨m, r, h1, h2, h3⟩
      exact ⟨m, r, h1, h3, Or.inr ⟨rfl, h2⟩⟩
  refine ⟨_, by rw [hrun], rfl, ?_, hadmin, ?_, ?_⟩
  · intro m r hin
    constructor
    · exact (hmem _ _).mpr ⟨m, r, hin, rfl, Or.inl rfl⟩
    · intro he
      exact (hadmin _).mpr ⟨m, r, hin, he, rfl⟩
  · intro m r hin hagree
    constructor
    · intro hg
      obtain ⟨m2, r2, h1, h2, h3⟩ := (hadmin _).mp hg
      rw [← hagree m2 r2 h1 h3]
      exact h2
    · intro he
      exact (hadmin _).mpr ⟨m, r, hin, he, rfl⟩
  · intro pid hg
    obtain ⟨m, r, h1, -, h3⟩ := (hadmin _).mp hg
    exact (hmem _ _).mpr ⟨m, r, h1, h3, Or.inl rfl⟩

/-- C6 (amended), on the team scenario of section 8: the output of page 0 holds the "member"
grants of Alice and Bob and the "admin" grant of Alice, and no "admin" grant of Bob. -/
theorem team_grants_member_and_admin_witness :
    parsePageToken sampleCodec ""
        { ResourceType := (newTeamBuilder engClient "datadoghq.com" "api" "app").resourceType.Id,
          Resource := "" } = (some (teamBagAt ""), 0, none)
    ∧ engClient.GetTeamMemberships (withAuthContext .background "api" "app" "datadoghq.com")
        engTeam.Id.Resource 0
        = .ok ⟨[membershipOf "alice" (some "admin"), membershipOf "bob" none]⟩
    ∧ List.Forall₂ (lookupSucceeds engClient (withAuthContext .background "api" "app" "datadoghq.com"))
        [membershipOf "alice" (some "admin"), membershipOf "bob" none]
        [⟨some aliceUser⟩, ⟨some bobUser⟩]
    ∧ ∃ res, (teamBuilder.Grants sampleCodec (newTeamBuilder engClient "datadoghq.com" "api" "app")
          .background engTeam ⟨0, ""⟩).outcome = .returned res
        ∧ NewGrant engTeam "member" ⟨"user", "alice"⟩ ∈ res.rv
        ∧ NewGrant engTeam "admin" ⟨"user", "alice"⟩ ∈ res.rv
        ∧ NewGrant engTeam "member" ⟨"user", "bob"⟩ ∈ res.rv
        ∧ NewGrant engTeam "admin" ⟨"user", "bob"⟩ ∉ res.rv := by
  have hl : List.Forall₂
      (lookupSucceeds engClient (withAuthContext .background "api" "app" "datadoghq.com"))
      [membershipOf "alice" (some "admin"), membershipOf "bob" none]
      [⟨some aliceUser⟩, ⟨some bobUser⟩] :=
    List.Forall₂.cons ⟨rfl, rfl⟩ (List.Forall₂.cons ⟨rfl, rfl⟩ List.Forall₂.nil)
  refine ⟨by decide, rfl, hl, ?_⟩
  obtain ⟨res, h1, -, h3, h4, -, -⟩ :=
    team_grants_member_and_admin sampleCodec (newTeamBuilder engClient "datadoghq.com" "api" "app")
      .background engTeam ⟨0, ""⟩ (some (teamBagAt "")) 0
      ⟨[membershipOf "alice" (some "admin"), membershipOf "bob" none]⟩
      [⟨some aliceUser⟩, ⟨some bobUser⟩] (by decide) rfl hl
  refine ⟨res, h1, ?_, ?_, ?_, ?_⟩
  · exact (h3 (membershipOf "alice" (some "admin")) ⟨some aliceUser⟩ (by decide)).1
  · exact (h3 (membershipOf "alice" (some "admin")) ⟨some aliceUser⟩ (by decide)).2 (by decide)
  · exact (h3 (membershipOf "bob" none) ⟨some bobUser⟩ (by decide)).1
  · intro hbob
    obtain ⟨m, r, hin, he, hp⟩ := (h4 _).mp hbob
    simp only [UserTeamsResponse.GetData, List.zip_cons_cons, List.zip_nil_right, List.mem_cons,
      Prod.mk.injEq, List.not_mem_nil, or_false] at hin
    rcases hin with ⟨rfl, rfl⟩ | ⟨rfl, rfl⟩
    · exact absurd hp (by decide)
    · exact absurd he (by decide)

/-- C6, as stated, fails on a page that lists one principal twice: the second record of
"alice" carries no elevation attribute, all lookups succeed, and the output still holds
an "admin" grant for that record's principal. -/
theorem team_grants_admin_of_repeated_principal :
    parsePageToken sampleCodec ""
        { ResourceType := (newTeamBuilder twiceClient "datadoghq.com" "api" "app").resourceType.Id,
          Resource := "" } = (some (teamBagAt ""), 0, none)
    ∧ twiceClient.GetTeamMemberships (withAuthContext .background "api" "app" "datadoghq.com")
        engTeam.Id.Resource 0
        = .ok ⟨[membershipOf "alice" (some "admin"), membershipOf "alice" none]⟩
    ∧ twiceClient.GetUser (withAuthContext .background "api" "app" "datadoghq.com") "alice"
        = .ok ⟨some aliceUser⟩
    ∧ (membershipOf "alice" none).elevated = false
    ∧ (teamBuilder.Grants sampleCodec (newTeamBuilder twiceClient "datadoghq.com" "api" "app")
          .background engTeam ⟨0, ""⟩).outcome
        = .returned ⟨[NewGrant engTeam "member" ⟨"user", "alice"⟩,
                      NewGrant engTeam "admin" ⟨"user", "alice"⟩,
                      NewGrant engTeam "member" ⟨"user", "alice"⟩],
            sampleCodec.encode (teamBagAt "1"), [], none⟩
    ∧ NewGrant engTeam "admin" aliceUser.principalId ∈
        [NewGrant engTeam "member" ⟨"user", "alice"⟩,
         NewGrant engTeam "admin" ⟨"user", "alice"⟩,
         NewGrant engTeam "member" ⟨"user", "alice"⟩] := by
  refine ⟨by decide, rfl, rfl, by decide, by decide, by decide⟩

/-! ## C9: the page token round-trips -/

/-- C9, as stated, fails: decoding the fresh token "" gives the bag whose top frame has
the empty page field and page 0; re-encoding that bag at page 0 and decoding again gives
page 0 and a bag whose top frame has the page field "0", which is not the same bag.
Likewise the page field "007" comes back as "7". -/
theorem round_trip_rewrites_page_field :
    parsePageToken sampleCodec "" { ResourceType := "role", Resource := "" }
      = (some (roleBagAt ""), 0, none)
    ∧ parsePageToken sampleCodec (getPageTokenFromPage sampleCodec (roleBagAt "") 0).1
        { ResourceType := "role", Resource := "" } = (some (roleBagAt "0"), 0, none)
    ∧ roleBagAt "0" ≠ roleBagAt ""
    ∧ parsePageToken sampleCodec (roleTokenAt "007") { ResourceType := "role", Resource := "" }
      = (some (roleBagAt "007"), 7, none)
    ∧ parsePageToken sampleCodec (getPageTokenFromPage sampleCodec (roleBagAt "007") 7).1
        { ResourceType := "role", Resource := "" } = (some (roleBagAt "7"), 7, none)
    ∧ roleBagAt "7" ≠ roleBagAt "007" := by
  refine ⟨by decide, by decide, by decide, by decide, by decide, by decide⟩

/-- C9 (amended): the token returned by `getPageTokenFromPage(bag, p)` for a bag with a
current frame and an `int64` page `p` decodes to page `p` and to the same frames with only
the top frame's page replaced by `p`; and for every accepted token, re-encoding the
decoded bag at its decoded page and decoding again gives the same page and the same bag
except for the top frame's page field, which becomes the decimal rendering of the page
(the frames below untouched, the top frame with the same resource type, resource id and
page number). The bag is the same exactly when the page field already was that
rendering, and a further re-encoding and decoding returns the bag unchanged. -/
theorem page_token_round_trip (codec : TokenCodec) (rid : ResourceId) :
    (∀ (bag : Bag) (st : PageState) (p : Int), bag.currentState = some st →
        minInt64 ≤ p → p ≤ maxInt64 →
        ∃ tok, getPageTokenFromPage codec bag p = (tok, none)
          ∧ parsePageToken codec tok rid =
              (some { states := bag.states,
                      currentState := some { st with Token := formatInt p } }, p, none))
    ∧ (∀ (T : String) (b1 : Bag) (p1 : Int), parsePageToken codec T rid = (some b1, p1, none) →
        ∃ T2 b2 st1 st2, getPageTokenFromPage codec b1 p1 = (T2, none)
          ∧ parsePageToken codec T2 rid = (some b2, p1, none)
          ∧ b2.states = b1.states
          ∧ b1.currentState = some st1 ∧ b2.currentState = some st2
          ∧ st2.ResourceTypeID = st1.ResourceTypeID ∧ st2.ResourceID = st1.ResourceID
          ∧ getPageFromPageToken st1.Token = (p1, none)
          ∧ getPageFromPageToken st2.Token = (p1, none)
          ∧ st2.Token = formatInt p1
          ∧ (b2 = b1 ↔ st1.Token = formatInt p1)
          ∧ ∃ T3, getPageTokenFromPage codec b2 p1 = (T3, none)
              ∧ parsePageToken codec T3 rid = (some b2, p1, none)) := by
  constructor
  · intro bag st p hst hlo hhi
    exact ⟨_, getPageTokenFromPage_eq codec bag st p hst,
      parsePageToken_encode codec _ _ p rid rfl (getPageFromPageToken_formatInt p hlo hhi)⟩
  · intro T b1 p1 h
    obtain ⟨bag, st1, hob, hst1, hp1⟩ := parsePageToken_accepted codec T rid _ p1 h
    cases hob
    obtain ⟨hlo, hhi⟩ := getPageFromPageToken_range _ _ hp1
    have hfmt := getPageFromPageToken_formatInt p1 hlo hhi
    refine ⟨_, { states := b1.states, currentState := some { st1 with Token := formatInt p1 } },
      st1, { st1 with Token := formatInt p1 },
      getPageTokenFromPage_eq codec b1 st1 p1 hst1,
      parsePageToken_encode codec _ _ p1 rid rfl hfmt, rfl, hst1, rfl, rfl, rfl, hp1, hfmt, rfl,
      ?_, _, getPageTokenFromPage_eq codec _ _ p1 rfl, ?_⟩
    · obtain ⟨states, cur⟩ := b1
      obtain ⟨tk, ty, id⟩ := st1
      simp only at hst1
      subst hst1
      constructor
      · intro hb
        injection hb with _ hcur
        injection hcur with hcur
        injection hcur with htk
        exact htk.symm
      · intro htk
        simp only at htk
        rw [← htk]
    · exact parsePageToken_encode codec _ _ p1 rid rfl hfmt

/-- C9 (amended), on the role listing: the token for page 2 built from the fresh bag
decodes to page 2 with the same frame, and decoding, re-encoding and decoding the token
of page 7, whose page field is the decimal rendering "7", gives the same bag and page as
decoding it once. -/
theorem page_token_round_trip_witness :
    (roleBagAt "").currentState
        = some { Token := "", ResourceTypeID := "role", ResourceID := "" }
    ∧ minInt64 ≤ 2 ∧ (2 : Int) ≤ maxInt64
    ∧ (∃ tok, getPageTokenFromPage sampleCodec (roleBagAt "") 2 = (tok, none)
        ∧ parsePageToken sampleCodec tok { ResourceType := "role", Resource := "" }
            = (some (roleBagAt "2"), 2, none))
    ∧ parsePageToken sampleCodec (roleTokenAt "7") { ResourceType := "role", Resource := "" }
        = (some (roleBagAt "7"), 7, none)
    ∧ (∃ T2, getPageTokenFromPage sampleCodec (roleBagAt "7") 7 = (T2, none)
        ∧ parsePageToken sampleCodec T2 { ResourceType := "role", Resource := "" }
            = (some (roleBagAt "7"), 7, none)) := by
  refine ⟨rfl, by decide, by decide, ?_, by decide, ?_⟩
  · obtain ⟨tok, h1, h2⟩ :=
      (page_token_round_trip sampleCodec { ResourceType := "role", Resource := "" }).1
        (roleBagAt "") { Token := "", ResourceTypeID := "role", ResourceID := "" } 2 rfl
        (by decide) (by decide)
    exact ⟨tok, h1, h2⟩
  · obtain ⟨T2, b2, st1, st2, h1, h2, h3, h4, h5, h6, h7, -, -, h8, -, -⟩ :=
      (page_token_round_trip sampleCodec { ResourceType := "role", Resource := "" }).2
        (roleTokenAt "7") (roleBagAt "7") 7 (by decide)
    refine ⟨T2, h1, ?_⟩
    have hst1 : st1 = { Token := "7", ResourceTypeID := "role", ResourceID := "" } := by
      have : some st1 = some { Token := "7", ResourceTypeID := "role", ResourceID := "" } :=
        h4.symm.trans rfl
      exact Option.some.inj this
    have hb2 : b2 = roleBagAt "7" := by
      obtain ⟨states, cur⟩ := b2
      simp only at h3 h5
      subst h3 h5
      obtain ⟨tk, ty, id⟩ := st2
      simp only at h6 h7 h8
      subst h6 h7 h8
      rw [hst1]
      decide
    rw [hb2] at h2
    exact h2

/-! ## C10: non-numeric page fields -/

theorem parseUintLoop_ok_digits (ds : List Char) (acc n : Nat)
    (h : parseUintLoop ds acc = .ok n) : ds.all isDecimalDigit = true := by
  induction ds generalizing acc with
  | nil => rfl
  | cons c cs ih =>
    rw [parseUintLoop] at h
    by_cases hc : isDecimalDigit c = true
    · rw [if_pos hc] at h
      split at h
      · simp at h
      · split at h
        · simp at h
        · simp [hc, ih _ h]
    · rw [if_neg hc] at h
      simp at h

theorem ParseInt_ok_isDecimalInteger (s : String) (v : Int) (h : ParseInt s = .ok v) :
    isDecimalInteger s = true := by
  unfold ParseInt at h
  unfold isDecimalInteger
  split at h
  · simp at h
  · rename_i c rest hdata
    simp only at h ⊢
    split at h
    · simp at h
    · rename_i un hun
      unfold ParseUint at hun
      split at hun
      · simp at hun
      · rename_i d ds hbody
        have hall := parseUintLoop_ok_digits _ _ _ hun
        by_cases hp : c = '+'
        · simp only [hp, if_true] at hbody hall
          rw [hbody] at hall
          simp only [hp, hbody, true_or, if_true]
          simpa using hall
        · by_cases hm : c = '-'
          · have hne : ('-' : Char) ≠ '+' := by decide
            simp only [hm, if_true, if_neg hne] at hbody hall
            rw [hbody] at hall
            simp only [hm, hbody, or_true, if_true]
            simpa using hall
          · simp only [if_neg hp, if_neg hm] at hall
            simp only [hp, hm, or_self, if_false]
            exact hall

theorem getPageFromPageToken_rejects (token : String) (hne : token ≠ "")
    (hnum : isDecimalInteger token = false) :
    ∃ err, getPageFromPageToken token = (0, some err) := by
  unfold getPageFromPageToken
  rw [if_neg hne]
  cases hp : ParseInt token with
  | error e => exact ⟨_, rfl⟩
  | ok v =>
    have := ParseInt_ok_isDecimalInteger token v hp
    rw [this] at hnum
    exact absurd hnum (by decide)

/-- C10, as stated, fails for `userBuilder.Grants`: given a token whose top frame's page
field is "abc" (which `parsePageToken` rejects), it returns no error. -/
theorem user_grants_ignores_malformed_token :
    sampleCodec.decode (roleTokenAt "abc") = some (roleBagAt "abc")
    ∧ isDecimalInteger "abc" = false
    ∧ (parsePageToken sampleCodec (roleTokenAt "abc") { ResourceType := "user", Resource := "" }).2.2
        = some (.leaf "strconv.ParseInt: parsing \"abc\": invalid syntax")
    ∧ userBuilder.Grants (newUserBuilder refusingClient "datadoghq.com" "api" "app") .background
          aliceResource ⟨0, roleTokenAt "abc"⟩
        = ⟨[], .returned ⟨[], "", [], none⟩⟩ := by
  refine ⟨by decide, by decide, by decide, rfl⟩

/-- C10 (amended): for every token whose top frame's page field is a non-empty string
that is not a decimal integer, `parsePageToken` returns an error with a nil bag and page
0, and every List call and the Grants calls of the team and role syncers return that
error, with default results, without issuing any upstream call. -/
theorem non_numeric_page_is_rejected (codec : TokenCodec) (tok : String) (b : Bag)
    (st : PageState) (htok : tok ≠ "") (hdec : codec.decode tok = some b)
    (hst : b.currentState = some st) (hne : st.Token ≠ "")
    (hnum : isDecimalInteger st.Token = false) :
    ∃ err, (∀ rid, parsePageToken codec tok rid = (none, 0, some err))
      ∧ (∀ (u : userBuilder) ctx parent size,
          userBuilder.List codec u ctx parent ⟨size, tok⟩
            = ⟨[], .returned ⟨[], "", [], some err⟩⟩)
      ∧ (∀ (t : teamBuilder) ctx parent size,
          teamBuilder.List codec t ctx parent ⟨size, tok⟩
            = ⟨[], .returned ⟨[], "", [], some err⟩⟩)
      ∧ (∀ (r : roleBuilder) ctx parent size,
          roleBuilder.List codec r ctx parent ⟨size, tok⟩
            = ⟨[], .returned ⟨[], "", [], some err⟩⟩)
      ∧ (∀ (t : teamBuilder) ctx resource size,
          teamBuilder.Grants codec t ctx resource ⟨size, tok⟩
            = ⟨[], .returned ⟨[], "", [], some err⟩⟩)
      ∧ (∀ (r : roleBuilder) ctx resource size,
          roleBuilder.Grants codec r ctx resource ⟨size, tok⟩
            = ⟨[], .returned ⟨[], "", [], some err⟩⟩) := by
  obtain ⟨err, herr⟩ := getPageFromPageToken_rejects st.Token hne hnum
  have hparse : ∀ rid, parsePageToken codec tok rid = (none, 0, some err) := by
    intro rid
    simp [parsePageToken, Bag.Unmarshal, htok, hdec, Bag.Current, Bag.PageToken, hst, herr]
  refine ⟨err, hparse, ?_, ?_, ?_, ?_, ?_⟩
  · intro u ctx parent size
    simp [userBuilder.List, hparse]
  · intro t ctx parent size
    simp [teamBuilder.List, hparse]
  · intro r ctx parent size
    simp [roleBuilder.List, hparse]
  · intro t ctx resource size
    simp [teamBuilder.Grants, hparse]
  · intro r ctx resource size
    simp [roleBuilder.Grants, hparse]

/-- C10 (amended), on the role listing with page field "abc": decoding fails and
`roleBuilder.List` returns the error with an empty request log. -/
theorem non_numeric_page_is_rejected_witness :
    roleTokenAt "abc" ≠ ""
    ∧ sampleCodec.decode (roleTokenAt "abc") = some (roleBagAt "abc")
    ∧ (roleBagAt "abc").currentState
        = some { Token := "abc", ResourceTypeID := "role", ResourceID := "" }
    ∧ ("abc" : String) ≠ ""
    ∧ isDecimalInteger "abc" = false
    ∧ ∃ err, parsePageToken sampleCodec (roleTokenAt "abc") { ResourceType := "role", Resource := "" }
          = (none, 0, some err)
        ∧ roleBuilder.List sampleCodec (newRoleBuilder sreClient "datadoghq.com" "api" "app")
            .background none ⟨0, roleTokenAt "abc"⟩ = ⟨[], .returned ⟨[], "", [], some err⟩⟩ := by
  refine ⟨by decide, by decide, rfl, by decide, by decide, ?_⟩
  obtain ⟨err, h1, -, -, h4, -, -⟩ :=
    non_numeric_page_is_rejected sampleCodec (roleTokenAt "abc") (roleBagAt "abc")
      { Token := "abc", ResourceTypeID := "role", ResourceID := "" }
      (by decide) (by decide) rfl (by decide) (by decide)
  exact ⟨err, h1 _, h4 _ _ _ _⟩

/-! ## C11: negative page fields -/

theorem parseUintLoop_ok_value (ds : List Char) (acc n : Nat)
    (h : parseUintLoop ds acc = .ok n) : n = digitsValue acc ds := by
  induction ds generalizing acc with
  | nil =>
    simp only [parseUintLoop, Except.ok.injEq] at h
    simp [digitsValue, h]
  | cons c cs ih =>
    rw [parseUintLoop] at h
    split at h
    · split at h
      · simp at h
      · split at h
        · simp at h
        · simpa [digitsValue] using ih _ h
    · simp at h

theorem digitsValue_natDigits (n : Nat) : digitsValue 0 (natDigits n) = n := by
  obtain ⟨h1, -, -⟩ := natDigitsAux_spec (n + 1) n [] (by omega)
  simpa [natDigits, digitsValue] using h1

/-- Parsing the `%d` rendering of any integer either fails or gives the integer back. -/
theorem ParseInt_formatInt_value (n v : Int) (h : ParseInt (formatInt n) = .ok v) : v = n := by
  by_cases hneg : n < 0
  · simp only [formatInt, if_pos hneg, ParseInt] at h
    have hne : ('-' : Char) ≠ '+' := by decide
    simp only [if_neg hne, if_true] at h
    split at h
    · simp at h
    · rename_i un hun
      unfold ParseUint at hun
      split at hun
      · simp at hun
      · rename_i c cs hcs
        have hv := parseUintLoop_ok_value _ _ _ hun
        rw [digitsValue_natDigits] at hv
        split at h
        · simp at h
        · split at h
          · simp at h
          · simp only [decide_True, if_true, Except.ok.injEq] at h
            rw [← h, hv]
            omega
  · obtain ⟨-, -, c, cs, h3, h4⟩ := natDigitsAux_spec (n.toNat + 1) n.toNat [] (by omega)
    have h3n : natDigits n.toNat = c :: cs := h3
    have hplus : c ≠ '+' := by rintro rfl; simp [isDecimalDigit] at h4
    have hminus : c ≠ '-' := by rintro rfl; simp [isDecimalDigit] at h4
    simp only [formatInt, if_neg hneg, ParseInt, h3n] at h
    simp only [if_neg hplus, if_neg hminus, ← h3n] at h
    split at h
    · simp at h
    · rename_i un hun
      unfold ParseUint at hun
      split at hun
      · simp at hun
      · rename_i d ds hds
        have hv := parseUintLoop_ok_value _ _ _ hun
        rw [digitsValue_natDigits] at hv
        split at h
        · simp at h
        · split at h
          · simp at h
          · simp only [hminus, decide_False, Bool.false_eq_true, if_false, Except.ok.injEq] at h
            rw [← h, hv]
            omega

/-- Decoding a non-empty token whose bag has a top frame: the result is decided by the
page field of that frame. -/
theorem parsePageToken_of_decode (codec : TokenCodec) (tok : String) (b : Bag) (st : PageState)
    (rid : ResourceId) (htok : tok ≠ "") (hdec : codec.decode tok = some b)
    (hst : b.currentState = some st) :
    parsePageToken codec tok rid =
      match getPageFromPageToken st.Token with
      | (_, some err) => (none, 0, some err)
      | (page, none) => (some b, page, none) := by
  simp [parsePageToken, Bag.Unmarshal, htok, hdec, Bag.Current, Bag.PageToken, hst]

/-- C11, as stated, fails: the token whose top frame's page field is "-1" is accepted and
decodes to the negative page -1. -/
theorem negative_page_is_decoded :
    sampleCodec.decode (roleTokenAt "-1") = some (roleBagAt "-1")
    ∧ (roleBagAt "-1").currentState
        = some { Token := "-1", ResourceTypeID := "role", ResourceID := "" }
    ∧ formatInt (-1) = "-1"
    ∧ parsePageToken sampleCodec (roleTokenAt "-1") { ResourceType := "role", Resource := "" }
        = (some (roleBagAt "-1"), -1, none)
    ∧ ¬ ((0 : Int) ≤ -1) := by
  refine ⟨by decide, rfl, by decide, by decide, by decide⟩

/-- C11 (amended): a negative page field is accepted when it fits an `int64`: for every
token whose top frame's page field is the decimal rendering of a negative integer `n`,
`parsePageToken` returns no error and page `n` when `n` is at least -9223372036854775808,
and an error (with a nil bag and page 0) below that; every page value returned by a
successful `parsePageToken` lies in the `int64` range. -/
theorem negative_page_is_accepted (codec : TokenCodec) (tok : String) (b : Bag) (st : PageState)
    (rid : ResourceId) (n : Int) (htok : tok ≠ "") (hdec : codec.decode tok = some b)
    (hst : b.currentState = some st) (hn : n < 0) (hfield : st.Token = formatInt n) :
    (minInt64 ≤ n → parsePageToken codec tok rid = (some b, n, none))
    ∧ (n < minInt64 → ∃ err, parsePageToken codec tok rid = (none, 0, some err))
    ∧ (∀ (tok2 : String) (rid2 : ResourceId) (ob : Option Bag) (p : Int),
        parsePageToken codec tok2 rid2 = (ob, p, none) → minInt64 ≤ p ∧ p ≤ maxInt64) := by
  have hparse := parsePageToken_of_decode codec tok b st rid htok hdec hst
  refine ⟨?_, ?_, ?_⟩
  · intro hlo
    have hhi : n ≤ maxInt64 := by simp only [maxInt64]; omega
    rw [hparse, hfield, getPageFromPageToken_formatInt n hlo hhi]
  · intro hlow
    rw [hparse, hfield]
    have hne := formatInt_ne_empty n
    cases hp : ParseInt (formatInt n) with
    | error e =>
      exact ⟨e.toError (formatInt n), by simp [getPageFromPageToken, hne, hp]⟩
    | ok v =>
      have hv := ParseInt_formatInt_value n v hp
      have hr := ParseInt_range _ _ hp
      rw [hv] at hr
      exact absurd hr.1 (not_le.mpr hlow)
  · intro tok2 rid2 ob p h
    exact parsePageToken_page_range codec tok2 rid2 ob p h

/-- C11 (amended), at the page field "-1" of the role listing: the token is accepted
with page -1. -/
theorem negative_page_is_accepted_witness :
    roleTokenAt "-1" ≠ ""
    ∧ sampleCodec.decode (roleTokenAt "-1") = some (roleBagAt "-1")
    ∧ (roleBagAt "-1").currentState
        = some { Token := "-1", ResourceTypeID := "role", ResourceID := "" }
    ∧ (-1 : Int) < 0
    ∧ ("-1" : String) = formatInt (-1)
    ∧ minInt64 ≤ -1
    ∧ parsePageToken sampleCodec (roleTokenAt "-1") { ResourceType := "role", Resource := "" }
        = (some (roleBagAt "-1"), -1, none) :=
  ⟨by decide, by decide, rfl, by decide, by decide, by decide,
    (negative_page_is_accepted sampleCodec (roleTokenAt "-1") (roleBagAt "-1")
      { Token := "-1", ResourceTypeID := "role", ResourceID := "" }
      { ResourceType := "role", Resource := "" } (-1)
      (by decide) (by decide) rfl (by decide) (by decide)).1 (by decide)⟩

/-! ## C12: fresh start -/

/-- C12: for the empty token and every supplied resource id, `parsePageToken` succeeds
with page 0 and a bag whose only frame carries the supplied resource type and resource
id; and a top frame whose page field is absent or empty always decodes to page 0
(also when the decoded bag has no top frame and the root frame is seeded). -/
theorem fresh_start_decodes_to_page_zero (codec : TokenCodec) (rid : ResourceId) :
    parsePageToken codec "" rid =
        (some { states := [],
                currentState := some { Token := "", ResourceTypeID := rid.ResourceType,
                                       ResourceID := rid.Resource } }, 0, none)
    ∧ getPageFromPageToken "" = (0, none)
    ∧ (∀ (tok : String) (b : Bag) (st : PageState), tok ≠ "" → codec.decode tok = some b →
        b.currentState = some st → st.Token = "" →
        parsePageToken codec tok rid = (some b, 0, none))
    ∧ (∀ (tok : String) (b : Bag), tok ≠ "" → codec.decode tok = some b →
        b.currentState = none →
        parsePageToken codec tok rid =
          (some { states := b.states,
                  currentState := some { Token := "", ResourceTypeID := rid.ResourceType,
                                         ResourceID := rid.Resource } }, 0, none)) := by
  refine ⟨?_, ?_, ?_, ?_⟩
  · simp [parsePageToken, Bag.Unmarshal, Bag.Current, Bag.Push, Bag.PageToken,
      getPageFromPageToken]
  · simp [getPageFromPageToken]
  · intro tok b st htok hdec hst hfield
    rw [parsePageToken_of_decode codec tok b st rid htok hdec hst, hfield]
    simp [getPageFromPageToken]
  · intro tok b htok hdec hcur
    simp [parsePageToken, Bag.Unmarshal, htok, hdec, Bag.Current, Bag.Push, Bag.PageToken, hcur,
      getPageFromPageToken]

/-- C12, on the role listing: the empty token gives the seeded frame and page 0, and
the token whose top frame has an empty page field decodes to page 0. -/
theorem fresh_start_decodes_to_page_zero_witness :
    parsePageToken sampleCodec "" { ResourceType := "role", Resource := "" }
        = (some (roleBagAt ""), 0, none)
    ∧ roleTokenAt "" ≠ ""
    ∧ sampleCodec.decode (roleTokenAt "") = some (roleBagAt "")
    ∧ (roleBagAt "").currentState
        = some { Token := "", ResourceTypeID := "role", ResourceID := "" }
    ∧ parsePageToken sampleCodec (roleTokenAt "") { ResourceType := "role", Resource := "" }
        = (some (roleBagAt ""), 0, none) :=
  ⟨(fresh_start_decodes_to_page_zero sampleCodec { ResourceType := "role", Resource := "" }).1,
    by decide, by decide, rfl,
    (fresh_start_decodes_to_page_zero sampleCodec { ResourceType := "role", Resource := "" }).2.2.1
      (roleTokenAt "") (roleBagAt "")
      { Token := "", ResourceTypeID := "role", ResourceID := "" } (by decide) (by decide) rfl rfl⟩

/-! ## The grants of a role, and failing lookups of a team -/

theorem roleBuilder_Grants_loop_ok (resource : Resource) (users : List User) (acc : List Grant) :
    roleBuilder.Grants.loop resource users acc =
      .ok (acc ++ users.map (fun u => NewGrant resource "member" u.principalId)) := by
  induction users generalizing acc with
  | nil => simp [roleBuilder.Grants.loop]
  | cons user rest ih =>
    obtain ⟨ur, hur, hid⟩ := userResource_id user
    rw [roleBuilder.Grants.loop]
    simp only [hur, hid]
    rw [ih]
    simp [roleMembership]

/-- Behaviour of `roleBuilder.Grants` on an accepted token and a successful page of role
users: one request, one "member" grant per user, and the next token. -/
theorem roleBuilder_Grants_spec (codec : TokenCodec) (r : roleBuilder) (ctx : Context)
    (resource : Resource) (pToken : Token) (ob : Option Bag) (p : Int) (users : UsersResponse)
    (h : parsePageToken codec pToken.Token { ResourceType := userResourceType.Id, Resource := "" }
      = (ob, p, none))
    (hu : r.client.ListRoleUsers (withAuthContext ctx r.apiKey r.appKey r.site)
      resource.Id.Resource p = .ok users) :
    ∃ bag st, ob = some bag ∧ bag.currentState = some st
      ∧ roleBuilder.Grants codec r ctx resource pToken =
          ⟨[⟨withAuthContext ctx r.apiKey r.appKey r.site,
              .ListRoleUsers resource.Id.Resource p⟩],
            .returned ⟨users.GetData.map (fun u => NewGrant resource "member" u.principalId),
              if users.GetData = [] then ""
              else nextTokenOf codec bag st (wrapInt64 (p + 1)), [], none⟩⟩ := by
  obtain ⟨bag, st, hob, hst, -⟩ := parsePageToken_accepted codec _ _ ob p h
  refine ⟨bag, st, hob, hst, ?_⟩
  subst hob
  have hnext := getPageTokenFromPage_eq codec bag st (wrapInt64 (p + 1)) hst
  have hloop := roleBuilder_Grants_loop_ok resource users.GetData []
  simp only [List.nil_append] at hloop
  simp only [roleBuilder.Grants, h, hu, hloop]
  by_cases hd : users.GetData = []
  · simp [hd]
  · simp [hd, hnext, nextTokenOf]

/-- The membership loop when the lookups of the first records succeed and the lookup of
the next record fails: the requests stop at the failing lookup and the loop returns the
wrapped error. -/
theorem teamBuilder_Grants_loop_fail (t : teamBuilder) (ctx : Context) (resource : Resource)
    (before : List UserTeam) (rs : List UserResponse) (m : UserTeam) (after : List UserTeam)
    (acc : List Grant) (e : Error)
    (hl : List.Forall₂ (lookupSucceeds t.client ctx) before rs)
    (hrel : m.Relationships.isSome = true) (hget : t.client.GetUser ctx m.userId = .error e) :
    teamBuilder.Grants.loop t ctx resource (before ++ m :: after) acc =
      ⟨(before ++ [m]).map (fun m => ⟨ctx, .GetUser m.userId⟩),
        .returned (.error
          (.wrapped ("error getting user " ++ m.userId ++ " from team membership: ") e))⟩ := by
  induction hl generalizing acc with
  | nil =>
    obtain ⟨rel, hrel⟩ := Option.isSome_iff_exists.mp hrel
    have hid : (RelationshipToUserTeamUser.GetData rel.User).Id = m.userId := by
      simp [UserTeam.userId, hrel]
    rw [List.nil_append, teamBuilder.Grants.loop]
    simp only [hrel, hid, hget]
    simp
  | @cons m0 res ms rs hm _ ih =>
    obtain ⟨hrel0, hget0⟩ := hm
    obtain ⟨rel0, hrel0⟩ := Option.isSome_iff_exists.mp hrel0
    have hid0 : (RelationshipToUserTeamUser.GetData rel0.User).Id = m0.userId := by
      simp [UserTeam.userId, hrel0]
    obtain ⟨ur, hur, -⟩ := userResource_id res.GetData
    rw [List.cons_append, teamBuilder.Grants.loop]
    simp only [hrel0, hid0, hget0, hur]
    rw [ih]
    simp

/-- Behaviour of `teamBuilder.Grants` on an accepted token and a successful membership
page when the lookups of the first records succeed and the next lookup fails. -/
theorem teamBuilder_Grants_fail_spec (codec : TokenCodec) (t : teamBuilder) (ctx : Context)
    (resource : Resource) (pToken : Token) (ob : Option Bag) (p : Int)
    (memberships : UserTeamsResponse) (before : List UserTeam) (rs : List UserResponse)
    (m : UserTeam) (after : List UserTeam) (e : Error)
    (h : parsePageToken codec pToken.Token { ResourceType := t.resourceType.Id, Resource := "" }
      = (ob, p, none))
    (hm : t.client.GetTeamMemberships (withAuthContext ctx t.apiKey t.appKey t.site)
      resource.Id.Resource p = .ok memberships)
    (hpage : memberships.GetData = before ++ m :: after)
    (hl : List.Forall₂ (lookupSucceeds t.client (withAuthContext ctx t.apiKey t.appKey t.site))
      before rs)
    (hrel : m.Relationships.isSome = true)
    (hget : t.client.GetUser (withAuthContext ctx t.apiKey t.appKey t.site) m.userId = .error e) :
    teamBuilder.Grants codec t ctx resource pToken =
      ⟨⟨withAuthContext ctx t.apiKey t.appKey t.site,
          .GetTeamMemberships resource.Id.Resource p⟩ ::
        (before ++ [m]).map (fun m =>
          ⟨withAuthContext ctx t.apiKey t.appKey t.site, .GetUser m.userId⟩),
        .returned ⟨[], "", [],
          some (.wrapped ("error getting user " ++ m.userId ++ " from team membership: ") e)⟩⟩ := by
  have hloop := teamBuilder_Grants_loop_fail t (withAuthContext ctx t.apiKey t.appKey t.site)
    resource before rs m after [] e hl hrel hget
  simp only [teamBuilder.Grants, h, hm, hpage, hloop]

/-! ## C13: the page index from one token to the next -/

theorem decodesToNextPage_nextTokenOf (codec : TokenCodec) (rid : ResourceId) (bag : Bag)
    (st : PageState) (p : Int) (hlo : minInt64 ≤ p) (hhi : p ≤ maxInt64) :
    decodesToNextPage codec rid p (nextTokenOf codec bag st (wrapInt64 (p + 1))) := by
  refine ⟨_, wrapInt64 (p + 1),
    parsePageToken_encode codec _ _ _ rid rfl
      (getPageFromPageToken_formatInt _ (wrapInt64_range _).1 (wrapInt64_range _).2), rfl, ?_, ?_⟩
  · intro hlt
    have : wrapInt64 (p + 1) = p + 1 := by
      apply wrapInt64_of_range <;> simp only [minInt64, maxInt64] at * <;> omega
    rw [this]
    exact ⟨rfl, by omega⟩
  · intro heq
    rw [heq]
    exact wrapInt64_succ_max

/-- C13, as stated, fails at the last `int64` page: the token of the team listing at page
9223372036854775807 is accepted, the membership page is not empty and its lookups
succeed, and the next token returned by `teamBuilder.Grants` decodes to page
-9223372036854775808, which is below the page of the token. -/
theorem grants_page_decreases_at_max :
    parsePageToken sampleCodec (teamTokenAt "9223372036854775807")
        { ResourceType := (newTeamBuilder twiceClient "datadoghq.com" "api" "app").resourceType.Id,
          Resource := "" }
      = (some (teamBagAt "9223372036854775807"), 9223372036854775807, none)
    ∧ twiceClient.GetTeamMemberships (withAuthContext .background "api" "app" "datadoghq.com")
        engTeam.Id.Resource 9223372036854775807
        = .ok ⟨[membershipOf "alice" (some "admin"), membershipOf "alice" none]⟩
    ∧ ∃ res, (teamBuilder.Grants sampleCodec (newTeamBuilder twiceClient "datadoghq.com" "api" "app")
          .background engTeam ⟨0, teamTokenAt "9223372036854775807"⟩).outcome = .returned res
        ∧ res.err = none
        ∧ (parsePageToken sampleCodec res.nextPageToken { ResourceType := "team", Resource := "" }).2
            = (-9223372036854775808, none)
        ∧ ¬ ((-9223372036854775808 : Int) ≥ 9223372036854775807) := by
  refine ⟨by decide, rfl, _, rfl, by decide, by decide, by decide⟩

/-- C13 (amended): for every accepted token with page `p` and every non-empty upstream
page, the page `q` encoded in the next-token returned by each List and by the Grants of
the team and role syncers is the `int64` sum `p + 1`: `q = p + 1`, so `q >= p`, for every
`p` below the largest `int64`, and `q` is the smallest `int64` when `p` is the largest. -/
theorem next_page_is_int64_successor (codec : TokenCodec) (ctx : Context) (pToken : Token)
    (ob : Option Bag) (p : Int) :
    (∀ (u : userBuilder) (parent : Option ResourceId) (users : UsersResponse),
        parsePageToken codec pToken.Token { ResourceType := u.resourceType.Id, Resource := "" }
          = (ob, p, none) →
        u.client.ListUsers (withAuthContext ctx u.apiKey u.appKey u.site) p = .ok users →
        users.GetData ≠ [] →
        ∃ res, (userBuilder.List codec u ctx parent pToken).outcome = .returned res
          ∧ res.err = none
          ∧ decodesToNextPage codec { ResourceType := u.resourceType.Id, Resource := "" } p
              res.nextPageToken)
    ∧ (∀ (t : teamBuilder) (parent : Option ResourceId) (teams : TeamsResponse),
        parsePageToken codec pToken.Token { ResourceType := t.resourceType.Id, Resource := "" }
          = (ob, p, none) →
        t.client.ListTeams (withAuthContext ctx t.apiKey t.appKey t.site) p = .ok teams →
        teams.GetData ≠ [] →
        ∃ res, (teamBuilder.List codec t ctx parent pToken).outcome = .returned res
          ∧ res.err = none
          ∧ decodesToNextPage codec { ResourceType := t.resourceType.Id, Resource := "" } p
              res.nextPageToken)
    ∧ (∀ (r : roleBuilder) (parent : Option ResourceId) (roles : RolesResponse),
        parsePageToken codec pToken.Token { ResourceType := r.resourceType.Id, Resource := "" }
          = (ob, p, none) →
        r.client.ListRoles (withAuthContext ctx r.apiKey r.appKey r.site) p = .ok roles →
        roles.GetData ≠ [] →
        ∃ res, (roleBuilder.List codec r ctx parent pToken).outcome = .returned res
          ∧ res.err = none
          ∧ decodesToNextPage codec { ResourceType := r.resourceType.Id, Resource := "" } p
              res.nextPageToken)
    ∧ (∀ (t : teamBuilder) (resource : Resource) (memberships : UserTeamsResponse)
        (rs : List UserResponse),
        parsePageToken codec pToken.Token { ResourceType := t.resourceType.Id, Resource := "" }
          = (ob, p, none) →
        t.client.GetTeamMemberships (withAuthContext ctx t.apiKey t.appKey t.site)
          resource.Id.Resource p = .ok memberships →
        List.Forall₂ (lookupSucceeds t.client (withAuthContext ctx t.apiKey t.appKey t.site))
          memberships.GetData rs →
        memberships.GetData ≠ [] →
        ∃ res, (teamBuilder.Grants codec t ctx resource pToken).outcome = .returned res
          ∧ res.err = none
          ∧ decodesToNextPage codec { ResourceType := t.resourceType.Id, Resource := "" } p
              res.nextPageToken)
    ∧ (∀ (r : roleBuilder) (resource : Resource) (users : UsersResponse),
        parsePageToken codec pToken.Token { ResourceType := userResourceType.Id, Resource := "" }
          = (ob, p, none) →
        r.client.ListRoleUsers (withAuthContext ctx r.apiKey r.appKey r.site)
          resource.Id.Resource p = .ok users →
        users.GetData ≠ [] →
        ∃ res, (roleBuilder.Grants codec r ctx resource pToken).outcome = .returned res
          ∧ res.err = none
          ∧ decodesToNextPage codec { ResourceType := userResourceType.Id, Resource := "" } p
              res.nextPageToken) := by
  refine ⟨?_, ?_, ?_, ?_, ?_⟩
  · intro u parent users h hu hne
    obtain ⟨hlo, hhi⟩ := parsePageToken_page_range _ _ _ _ _ h
    obtain ⟨rv, bag, st, -, -, -, hrun⟩ :=
      userBuilder_List_spec codec u ctx parent pToken ob p users h hu
    refine ⟨_, by rw [hrun], rfl, ?_⟩
    simp only [if_neg hne]
    exact decodesToNextPage_nextTokenOf codec _ bag st p hlo hhi
  · intro t parent teams h hu hne
    obtain ⟨hlo, hhi⟩ := parsePageToken_page_range _ _ _ _ _ h
    obtain ⟨rv, bag, st, -, -, -, hrun⟩ :=
      teamBuilder_List_spec codec t ctx parent pToken ob p teams h hu
    refine ⟨_, by rw [hrun], rfl, ?_⟩
    simp only [if_neg hne]
    exact decodesToNextPage_nextTokenOf codec _ bag st p hlo hhi
  · intro r parent roles h hu hne
    obtain ⟨hlo, hhi⟩ := parsePageToken_page_range _ _ _ _ _ h
    obtain ⟨rv, bag, st, -, -, -, hrun⟩ :=
      roleBuilder_List_spec codec r ctx parent pToken ob p roles h hu
    refine ⟨_, by rw [hrun], rfl, ?_⟩
    simp only [if_neg hne]
    exact decodesToNextPage_nextTokenOf codec _ bag st p hlo hhi
  · intro t resource memberships rs h hm hl hne
    obtain ⟨hlo, hhi⟩ := parsePageToken_page_range _ _ _ _ _ h
    obtain ⟨bag, st, -, -, hrun⟩ :=
      teamBuilder_Grants_spec codec t ctx resource pToken ob p memberships rs h hm hl
    refine ⟨_, by rw [hrun], rfl, ?_⟩
    simp only [if_neg hne]
    exact decodesToNextPage_nextTokenOf codec _ bag st p hlo hhi
  · intro r resource users h hu hne
    obtain ⟨hlo, hhi⟩ := parsePageToken_page_range _ _ _ _ _ h
    obtain ⟨bag, st, -, -, hrun⟩ :=
      roleBuilder_Grants_spec codec r ctx resource pToken ob p users h hu
    refine ⟨_, by rw [hrun], rfl, ?_⟩
    simp only [if_neg hne]
    exact decodesToNextPage_nextTokenOf codec _ bag st p hlo hhi

/-- C13 (amended), on the team scenario of section 8: the Grants call of page 0 returns
a next-token that decodes to page 1, which is not below 0. -/
theorem next_page_is_int64_successor_witness :
    parsePageToken sampleCodec ""
        { ResourceType := (newTeamBuilder engClient "datadoghq.com" "api" "app").resourceType.Id,
          Resource := "" } = (some (teamBagAt ""), 0, none)
    ∧ engClient.GetTeamMemberships (withAuthContext .background "api" "app" "datadoghq.com")
        engTeam.Id.Resource 0
        = .ok ⟨[membershipOf "alice" (some "admin"), membershipOf "bob" none]⟩
    ∧ List.Forall₂ (lookupSucceeds engClient (withAuthContext .background "api" "app" "datadoghq.com"))
        [membershipOf "alice" (some "admin"), membershipOf "bob" none]
        [⟨some aliceUser⟩, ⟨some bobUser⟩]
    ∧ ∃ res bag2, (teamBuilder.Grants sampleCodec (newTeamBuilder engClient "datadoghq.com" "api" "app")
          .background engTeam ⟨0, ""⟩).outcome = .returned res
        ∧ parsePageToken sampleCodec res.nextPageToken { ResourceType := "team", Resource := "" }
            = (some bag2, 1, none)
        ∧ (1 : Int) ≥ 0 := by
  have hl : List.Forall₂
      (lookupSucceeds engClient (withAuthContext .background "api" "app" "datadoghq.com"))
      [membershipOf "alice" (some "admin"), membershipOf "bob" none]
      [⟨some aliceUser⟩, ⟨some bobUser⟩] :=
    List.Forall₂.cons ⟨rfl, rfl⟩ (List.Forall₂.cons ⟨rfl, rfl⟩ List.Forall₂.nil)
  refine ⟨by decide, rfl, hl, ?_⟩
  obtain ⟨res, h1, -, bag2, q, h3, -, h5, -⟩ :=
    (next_page_is_int64_successor sampleCodec .background ⟨0, ""⟩ (some (teamBagAt "")) 0).2.2.2.1
      (newTeamBuilder engClient "datadoghq.com" "api" "app") engTeam
      ⟨[membershipOf "alice" (some "admin"), membershipOf "bob" none]⟩
      [⟨some aliceUser⟩, ⟨some bobUser⟩] (by decide) rfl hl (by decide)
  obtain ⟨h6, -⟩ := h5 (by decide)
  rw [h6] at h3
  exact ⟨res, bag2, h1, h3, by decide⟩

/-! ## C14: errors come with default results -/

/-- C14: for every List and Grants operation of every syncer and for Grant and Revoke,
whenever the returned error is non-nil the other results are the defaults (nil list,
empty next-token, nil annotations); in particular `teamBuilder.Grants` returns the
error with default results when the lookup of a membership record fails after the
records before it were processed. -/
theorem error_has_default_results (codec : TokenCodec) (ctx : Context) (pToken : Token) :
    (∀ (u : userBuilder) (parent : Option ResourceId) (res : ListResult),
        (userBuilder.List codec u ctx parent pToken).outcome = .returned res → res.err ≠ none →
        res.rv = [] ∧ res.nextPageToken = "" ∧ res.annos = [])
    ∧ (∀ (t : teamBuilder) (parent : Option ResourceId) (res : ListResult),
        (teamBuilder.List codec t ctx parent pToken).outcome = .returned res → res.err ≠ none →
        res.rv = [] ∧ res.nextPageToken = "" ∧ res.annos = [])
    ∧ (∀ (r : roleBuilder) (parent : Option ResourceId) (res : ListResult),
        (roleBuilder.List codec r ctx parent pToken).outcome = .returned res → res.err ≠ none →
        res.rv = [] ∧ res.nextPageToken = "" ∧ res.annos = [])
    ∧ (∀ (u : userBuilder) (resource : Resource) (res : GrantsResult),
        (userBuilder.Grants u ctx resource pToken).outcome = .returned res → res.err ≠ none →
        res.rv = [] ∧ res.nextPageToken = "" ∧ res.annos = [])
    ∧ (∀ (t : teamBuilder) (resource : Resource) (res : GrantsResult),
        (teamBuilder.Grants codec t ctx resource pToken).outcome = .returned res →
        res.err ≠ none →
        res.rv = [] ∧ res.nextPageToken = "" ∧ res.annos = [])
    ∧ (∀ (r : roleBuilder) (resource : Resource) (res : GrantsResult),
        (roleBuilder.Grants codec r ctx resource pToken).outcome = .returned res →
        res.err ≠ none →
        res.rv = [] ∧ res.nextPageToken = "" ∧ res.annos = [])
    ∧ (∀ (t : teamBuilder) (principal : Resource) (entitlement : Entitlement) (grant : Grant),
        ((teamBuilder.Grant t ctx principal entitlement).outcome.err ≠ none →
          (teamBuilder.Grant t ctx principal entitlement).outcome.annos = [])
        ∧ ((teamBuilder.Revoke t ctx grant).outcome.err ≠ none →
          (teamBuilder.Revoke t ctx grant).outcome.annos = []))
    ∧ (∀ (r : roleBuilder) (principal : Resource) (entitlement : Entitlement) (grant : Grant),
        ((roleBuilder.Grant r ctx principal entitlement).outcome.err ≠ none →
          (roleBuilder.Grant r ctx principal entitlement).outcome.annos = [])
        ∧ ((roleBuilder.Revoke r ctx grant).outcome.err ≠ none →
          (roleBuilder.Revoke r ctx grant).outcome.annos = []))
    ∧ (∀ (t : teamBuilder) (resource : Resource) (ob : Option Bag) (p : Int)
        (memberships : UserTeamsResponse) (before : List UserTeam) (rs : List UserResponse)
        (m : UserTeam) (after : List UserTeam) (e : Error),
        parsePageToken codec pToken.Token { ResourceType := t.resourceType.Id, Resource := "" }
          = (ob, p, none) →
        t.client.GetTeamMemberships (withAuthContext ctx t.apiKey t.appKey t.site)
          resource.Id.Resource p = .ok memberships →
        memberships.GetData = before ++ m :: after →
        List.Forall₂ (lookupSucceeds t.client (withAuthContext ctx t.apiKey t.appKey t.site))
          before rs →
        m.Relationships.isSome = true →
        t.client.GetUser (withAuthContext ctx t.apiKey t.appKey t.site) m.userId = .error e →
        ∃ err, (teamBuilder.Grants codec t ctx resource pToken).outcome
          = .returned ⟨[], "", [], some err⟩) := by
  refine ⟨?_, ?_, ?_, ?_, ?_, ?_, ?_, ?_, ?_⟩
  · intro u parent res hout herr
    unfold userBuilder.List at hout
    simp only at hout
    repeat' (split at hout)
    all_goals (cases hout <;> first | exact ⟨rfl, rfl, rfl⟩ | simp at herr)
  · intro t parent res hout herr
    unfold teamBuilder.List at hout
    simp only at hout
    repeat' (split at hout)
    all_goals (cases hout <;> first | exact ⟨rfl, rfl, rfl⟩ | simp at herr)
  · intro r parent res hout herr
    unfold roleBuilder.List at hout
    simp only at hout
    repeat' (split at hout)
    all_goals (cases hout <;> first | exact ⟨rfl, rfl, rfl⟩ | simp at herr)
  · intro u resource res hout herr
    cases hout
    exact ⟨rfl, rfl, rfl⟩
  · intro t resource res hout herr
    unfold teamBuilder.Grants at hout
    simp only at hout
    repeat' (split at hout)
    all_goals (cases hout <;> first | exact ⟨rfl, rfl, rfl⟩ | simp at herr)
  · intro r resource res hout herr
    unfold roleBuilder.Grants at hout
    simp only at hout
    repeat' (split at hout)
    all_goals (cases hout <;> first | exact ⟨rfl, rfl, rfl⟩ | simp at herr)
  · intro t principal entitlement grant
    constructor
    · intro _
      unfold teamBuilder.Grant
      simp only
      repeat' split
      all_goals rfl
    · intro _
      unfold teamBuilder.Revoke
      simp only
      repeat' split
      all_goals rfl
  · intro r principal entitlement grant
    constructor
    · intro _
      unfold roleBuilder.Grant
      simp only
      repeat' split
      all_goals rfl
    · intro _
      unfold roleBuilder.Revoke
      simp only
      repeat' split
      all_goals rfl
  · intro t resource ob p memberships before rs m after e h hm hpage hl hrel hget
    exact ⟨_, by rw [teamBuilder_Grants_fail_spec codec t ctx resource pToken ob p memberships
      before rs m after e h hm hpage hl hrel hget]⟩

/-- C14, on a team page [Alice, Carol, Bob] where the lookup of Carol fails after the
grants of Alice were built: the call returns the error with a nil list, the empty token
and nil annotations. -/
theorem error_has_default_results_witness :
    ∃ res, (teamBuilder.Grants sampleCodec (newTeamBuilder carolClient "datadoghq.com" "api" "app")
          .background engTeam ⟨0, ""⟩).outcome = .returned res
      ∧ res.err
          = some (.wrapped "error getting user carol from team membership: " (.leaf "not found"))
      ∧ res.err ≠ none
      ∧ res.rv = [] ∧ res.nextPageToken = "" ∧ res.annos = [] := by
  have h1 : (teamBuilder.Grants sampleCodec (newTeamBuilder carolClient "datadoghq.com" "api" "app")
        .background engTeam ⟨0, ""⟩).outcome
      = .returned ⟨[], "", [],
          some (.wrapped "error getting user carol from team membership: " (.leaf "not found"))⟩ := by
    decide
  exact ⟨_, h1, rfl, by simp,
    (error_has_default_results sampleCodec .background ⟨0, ""⟩).2.2.2.2.1
      (newTeamBuilder carolClient "datadoghq.com" "api" "app") engTeam _ h1 (by simp)⟩

/-! ## C15, C16, C17: entitlements -/

/-- C15: `userBuilder.Entitlements` and `userBuilder.Grants` return, for every resource
and every token, an empty list, the empty next-token, no annotations and no error, and
issue no upstream call. -/
theorem user_entitlements_and_grants_are_empty (u : userBuilder) (ctx : Context)
    (resource : Resource) (pToken : Token) :
    userBuilder.Entitlements u ctx resource pToken = ⟨[], ⟨[], "", [], none⟩⟩
    ∧ userBuilder.Grants u ctx resource pToken = ⟨[], .returned ⟨[], "", [], none⟩⟩ :=
  ⟨rfl, rfl⟩

/-- C16: `teamBuilder.Entitlements` returns, for every team resource and every token,
exactly two entitlements owned by that resource, in this order: slug "member" of kind
assignment, then slug "admin" of kind permission; each is grantable to exactly the user
resource type; the two slugs are distinct; the next-token is empty, the error is nil and
no upstream call is issued. -/
theorem team_entitlements_are_member_then_admin (t : teamBuilder) (ctx : Context)
    (resource : Resource) (pToken : Token) :
    ∃ e1 e2, teamBuilder.Entitlements t ctx resource pToken = ⟨[], ⟨[e1, e2], "", [], none⟩⟩
      ∧ e1.Resource = resource ∧ e1.Slug = "member"
      ∧ e1.Purpose = .PURPOSE_VALUE_ASSIGNMENT ∧ e1.GrantableTo = [userResourceType]
      ∧ e2.Resource = resource ∧ e2.Slug = "admin"
      ∧ e2.Purpose = .PURPOSE_VALUE_PERMISSION ∧ e2.GrantableTo = [userResourceType]
      ∧ e1.Slug ≠ e2.Slug :=
  ⟨_, _, rfl, rfl, rfl, rfl, rfl, rfl, rfl, rfl, rfl,
    show ("member" : String) ≠ "admin" by decide⟩

/-- C17: `roleBuilder.Entitlements` returns, for every role resource and every token,
exactly one entitlement owned by that resource, with slug "member", kind assignment,
grantable to exactly the user resource type and display name
"<resource display name> Role member"; the next-token is empty, the error is nil and no
upstream call is issued. -/
theorem role_entitlements_are_member (r : roleBuilder) (ctx : Context)
    (resource : Resource) (pToken : Token) :
    ∃ e, roleBuilder.Entitlements r ctx resource pToken = ⟨[], ⟨[e], "", [], none⟩⟩
      ∧ e.Resource = resource ∧ e.Slug = "member"
      ∧ e.Purpose = .PURPOSE_VALUE_ASSIGNMENT ∧ e.GrantableTo = [userResourceType]
      ∧ e.DisplayName = resource.DisplayName ++ " Role member" := by
  refine ⟨_, rfl, rfl, rfl, rfl, rfl, ?_⟩
  show resource.DisplayName ++ " Role " ++ "member" = resource.DisplayName ++ " Role member"
  rw [String.append_assoc]
  rfl

/-! ## C18: the grants of a role -/

/-- C18: for `roleBuilder.Grants`, for every accepted token and every successful upstream
page of role users, the result is exactly one grant per user, in the same order, each a
"member" grant on the given role resource whose principal is the user's id with the user
resource type; the call issues exactly one upstream request, the role-users list for the
decoded page, and no per-user lookup. -/
theorem role_grants_list_members (codec : TokenCodec) (r : roleBuilder) (ctx : Context)
    (resource : Resource) (pToken : Token) (ob : Option Bag) (p : Int) (users : UsersResponse)
    (h : parsePageToken codec pToken.Token { ResourceType := userResourceType.Id, Resource := "" }
      = (ob, p, none))
    (hu : r.client.ListRoleUsers (withAuthContext ctx r.apiKey r.appKey r.site)
      resource.Id.Resource p = .ok users) :
    ∃ res, roleBuilder.Grants codec r ctx resource pToken =
          ⟨[⟨withAuthContext ctx r.apiKey r.appKey r.site,
              .ListRoleUsers resource.Id.Resource p⟩], .returned res⟩
      ∧ res.err = none
      ∧ res.rv.length = users.GetData.length
      ∧ res.rv = users.GetData.map (fun u =>
          NewGrant resource "member" { ResourceType := userResourceType.Id, Resource := u.GetId })
      ∧ (∀ g ∈ res.rv, g.Entitlement.Resource = resource) := by
  obtain ⟨bag, st, -, -, hrun⟩ := roleBuilder_Grants_spec codec r ctx resource pToken ob p users h hu
  refine ⟨_, hrun, rfl, by simp, rfl, ?_⟩
  intro g hg
  simp only [List.mem_map] at hg
  obtain ⟨u, -, rfl⟩ := hg
  rfl

/-- C18, on the role "SRE" with users Alice and Bob on page 0: two "member" grants, in
order, and the single request `ListRoleUsers("r1", 0)`. -/
theorem role_grants_list_members_witness :
    parsePageToken sampleCodec "" { ResourceType := userResourceType.Id, Resource := "" }
        = (some (userBagAt ""), 0, none)
    ∧ sreUsersClient.ListRoleUsers (withAuthContext .background "api" "app" "datadoghq.com")
        sreResource.Id.Resource 0 = .ok ⟨[aliceUser, bobUser]⟩
    ∧ ∃ res, roleBuilder.Grants sampleCodec (newRoleBuilder sreUsersClient "datadoghq.com" "api" "app")
          .background sreResource ⟨0, ""⟩ =
            ⟨[⟨withAuthContext .background "api" "app" "datadoghq.com", .ListRoleUsers "r1" 0⟩],
              .returned res⟩
        ∧ res.err = none
        ∧ res.rv = [NewGrant sreResource "member" ⟨"user", "alice"⟩,
                    NewGrant sreResource "member" ⟨"user", "bob"⟩] := by
  refine ⟨by decide, rfl, ?_⟩
  obtain ⟨res, h1, h2, -, h4, -⟩ :=
    role_grants_list_members sampleCodec (newRoleBuilder sreUsersClient "datadoghq.com" "api" "app")
      .background sreResource ⟨0, ""⟩ (some (userBagAt "")) 0 ⟨[aliceUser, bobUser]⟩
      (by decide) rfl
  exact ⟨res, h1, h2, by rw [h4]; decide⟩

/-! ## C19: the per-member lookups -/

/-- C19: for `teamBuilder.Grants` on an accepted token and a membership page: when every
lookup succeeds, the requests after the membership request are exactly one `GetUser` per
record, keyed by the record's user id, in order; when the first failing lookup is that of
the record after `before`, the requests stop at that lookup (one per record of `before`,
then the failing one, none for the records after it, none repeated) and the call returns
an error. -/
theorem team_grants_lookups (codec : TokenCodec) (t : teamBuilder) (ctx : Context)
    (resource : Resource) (pToken : Token) (ob : Option Bag) (p : Int)
    (memberships : UserTeamsResponse)
    (h : parsePageToken codec pToken.Token { ResourceType := t.resourceType.Id, Resource := "" }
      = (ob, p, none))
    (hm : t.client.GetTeamMemberships (withAuthContext ctx t.apiKey t.appKey t.site)
      resource.Id.Resource p = .ok memberships) :
    (∀ rs : List UserResponse,
        List.Forall₂ (lookupSucceeds t.client (withAuthContext ctx t.apiKey t.appKey t.site))
          memberships.GetData rs →
        (teamBuilder.Grants codec t ctx resource pToken).requests =
            ⟨withAuthContext ctx t.apiKey t.appKey t.site,
              .GetTeamMemberships resource.Id.Resource p⟩ ::
            memberships.GetData.map (fun m =>
              ⟨withAuthContext ctx t.apiKey t.appKey t.site, .GetUser m.userId⟩)
        ∧ (teamBuilder.Grants codec t ctx resource pToken).requests.length
            = 1 + memberships.GetData.length
        ∧ ∃ res, (teamBuilder.Grants codec t ctx resource pToken).outcome = .returned res
            ∧ res.err = none)
    ∧ (∀ (before : List UserTeam) (rs : List UserResponse) (m : UserTeam)
        (after : List UserTeam) (e : Error),
        memberships.GetData = before ++ m :: after →
        List.Forall₂ (lookupSucceeds t.client (withAuthContext ctx t.apiKey t.appKey t.site))
          before rs →
        m.Relationships.isSome = true →
        t.client.GetUser (withAuthContext ctx t.apiKey t.appKey t.site) m.userId = .error e →
        (teamBuilder.Grants codec t ctx resource pToken).requests =
            ⟨withAuthContext ctx t.apiKey t.appKey t.site,
              .GetTeamMemberships resource.Id.Resource p⟩ ::
            (before ++ [m]).map (fun m =>
              ⟨withAuthContext ctx t.apiKey t.appKey t.site, .GetUser m.userId⟩)
        ∧ (teamBuilder.Grants codec t ctx resource pToken).requests.length
            = 1 + (before.length + 1)
        ∧ ∃ res, (teamBuilder.Grants codec t ctx resource pToken).outcome = .returned res
            ∧ res.err = some
                (.wrapped ("error getting user " ++ m.userId ++ " from team membership: ") e)) := by
  constructor
  · intro rs hl
    obtain ⟨bag, st, -, -, hrun⟩ :=
      teamBuilder_Grants_spec codec t ctx resource pToken ob p memberships rs h hm hl
    rw [hrun]
    exact ⟨rfl, by simp [Nat.add_comm], _, rfl, rfl⟩
  · intro before rs m after e hpage hl hrel hget
    rw [teamBuilder_Grants_fail_spec codec t ctx resource pToken ob p memberships before rs m
      after e h hm hpage hl hrel hget]
    exact ⟨rfl, by simp [Nat.add_comm], _, rfl, rfl⟩

/-- C19, on a team page [Alice, Carol, Bob] where the lookup of Carol is the first to
fail: the requests are the membership request, the lookup of Alice and the lookup of
Carol, and the call returns an error. -/
theorem team_grants_lookups_witness :
    parsePageToken sampleCodec ""
        { ResourceType := (newTeamBuilder carolClient "datadoghq.com" "api" "app").resourceType.Id,
          Resource := "" } = (some (teamBagAt ""), 0, none)
    ∧ carolClient.GetTeamMemberships (withAuthContext .background "api" "app" "datadoghq.com")
        engTeam.Id.Resource 0
        = .ok ⟨[membershipOf "alice" (some "admin"), membershipOf "carol" none,
                membershipOf "bob" none]⟩
    ∧ List.Forall₂ (lookupSucceeds carolClient (withAuthContext .background "api" "app" "datadoghq.com"))
        [membershipOf "alice" (some "admin")] [⟨some aliceUser⟩]
    ∧ carolClient.GetUser (withAuthContext .background "api" "app" "datadoghq.com")
        (membershipOf "carol" none).userId = .error (.leaf "not found")
    ∧ (teamBuilder.Grants sampleCodec (newTeamBuilder carolClient "datadoghq.com" "api" "app")
          .background engTeam ⟨0, ""⟩).requests =
        [⟨withAuthContext .background "api" "app" "datadoghq.com", .GetTeamMemberships "Eng" 0⟩,
         ⟨withAuthContext .background "api" "app" "datadoghq.com", .GetUser "alice"⟩,
         ⟨withAuthContext .background "api" "app" "datadoghq.com", .GetUser "carol"⟩] := by
  have hl : List.Forall₂
      (lookupSucceeds carolClient (withAuthContext .background "api" "app" "datadoghq.com"))
      [membershipOf "alice" (some "admin")] [⟨some aliceUser⟩] :=
    List.Forall₂.cons ⟨rfl, rfl⟩ List.Forall₂.nil
  refine ⟨by decide, rfl, hl, rfl, ?_⟩
  exact ((team_grants_lookups sampleCodec (newTeamBuilder carolClient "datadoghq.com" "api" "app")
      .background engTeam ⟨0, ""⟩ (some (teamBagAt "")) 0
      ⟨[membershipOf "alice" (some "admin"), membershipOf "carol" none, membershipOf "bob" none]⟩
      (by decide) rfl).2
      [membershipOf "alice" (some "admin")] [⟨some aliceUser⟩] (membershipOf "carol" none)
      [membershipOf "bob" none] (.leaf "not found") rfl hl rfl rfl).1

/-! ## C20: every emitted grant is valid -/

/-- Whatever the membership loop returns, each grant beyond the accumulator is a "member"
or an "admin" grant on the resource for a principal of the user resource type. -/
theorem teamBuilder_Grants_loop_grants (t : teamBuilder) (ctx : Context) (resource : Resource)
    (ms : List UserTeam) (acc rv : List Grant)
    (h : (teamBuilder.Grants.loop t ctx resource ms acc).outcome = .returned (.ok rv)) :
    ∀ g ∈ rv, g ∈ acc ∨ ∃ pid : ResourceId, pid.ResourceType = userResourceType.Id
      ∧ (g = NewGrant resource "member" pid ∨ g = NewGrant resource "admin" pid) := by
  induction ms generalizing acc with
  | nil =>
    simp only [teamBuilder.Grants.loop, Completion.returned.injEq, Except.ok.injEq] at h
    subst h
    intro g hg
    exact Or.inl hg
  | cons m rest ih =>
    rw [teamBuilder.Grants.loop] at h
    cases hrel : m.Relationships with
    | none => simp [hrel] at h
    | some rel =>
      simp only [hrel] at h
      cases hget : t.client.GetUser ctx (RelationshipToUserTeamUser.GetData rel.User).Id with
      | error e => simp [hget] at h
      | ok res =>
        obtain ⟨ur, hur, hurid⟩ := userResource_id res.GetData
        simp only [hget, hur] at h
        have hpid : ur.Id.ResourceType = userResourceType.Id := by rw [hurid]; rfl
        intro g hg
        rcases ih _ h g hg with hin | hnew
        · have hcases : g ∈ acc ∨ g = NewGrant resource memberRole ur.Id
              ∨ g = NewGrant resource adminRole ur.Id := by
            repeat' (split at hin)
            all_goals
              simp only [List.mem_append, List.mem_cons, List.mem_singleton, List.not_mem_nil,
                or_false] at hin
              tauto
          rcases hcases with hacc | rfl | rfl
          · exact Or.inl hacc
          · exact Or.inr ⟨ur.Id, hpid, Or.inl rfl⟩
          · exact Or.inr ⟨ur.Id, hpid, Or.inr rfl⟩
        · exact Or.inr hnew

/-- C20: every grant emitted by `teamBuilder.Grants` or `roleBuilder.Grants` is valid: its
principal's resource type id is the user resource type id, and the same syncer's
Entitlements returns, for the same resource, an entitlement with the grant's entitlement
id (same owning resource, same slug) whose grantable-to set holds that type. -/
theorem emitted_grants_are_valid (codec : TokenCodec) (ctx : Context) (resource : Resource)
    (pToken : Token) :
    (∀ (t : teamBuilder) (res : GrantsResult),
        (teamBuilder.Grants codec t ctx resource pToken).outcome = .returned res →
        ∀ g ∈ res.rv, g.Principal.Id.ResourceType = userResourceType.Id
          ∧ ∃ e ∈ (teamBuilder.Entitlements t ctx resource pToken).outcome.rv,
              g.Entitlement.Id = e.Id ∧ g.Entitlement.Resource = e.Resource
              ∧ (∃ pid, g = NewGrant resource e.Slug pid)
              ∧ ∃ rt ∈ e.GrantableTo, rt.Id = g.Principal.Id.ResourceType)
    ∧ (∀ (r : roleBuilder) (res : GrantsResult),
        (roleBuilder.Grants codec r ctx resource pToken).outcome = .returned res →
        ∀ g ∈ res.rv, g.Principal.Id.ResourceType = userResourceType.Id
          ∧ ∃ e ∈ (roleBuilder.Entitlements r ctx resource pToken).outcome.rv,
              g.Entitlement.Id = e.Id ∧ g.Entitlement.Resource = e.Resource
              ∧ (∃ pid, g = NewGrant resource e.Slug pid)
              ∧ ∃ rt ∈ e.GrantableTo, rt.Id = g.Principal.Id.ResourceType) := by
  constructor
  · intro t res hout g hg
    have hrv : ∃ rv, (teamBuilder.Grants.loop t (withAuthContext ctx t.apiKey t.appKey t.site)
        resource
        (match t.client.GetTeamMemberships (withAuthContext ctx t.apiKey t.appKey t.site)
            resource.Id.Resource
            (parsePageToken codec pToken.Token
              { ResourceType := t.resourceType.Id, Resource := "" }).2.1 with
          | .ok memberships => memberships.GetData
          | .error _ => []) []).outcome = .returned (.ok rv) ∧ g ∈ rv := by
      unfold teamBuilder.Grants at hout
      simp only at hout
      split at hout
      · cases hout
        simp at hg
      · rename_i bag page hparse
        simp only [hparse]
        split at hout
        · cases hout
          simp at hg
        · rename_i memberships hmem
          simp only [hmem]
          split at hout
          · cases hout
          · cases hout
            simp at hg
          · rename_i rv hloop
            refine ⟨rv, hloop, ?_⟩
            repeat' (split at hout)
            all_goals (cases hout <;> first | exact hg | simp at hg)
    obtain ⟨rv, hloop, hgrv⟩ := hrv
    rcases teamBuilder_Grants_loop_grants _ _ _ _ _ _ hloop g hgrv with hin | ⟨pid, hpid, hg2⟩
    · simp at hin
    · rcases hg2 with rfl | rfl
      · refine ⟨hpid, _, List.mem_cons_self _ _, rfl, rfl, ⟨pid, rfl⟩, userResourceType, ?_, ?_⟩
        · exact List.mem_singleton.mpr rfl
        · exact hpid.symm
      · refine ⟨hpid, _, List.mem_cons_of_mem _ (List.mem_cons_self _ _), rfl, rfl, ⟨pid, rfl⟩,
          userResourceType, ?_, ?_⟩
        · exact List.mem_singleton.mpr rfl
        · exact hpid.symm
  · intro r res hout g hg
    have hrv : ∃ u : User, g = NewGrant resource "member" u.principalId := by
      unfold roleBuilder.Grants at hout
      simp only at hout
      split at hout
      · cases hout
        simp at hg
      · split at hout
        · cases hout
          simp at hg
        · rename_i users _
          rw [roleBuilder_Grants_loop_ok] at hout
          simp only [List.nil_append] at hout
          have hmem : g ∈ users.GetData.map (fun u => NewGrant resource "member" u.principalId) := by
            repeat' (split at hout)
            all_goals (cases hout <;> first | exact hg | simp at hg)
          obtain ⟨u, -, hu⟩ := List.mem_map.mp hmem
          exact ⟨u, hu.symm⟩
    obtain ⟨u, rfl⟩ := hrv
    refine ⟨rfl, _, List.mem_cons_self _ _, rfl, rfl, ⟨u.principalId, rfl⟩, userResourceType, ?_, rfl⟩
    exact List.mem_singleton.mpr rfl

/-- C20, on the team scenario of section 8: the "admin" grant of Alice emitted for page 0
has a principal of the user type and names the "admin" entitlement that
`teamBuilder.Entitlements` returns for the team, which is grantable to users. -/
theorem emitted_grants_are_valid_witness :
    ∃ res, (teamBuilder.Grants sampleCodec (newTeamBuilder engClient "datadoghq.com" "api" "app")
          .background engTeam ⟨0, ""⟩).outcome = .returned res
      ∧ NewGrant engTeam "admin" ⟨"user", "alice"⟩ ∈ res.rv
      ∧ (NewGrant engTeam "admin" ⟨"user", "alice"⟩).Principal.Id.ResourceType
          = userResourceType.Id
      ∧ ∃ e ∈ (teamBuilder.Entitlements (newTeamBuilder engClient "datadoghq.com" "api" "app")
                .background engTeam ⟨0, ""⟩).outcome.rv,
          (NewGrant engTeam "admin" ⟨"user", "alice"⟩).Entitlement.Id = e.Id
          ∧ ∃ rt ∈ e.GrantableTo,
              rt.Id = (NewGrant engTeam "admin" ⟨"user", "alice"⟩).Principal.Id.ResourceType := by
  have h1 : (teamBuilder.Grants sampleCodec (newTeamBuilder engClient "datadoghq.com" "api" "app")
        .background engTeam ⟨0, ""⟩).outcome
      = .returned ⟨[NewGrant engTeam "member" ⟨"user", "alice"⟩,
                    NewGrant engTeam "admin" ⟨"user", "alice"⟩,
                    NewGrant engTeam "member" ⟨"user", "bob"⟩],
          teamTokenAt "1", [], none⟩ := by decide
  have hmem : NewGrant engTeam "admin" ⟨"user", "alice"⟩ ∈
      [NewGrant engTeam "member" ⟨"user", "alice"⟩,
       NewGrant engTeam "admin" ⟨"user", "alice"⟩,
       NewGrant engTeam "member" ⟨"user", "bob"⟩] := by decide
  obtain ⟨h2, e, he, h3, -, -, h4⟩ :=
    (emitted_grants_are_valid sampleCodec .background engTeam ⟨0, ""⟩).1
      (newTeamBuilder engClient "datadoghq.com" "api" "app") _ h1 _ hmem
  exact ⟨_, h1, hmem, h2, e, he, h3, h4⟩

/-! ## C21: how upstream errors of the read operations surface -/

/-- What each read operation returns when its list request fails with `e` on an accepted
token: the users list, the teams list and the role-users list wrap `e` with a message
naming the operation; the roles list and the team-memberships request return `e` as it
is. -/
theorem read_error_surface (codec : TokenCodec) (ctx : Context) (pToken : Token)
    (ob : Option Bag) (p : Int) (e : Error) :
    (∀ (u : userBuilder) (parent : Option ResourceId),
        parsePageToken codec pToken.Token { ResourceType := u.resourceType.Id, Resource := "" }
          = (ob, p, none) →
        u.client.ListUsers (withAuthContext ctx u.apiKey u.appKey u.site) p = .error e →
        (userBuilder.List codec u ctx parent pToken).outcome
          = .returned ⟨[], "", [], some (.wrapped "error listing users: " e)⟩)
    ∧ (∀ (t : teamBuilder) (parent : Option ResourceId),
        parsePageToken codec pToken.Token { ResourceType := t.resourceType.Id, Resource := "" }
          = (ob, p, none) →
        t.client.ListTeams (withAuthContext ctx t.apiKey t.appKey t.site) p = .error e →
        (teamBuilder.List codec t ctx parent pToken).outcome
          = .returned ⟨[], "", [], some (.wrapped "error listing teams: " e)⟩)
    ∧ (∀ (r : roleBuilder) (parent : Option ResourceId),
        parsePageToken codec pToken.Token { ResourceType := r.resourceType.Id, Resource := "" }
          = (ob, p, none) →
        r.client.ListRoles (withAuthContext ctx r.apiKey r.appKey r.site) p = .error e →
        (roleBuilder.List codec r ctx parent pToken).outcome = .returned ⟨[], "", [], some e⟩)
    ∧ (∀ (t : teamBuilder) (resource : Resource),
        parsePageToken codec pToken.Token { ResourceType := t.resourceType.Id, Resource := "" }
          = (ob, p, none) →
        t.client.GetTeamMemberships (withAuthContext ctx t.apiKey t.appKey t.site)
          resource.Id.Resource p = .error e →
        (teamBuilder.Grants codec t ctx resource pToken).outcome
          = .returned ⟨[], "", [], some e⟩)
    ∧ (∀ (r : roleBuilder) (resource : Resource),
        parsePageToken codec pToken.Token { ResourceType := userResourceType.Id, Resource := "" }
          = (ob, p, none) →
        r.client.ListRoleUsers (withAuthContext ctx r.apiKey r.appKey r.site)
          resource.Id.Resource p = .error e →
        (roleBuilder.Grants codec r ctx resource pToken).outcome
          = .returned ⟨[], "", [], some
              (.wrapped ("error listing users for role " ++ resource.DisplayName ++ ": ") e)⟩) := by
  refine ⟨?_, ?_, ?_, ?_, ?_⟩
  · intro u parent h hu
    simp [userBuilder.List, h, hu]
  · intro t parent h hu
    simp [teamBuilder.List, h, hu]
  · intro r parent h hu
    simp [roleBuilder.List, h, hu]
  · intro t resource h hu
    simp [teamBuilder.Grants, h, hu]
  · intro r resource h hu
    simp [roleBuilder.Grants, h, hu]

/-- C21 fails on the code: with an upstream that answers every call with the error
"unavailable", `roleBuilder.List` and `teamBuilder.Grants` return that error as it is,
with no operation context, while `userBuilder.List`, `teamBuilder.List` and
`roleBuilder.Grants` wrap it. -/
theorem role_list_and_team_grants_return_bare_error :
    (roleBuilder.List sampleCodec (newRoleBuilder refusingClient "datadoghq.com" "api" "app")
        .background none ⟨0, ""⟩).outcome
      = .returned ⟨[], "", [], some (.leaf "unavailable")⟩
    ∧ (teamBuilder.Grants sampleCodec (newTeamBuilder refusingClient "datadoghq.com" "api" "app")
        .background engTeam ⟨0, ""⟩).outcome
      = .returned ⟨[], "", [], some (.leaf "unavailable")⟩
    ∧ (userBuilder.List sampleCodec (newUserBuilder refusingClient "datadoghq.com" "api" "app")
        .background none ⟨0, ""⟩).outcome
      = .returned ⟨[], "", [], some (.wrapped "error listing users: " (.leaf "unavailable"))⟩
    ∧ (teamBuilder.List sampleCodec (newTeamBuilder refusingClient "datadoghq.com" "api" "app")
        .background none ⟨0, ""⟩).outcome
      = .returned ⟨[], "", [], some (.wrapped "error listing teams: " (.leaf "unavailable"))⟩
    ∧ (roleBuilder.Grants sampleCodec (newRoleBuilder refusingClient "datadoghq.com" "api" "app")
        .background sreResource ⟨0, ""⟩).outcome
      = .returned ⟨[], "", [],
          some (.wrapped "error listing users for role SRE: " (.leaf "unavailable"))⟩ := by
  refine ⟨by decide, by decide, by decide, by decide, by decide⟩

/-! ## C22: how a rejected write surfaces -/

/-- C22, as stated, fails: `roleBuilder.Grant` against an upstream that rejects the write
with the error "unavailable" returns an error whose message is
"baton-datadog: failed to add user to role: unavailable", not "unavailable". -/
theorem rejected_write_is_not_verbatim :
    refusingClient.AddUserToRole (withAuthContext .background "api" "app" "datadoghq.com") "r1"
        ⟨⟨"alice", "users"⟩⟩ = some (.leaf "unavailable")
    ∧ (roleBuilder.Grant (newRoleBuilder refusingClient "datadoghq.com" "api" "app") .background
          aliceResource sreMember).outcome.err.map Error.message
        = some "baton-datadog: failed to add user to role: unavailable"
    ∧ ("baton-datadog: failed to add user to role: unavailable" : String)
        ≠ (Error.leaf "unavailable").message := by
  refine ⟨rfl, by decide, by decide⟩

/-- A wrapped error says more than its cause: with a non-empty text in front, the
message is longer than the cause's message, and the cause is on the chain. -/
theorem Error_wrapped_message (ctxText : String) (e : Error) (h : ctxText ≠ "") :
    (Error.wrapped ctxText e).message = ctxText ++ e.message
    ∧ (Error.wrapped ctxText e).message ≠ e.message
    ∧ e ∈ (Error.wrapped ctxText e).chain := by
  refine ⟨rfl, ?_, ?_⟩
  · intro heq
    have hlen := congrArg String.length heq
    simp only [Error.message, String.length_append] at hlen
    have hpos : 0 < ctxText.length := by
      rcases ctxText with ⟨l⟩
      cases l with
      | nil => exact absurd rfl h
      | cons c cs => simp [String.length]
    omega
  · have hself : ∀ x : Error, x ∈ x.chain := by
      intro x
      cases x <;> simp [Error.chain]
    simp only [Error.chain]
    exact List.mem_cons_of_mem _ (hself e)

/-- C22 (amended): for Grant and Revoke of the role and team syncers with a user
principal, when the single upstream write is rejected with error `e`, the returned error
is never `e` verbatim: it wraps `e`. Its message is a text fixed per method, starting with
"baton-datadog: failed to ", followed by `e`'s message, nothing of which is removed, and
`e` itself is its cause. The text is "baton-datadog: failed to add user to role: " for
`roleBuilder.Grant`, "baton-datadog: failed to remove user from role: " for
`roleBuilder.Revoke` and "baton-datadog: failed to remove user from team: " for
`teamBuilder.Revoke`. -/
theorem rejected_write_is_wrapped :
    ∃ teamGrantText : String,
      (∃ rest, teamGrantText = "baton-datadog: failed to " ++ rest)
      ∧ ∀ (ctx : Context) (principal : Resource) (entitlement : Entitlement) (grantId : String)
          (e : Error), principal.Id.ResourceType = userResourceType.Id →
        (∀ r : roleBuilder,
            r.client.AddUserToRole (withAuthContext ctx r.apiKey r.appKey r.site)
              entitlement.Resource.Id.Resource ⟨⟨principal.Id.Resource, USERSTYPE_USERS⟩⟩
              = some e →
            (roleBuilder.Grant r ctx principal entitlement).outcome
              = ⟨[], some (.wrapped "baton-datadog: failed to add user to role: " e)⟩)
        ∧ (∀ r : roleBuilder,
            r.client.RemoveUserFromRole (withAuthContext ctx r.apiKey r.appKey r.site)
              entitlement.Resource.Id.Resource ⟨⟨principal.Id.Resource, USERSTYPE_USERS⟩⟩
              = some e →
            (roleBuilder.Revoke r ctx ⟨entitlement, principal, grantId⟩).outcome
              = ⟨[], some (.wrapped "baton-datadog: failed to remove user from role: " e)⟩)
        ∧ (∀ t : teamBuilder,
            t.client.CreateTeamMembership (withAuthContext ctx t.apiKey t.appKey t.site)
              entitlement.Resource.Id.Resource
              (membershipRequest principal.Id.Resource
                (if entitlement.Slug = "admin" then some "admin" else none)) = some e →
            (teamBuilder.Grant t ctx principal entitlement).outcome
              = ⟨[], some (.wrapped teamGrantText e)⟩)
        ∧ (∀ t : teamBuilder,
            t.client.DeleteTeamMembership (withAuthContext ctx t.apiKey t.appKey t.site)
              entitlement.Resource.Id.Resource principal.Id.Resource = some e →
            (teamBuilder.Revoke t ctx ⟨entitlement, principal, grantId⟩).outcome
              = ⟨[], some (.wrapped "baton-datadog: failed to remove user from team: " e)⟩)
        ∧ (∀ text ∈ ["baton-datadog: failed to add user to role: ",
                      "baton-datadog: failed to remove user from role: ", teamGrantText,
                      "baton-datadog: failed to remove user from team: "],
            (Error.wrapped text e).message = text ++ e.message
            ∧ (Error.wrapped text e).message ≠ e.message
            ∧ e ∈ (Error.wrapped text e).chain) := by
  refine ⟨"baton-datadog: failed to add user to role: ", ⟨_, rfl⟩, ?_⟩
  intro ctx principal entitlement grantId e h
  refine ⟨?_, ?_, ?_, ?_, ?_⟩
  · intro r hr
    simp [roleBuilder.Grant, h, hr]
  · intro r hr
    simp [roleBuilder.Revoke, h, hr]
  · intro t ht
    simp only [membershipRequest] at ht
    simp only [teamBuilder.Grant, h, ne_eq, not_true_eq_false, if_false, NewNullableUserTeamRole,
      USERTEAMROLE_ADMIN, USERTEAMUSERTYPE_USERS, USERTEAMTYPE_TEAM_MEMBERSHIPS, ht]
  · intro t ht
    simp [teamBuilder.Revoke, h, ht]
  · intro text htext
    apply Error_wrapped_message
    simp only [List.mem_cons, List.mem_singleton, List.not_mem_nil, or_false] at htext
    rcases htext with h1 | h1 | h1 | h1 <;> rw [h1] <;> decide

/-- C22 (amended), granting member of role "SRE" to "alice" against an upstream that
rejects the write with "unavailable": the returned error wraps it. -/
theorem rejected_write_is_wrapped_witness :
    aliceResource.Id.ResourceType = userResourceType.Id
    ∧ refusingClient.AddUserToRole (withAuthContext .background "api" "app" "datadoghq.com")
        sreMember.Resource.Id.Resource ⟨⟨aliceResource.Id.Resource, USERSTYPE_USERS⟩⟩
        = some (.leaf "unavailable")
    ∧ (roleBuilder.Grant (newRoleBuilder refusingClient "datadoghq.com" "api" "app") .background
          aliceResource sreMember).outcome
        = ⟨[], some (.wrapped "baton-datadog: failed to add user to role: " (.leaf "unavailable"))⟩ :=
  ⟨by decide, rfl,
    rejected_write_is_wrapped.elim fun _ hw =>
      (hw.2 .background aliceResource sreMember "" (.leaf "unavailable") (by decide)).1
        (newRoleBuilder refusingClient "datadoghq.com" "api" "app") rfl⟩

/-! ## C27, C28: team membership writes -/

/-- The single request of `teamBuilder.Grant` for a user principal. -/
theorem teamBuilder_Grant_requests (t : teamBuilder) (ctx : Context) (principal : Resource)
    (entitlement : Entitlement) (h : principal.Id.ResourceType = userResourceType.Id) :
    (teamBuilder.Grant t ctx principal entitlement).requests =
      [⟨withAuthContext ctx t.apiKey t.appKey t.site,
        .CreateTeamMembership entitlement.Resource.Id.Resource
          (membershipRequest principal.Id.Resource
            (if entitlement.Slug = "admin" then some "admin" else none))⟩] := by
  simp only [teamBuilder.Grant, h, ne_eq, not_true_eq_false, if_false]
  split <;> rfl

/-- C27: for `teamBuilder.Grant` with a user principal, the membership sent upstream
carries the role admin if and only if the entitlement's slug is exactly "admin"; for
every other slug it carries a null role; in all cases the body's user id is the
principal's resource id and the team id is the entitlement's owning resource id. -/
theorem team_grant_role_follows_slug (t : teamBuilder) (ctx : Context) (principal : Resource)
    (entitlement : Entitlement) (h : principal.Id.ResourceType = userResourceType.Id) :
    ∃ body, (teamBuilder.Grant t ctx principal entitlement).requests =
          [⟨withAuthContext ctx t.apiKey t.appKey t.site,
            .CreateTeamMembership entitlement.Resource.Id.Resource body⟩]
      ∧ (body.Data.Attributes = some { Role := { value := some "admin", isSet := true } }
          ↔ entitlement.Slug = "admin")
      ∧ (entitlement.Slug ≠ "admin" →
          body.Data.Attributes = some { Role := { value := none, isSet := true } })
      ∧ body.Data.Relationships
          = some { User := some { Data := { Id := principal.Id.Resource, Type_ := "users" } } } := by
  refine ⟨_, teamBuilder_Grant_requests t ctx principal entitlement h, ?_, ?_, rfl⟩
  · by_cases hs : entitlement.Slug = "admin"
    · simp [membershipRequest, hs]
    · simp [membershipRequest, hs]
  · intro hs
    simp [membershipRequest, hs]

/-- C27, granting on the team "Eng" to "alice": the slug "admin" sends the role admin,
the slugs "member" and "" send a null role; the body names alice and the team "Eng". -/
theorem team_grant_role_follows_slug_witness :
    aliceResource.Id.ResourceType = userResourceType.Id
    ∧ (teamBuilder.Grant (newTeamBuilder refusingClient "datadoghq.com" "api" "app") .background
          aliceResource engAdmin).requests =
        [⟨withAuthContext .background "api" "app" "datadoghq.com",
          .CreateTeamMembership "Eng" (membershipRequest "alice" (some "admin"))⟩]
    ∧ (teamBuilder.Grant (newTeamBuilder refusingClient "datadoghq.com" "api" "app") .background
          aliceResource engMember).requests =
        [⟨withAuthContext .background "api" "app" "datadoghq.com",
          .CreateTeamMembership "Eng" (membershipRequest "alice" none)⟩]
    ∧ (teamBuilder.Grant (newTeamBuilder refusingClient "datadoghq.com" "api" "app") .background
          aliceResource { engMember with Slug := "" }).requests =
        [⟨withAuthContext .background "api" "app" "datadoghq.com",
          .CreateTeamMembership "Eng" (membershipRequest "alice" none)⟩] := by
  refine ⟨by decide, ?_, by decide, by decide⟩
  obtain ⟨body, h1, h2, -, h4⟩ :=
    team_grant_role_follows_slug (newTeamBuilder refusingClient "datadoghq.com" "api" "app")
      .background aliceResource engAdmin (by decide)
  have hb : body = membershipRequest "alice" (some "admin") := by
    have h5 := h1.symm.trans (teamBuilder_Grant_requests
      (newTeamBuilder refusingClient "datadoghq.com" "api" "app") .background aliceResource
      engAdmin (by decide))
    simp only [List.cons.injEq, Request.mk.injEq, Call.CreateTeamMembership.injEq, and_true,
      true_and] at h5
    rw [h5]
    decide
  rw [h1, hb]
  rfl

/-- C28: `teamBuilder.Revoke` does not depend on the entitlement slug: for every two
grants of the same user principal on the same team, whatever their entitlements' slugs
and ids, the call is the same, namely the single deletion of the membership of that user
in that team, with the same result. -/
theorem team_revoke_ignores_slug (t : teamBuilder) (ctx : Context) (g1 g2 : Grant)
    (hp : g1.Principal.Id = g2.Principal.Id)
    (hr : g1.Entitlement.Resource.Id.Resource = g2.Entitlement.Resource.Id.Resource)
    (hu : g1.Principal.Id.ResourceType = userResourceType.Id) :
    teamBuilder.Revoke t ctx g1 = teamBuilder.Revoke t ctx g2
    ∧ (teamBuilder.Revoke t ctx g1).requests =
        [⟨withAuthContext ctx t.apiKey t.appKey t.site,
          .DeleteTeamMembership g1.Entitlement.Resource.Id.Resource g1.Principal.Id.Resource⟩]
    ∧ (teamBuilder.Revoke t ctx g2).requests =
        [⟨withAuthContext ctx t.apiKey t.appKey t.site,
          .DeleteTeamMembership g1.Entitlement.Resource.Id.Resource g1.Principal.Id.Resource⟩] := by
  have hu2 : g2.Principal.Id.ResourceType = userResourceType.Id := by rw [← hp]; exact hu
  have heq : teamBuilder.Revoke t ctx g1 = teamBuilder.Revoke t ctx g2 := by
    simp only [teamBuilder.Revoke, hu, hu2, ne_eq, not_true_eq_false, if_false, ← hp, ← hr]
  have hreq : (teamBuilder.Revoke t ctx g1).requests =
      [⟨withAuthContext ctx t.apiKey t.appKey t.site,
        .DeleteTeamMembership g1.Entitlement.Resource.Id.Resource g1.Principal.Id.Resource⟩] := by
    simp only [teamBuilder.Revoke, hu, ne_eq, not_true_eq_false, if_false]
    split <;> rfl
  exact ⟨heq, hreq, heq ▸ hreq⟩

/-- C28, on the grants "admin" and "member" of "alice" on the team "Eng": both revocations
issue the same request, the deletion of alice's membership in "Eng". -/
theorem team_revoke_ignores_slug_witness :
    (NewGrant engTeam "admin" aliceResource.Id).Principal.Id
        = (NewGrant engTeam "member" aliceResource.Id).Principal.Id
    ∧ (NewGrant engTeam "admin" aliceResource.Id).Principal.Id.ResourceType = userResourceType.Id
    ∧ teamBuilder.Revoke (newTeamBuilder refusingClient "datadoghq.com" "api" "app") .background
          (NewGrant engTeam "admin" aliceResource.Id)
        = teamBuilder.Revoke (newTeamBuilder refusingClient "datadoghq.com" "api" "app") .background
          (NewGrant engTeam "member" aliceResource.Id)
    ∧ (teamBuilder.Revoke (newTeamBuilder refusingClient "datadoghq.com" "api" "app") .background
          (NewGrant engTeam "admin" aliceResource.Id)).requests =
        [⟨withAuthContext .background "api" "app" "datadoghq.com",
          .DeleteTeamMembership "Eng" "alice"⟩] :=
  ⟨rfl, by decide,
    (team_revoke_ignores_slug (newTeamBuilder refusingClient "datadoghq.com" "api" "app")
      .background (NewGrant engTeam "admin" aliceResource.Id)
      (NewGrant engTeam "member" aliceResource.Id) rfl rfl (by decide)).1,
    (team_revoke_ignores_slug (newTeamBuilder refusingClient "datadoghq.com" "api" "app")
      .background (NewGrant engTeam "admin" aliceResource.Id)
      (NewGrant engTeam "member" aliceResource.Id) rfl rfl (by decide)).2.1⟩

/-! ## C24, C25: validation -/

/-- What a context built by `withAuthContext` holds: the API-keys entry maps
"apiKeyAuth" to the API key and "appKeyAuth" to the app key, the server-variables entry
maps "site" to the site, and every other key reads as in the caller's context. -/
theorem withAuthContext_Value (ctx : Context) (apiKey appKey site : String) :
    (withAuthContext ctx apiKey appKey site).Value .ContextAPIKeys
        = some (.apiKeys [("apiKeyAuth", ⟨apiKey⟩), ("appKeyAuth", ⟨appKey⟩)])
    ∧ (withAuthContext ctx apiKey appKey site).Value .ContextServerVariables
        = some (.serverVariables [("site", site)])
    ∧ (∀ key, key ≠ .ContextAPIKeys → key ≠ .ContextServerVariables →
        (withAuthContext ctx apiKey appKey site).Value key = ctx.Value key) := by
  refine ⟨?_, ?_, ?_⟩
  · simp [withAuthContext, Context.Value]
  · simp [withAuthContext, Context.Value]
  · intro key h1 h2
    simp [withAuthContext, Context.Value, Ne.symm h1, Ne.symm h2]

/-- C24: `Datadog.Validate` issues exactly one upstream request, the validation call, and
that request exercises the connector's credentials: its context maps "apiKeyAuth" to the
connector's apiKey, "appKeyAuth" to its appKey and the server variable "site" to its
site. It returns a nil error if and only if that call returns no error and its response
reports valid = true; it always returns nil annotations, so in both failure cases (call
error, or valid = false) it returns a non-nil error and nil annotations. -/
theorem validate_checks_credentials_once (d : Datadog) (ctx : Context) :
    (∃ rctx, (Datadog.Validate d ctx).requests = [⟨rctx, .Validate⟩]
      ∧ rctx.Value .ContextAPIKeys
          = some (.apiKeys [("apiKeyAuth", ⟨d.apiKey⟩), ("appKeyAuth", ⟨d.appKey⟩)])
      ∧ rctx.Value .ContextServerVariables = some (.serverVariables [("site", d.site)])
      ∧ ((Datadog.Validate d ctx).outcome.err = none ↔
          ∃ resp, d.client.Validate rctx = .ok resp ∧ resp.GetValid = true)
      ∧ (∀ e, d.client.Validate rctx = .error e →
          (Datadog.Validate d ctx).outcome
            = ⟨[], some (.wrapped "datadog-connector: failed to validate API key: " e)⟩)
      ∧ (∀ resp, d.client.Validate rctx = .ok resp → resp.GetValid = false →
          (Datadog.Validate d ctx).outcome
            = ⟨[], some (.leaf "datadog-connector: API key not valid")⟩))
    ∧ (Datadog.Validate d ctx).requests
        = [⟨withAuthContext ctx d.apiKey d.appKey d.site, .Validate⟩]
    ∧ (Datadog.Validate d ctx).outcome.annos = []
    ∧ ((Datadog.Validate d ctx).outcome.err ≠ none ↔
        (∃ e, d.client.Validate (withAuthContext ctx d.apiKey d.appKey d.site) = .error e)
        ∨ ∃ resp, d.client.Validate (withAuthContext ctx d.apiKey d.appKey d.site) = .ok resp
            ∧ resp.GetValid = false) := by
  obtain ⟨hk, hs, -⟩ := withAuthContext_Value ctx d.apiKey d.appKey d.site
  refine ⟨⟨withAuthContext ctx d.apiKey d.appKey d.site, ?_, hk, hs, ?_⟩, ?_⟩
  · unfold Datadog.Validate
    simp only
    cases hv : d.client.Validate (withAuthContext ctx d.apiKey d.appKey d.site) with
    | error e => simp
    | ok resp =>
      by_cases hg : resp.GetValid = true
      · simp [hg]
      · simp [hg]
  · unfold Datadog.Validate
    simp only
    cases hv : d.client.Validate (withAuthContext ctx d.apiKey d.appKey d.site) with
    | error e => simp
    | ok resp =>
      by_cases hg : resp.GetValid = true
      · simp [hg]
      · simp [hg]
  · unfold Datadog.Validate
    simp only
    cases hv : d.client.Validate (withAuthContext ctx d.apiKey d.appKey d.site) with
    | error e => simp
    | ok resp =>
      by_cases hg : resp.GetValid = true
      · simp [hg]
      · simp [hg]

/-- C24, on an upstream that reports the key as not valid: the one request carries the
connector's three credentials, each under its own name, and the call returns the error
"datadog-connector: API key not valid" with nil annotations. -/
theorem validate_checks_credentials_once_witness :
    ∃ rctx,
      (Datadog.Validate
          ⟨{ refusingClient with Validate := fun _ => .ok ⟨some false⟩ }, "datadoghq.com", "api", "app"⟩
          .background).requests = [⟨rctx, .Validate⟩]
      ∧ rctx.Value .ContextAPIKeys
          = some (.apiKeys [("apiKeyAuth", ⟨"api"⟩), ("appKeyAuth", ⟨"app"⟩)])
      ∧ rctx.Value .ContextServerVariables = some (.serverVariables [("site", "datadoghq.com")])
      ∧ (⟨some false⟩ : AuthenticationValidationResponse).GetValid = false
      ∧ (Datadog.Validate
          ⟨{ refusingClient with Validate := fun _ => .ok ⟨some false⟩ }, "datadoghq.com", "api", "app"⟩
          .background).outcome
        = ⟨[], some (.leaf "datadog-connector: API key not valid")⟩ :=
  (validate_checks_credentials_once
      ⟨{ refusingClient with Validate := fun _ => .ok ⟨some false⟩ }, "datadoghq.com", "api", "app"⟩
      .background).1.elim fun rctx h =>
    ⟨rctx, h.1, h.2.1, h.2.2.1, rfl, h.2.2.2.2.2 ⟨some false⟩ rfl rfl⟩

/-- C25: `validateConfig` returns nil if and only if Site, ApiKey and AppKey are all
non-empty; otherwise the error is the one of the first empty field in the order site,
API key, app key. -/
theorem validateConfig_reports_first_empty (cfg : config) :
    (validateConfig cfg = none ↔ cfg.Site ≠ "" ∧ cfg.ApiKey ≠ "" ∧ cfg.AppKey ≠ "")
    ∧ (cfg.Site = "" → validateConfig cfg = some (.leaf
        "site is required, please provide it via --site flag or BATON_SITE environment variable"))
    ∧ (cfg.Site ≠ "" → cfg.ApiKey = "" → validateConfig cfg = some (.leaf
        "API key is required, please provide it via --api-key flag or BATON_API_KEY environment variable"))
    ∧ (cfg.Site ≠ "" → cfg.ApiKey ≠ "" → cfg.AppKey = "" → validateConfig cfg = some (.leaf
        "app key is required, please provide it via --app-key flag or BATON_APP_KEY environment variable")) := by
  unfold validateConfig
  by_cases h1 : cfg.Site = ""
  · simp [h1]
  · by_cases h2 : cfg.ApiKey = ""
    · simp [h1, h2]
    · by_cases h3 : cfg.AppKey = ""
      · simp [h1, h2, h3]
      · simp [h1, h2, h3]

/-- C25, on a configuration with a site and neither key: the error is the one of the API
key; with all three fields set the result is nil. -/
theorem validateConfig_reports_first_empty_witness :
    (⟨"datadoghq.com", "", ""⟩ : config).Site ≠ ""
    ∧ (⟨"datadoghq.com", "", ""⟩ : config).ApiKey = ""
    ∧ validateConfig ⟨"datadoghq.com", "", ""⟩ = some (.leaf
        "API key is required, please provide it via --api-key flag or BATON_API_KEY environment variable")
    ∧ validateConfig ⟨"datadoghq.com", "api", "app"⟩ = none :=
  ⟨by decide, rfl,
    (validateConfig_reports_first_empty ⟨"datadoghq.com", "", ""⟩).2.2.1 (by decide) rfl,
    by decide⟩

/-! ## C26: membership records without a relationships block -/

/-- A page that starts with a record without a relationships block makes the loop of
`teamBuilder.Grants` dereference a nil pointer, whatever follows. -/
theorem teamBuilder_Grants_loop_panics (t : teamBuilder) (ctx : Context) (resource : Resource)
    (m : UserTeam) (rest : List UserTeam) (acc : List Grant) (h : m.Relationships = none) :
    teamBuilder.Grants.loop t ctx resource (m :: rest) acc
      = ⟨[], .panicked "nil pointer dereference"⟩ := by
  rw [teamBuilder.Grants.loop]
  simp only [h]

/-- When every record of the page has a relationships block, the loop of
`teamBuilder.Grants` returns, with a list of grants or with an error, whether or not the
user relationship and the attributes block are present. -/
theorem teamBuilder_Grants_loop_returns (t : teamBuilder) (ctx : Context) (resource : Resource)
    (ms : List UserTeam) (acc : List Grant) (h : ∀ m ∈ ms, m.Relationships ≠ none) :
    ∃ r, (teamBuilder.Grants.loop t ctx resource ms acc).outcome = .returned r := by
  induction ms generalizing acc with
  | nil => exact ⟨.ok acc, rfl⟩
  | cons m rest ih =>
    have hm := h m (List.mem_cons_self _ _)
    have hrest : ∀ m ∈ rest, m.Relationships ≠ none :=
      fun x hx => h x (List.mem_cons_of_mem _ hx)
    rw [teamBuilder.Grants.loop]
    cases hrel : m.Relationships with
    | none => exact absurd hrel hm
    | some rel =>
      simp only
      cases hget : t.client.GetUser ctx (RelationshipToUserTeamUser.GetData rel.User).Id with
      | error e => exact ⟨_, rfl⟩
      | ok res =>
        simp only
        cases hur : userResource res.GetData with
        | error e => exact ⟨_, rfl⟩
        | ok ur =>
          simp only
          exact ih _ hrest

/-- C26: `teamBuilder.Grants` is not total on every shape of membership record. On a page
whose record has no relationships block the call does not return: reading the user id at
`membership.Relationships.User` dereferences a nil pointer, after the membership request
was issued. A record whose relationships block has no user makes the call return the
error of the lookup of the user "", and a record without an attributes block makes it
return the "member" grant. -/
theorem team_grants_panics_without_relationships :
    teamBuilder.Grants sampleCodec (newTeamBuilder shapesClient "datadoghq.com" "api" "app")
        .background engTeam ⟨0, ""⟩
      = ⟨[⟨withAuthContext .background "api" "app" "datadoghq.com", .GetTeamMemberships "Eng" 0⟩],
          .panicked "nil pointer dereference"⟩
    ∧ (teamBuilder.Grants sampleCodec (newTeamBuilder shapesClient "datadoghq.com" "api" "app")
        .background engTeam ⟨0, teamTokenAt "1"⟩).outcome
      = .returned ⟨[], "", [],
          some (.wrapped "error getting user  from team membership: " (.leaf "not found"))⟩
    ∧ (teamBuilder.Grants sampleCodec (newTeamBuilder shapesClient "datadoghq.com" "api" "app")
        .background engTeam ⟨0, teamTokenAt "2"⟩).outcome
      = .returned ⟨[NewGrant engTeam "member" ⟨"user", "alice"⟩], teamTokenAt "3", [], none⟩ := by
  decide

/-! ## C29: the user resource -/

/-- C29: `userResource` always succeeds, and the options it hands to the user trait are,
in this order, the profile (first_name, last_name, login = upstream email, user_id =
resource id), the upstream email as primary email, the status and the account type. The
status is ENABLED if and only if the upstream status is exactly "Active", DISABLED if
and only if it is exactly "Disabled", UNSPECIFIED for every other string; the account
type is SERVICE if and only if the service-account flag is true and HUMAN otherwise. The
statuses "", "active" and "Pending" map to UNSPECIFIED. -/
theorem userResource_maps_status_and_account_type (user : User) :
    (∃ ur status accountType,
      userResource user = .ok ur
      ∧ ur.Id = ⟨"user", user.GetId⟩
      ∧ ur.Annotations = [.user
          [.WithUserProfile
              [("first_name", (SplitFullName (UserAttributes.GetName user.Attributes)).1),
               ("last_name", (SplitFullName (UserAttributes.GetName user.Attributes)).2),
               ("login", UserAttributes.GetEmail user.Attributes),
               ("user_id", ur.Id.Resource)],
           .WithEmail (UserAttributes.GetEmail user.Attributes) true,
           .WithStatus status,
           .WithAccountType accountType]]
      ∧ (status = .STATUS_ENABLED ↔ UserAttributes.GetStatus user.Attributes = "Active")
      ∧ (status = .STATUS_DISABLED ↔ UserAttributes.GetStatus user.Attributes = "Disabled")
      ∧ (status = .STATUS_UNSPECIFIED ↔
          UserAttributes.GetStatus user.Attributes ≠ "Active"
          ∧ UserAttributes.GetStatus user.Attributes ≠ "Disabled")
      ∧ (accountType = .ACCOUNT_TYPE_SERVICE ↔
          UserAttributes.GetServiceAccount user.Attributes = true)
      ∧ (accountType = .ACCOUNT_TYPE_HUMAN ↔
          UserAttributes.GetServiceAccount user.Attributes = false))
    ∧ (∀ s ∈ ["", "active", "Pending", "ACTIVE", "disabled", "Active "], ∀ flag,
        (userResource (userWith s flag)).toOption.map Resource.statusOptions
          = some [.STATUS_UNSPECIFIED])
    ∧ (∀ flag, (userResource (userWith "Active" flag)).toOption.map Resource.statusOptions
          = some [.STATUS_ENABLED])
    ∧ (∀ flag, (userResource (userWith "Disabled" flag)).toOption.map Resource.statusOptions
          = some [.STATUS_DISABLED]) := by
  refine ⟨?_, by decide, by decide, by decide⟩
  by_cases ha : UserAttributes.GetStatus user.Attributes = "Active"
  · by_cases hs : UserAttributes.GetServiceAccount user.Attributes = true
    · exact ⟨_, .STATUS_ENABLED, .ACCOUNT_TYPE_SERVICE,
        by simp [userResource, NewUserResource, ha, hs]; rfl, rfl, rfl,
        by simp [ha], by simp [ha], by simp [ha], by simp [hs], by simp [hs]⟩
    · exact ⟨_, .STATUS_ENABLED, .ACCOUNT_TYPE_HUMAN,
        by simp [userResource, NewUserResource, ha, hs]; rfl, rfl, rfl,
        by simp [ha], by simp [ha], by simp [ha], by simp [hs], by simp [hs]⟩
  · by_cases hd : UserAttributes.GetStatus user.Attributes = "Disabled"
    · by_cases hs : UserAttributes.GetServiceAccount user.Attributes = true
      · exact ⟨_, .STATUS_DISABLED, .ACCOUNT_TYPE_SERVICE,
          by simp [userResource, NewUserResource, hd, hs]; rfl, rfl, rfl,
          by simp [hd], by simp [hd], by simp [hd], by simp [hs], by simp [hs]⟩
      · exact ⟨_, .STATUS_DISABLED, .ACCOUNT_TYPE_HUMAN,
          by simp [userResource, NewUserResource, hd, hs]; rfl, rfl, rfl,
          by simp [hd], by simp [hd], by simp [hd], by simp [hs], by simp [hs]⟩
    · by_cases hs : UserAttributes.GetServiceAccount user.Attributes = true
      · exact ⟨_, .STATUS_UNSPECIFIED, .ACCOUNT_TYPE_SERVICE,
          by simp [userResource, NewUserResource, ha, hd, hs]; rfl, rfl, rfl,
          by simp [ha], by simp [hd], by simp [ha, hd], by simp [hs], by simp [hs]⟩
      · exact ⟨_, .STATUS_UNSPECIFIED, .ACCOUNT_TYPE_HUMAN,
          by simp [userResource, NewUserResource, ha, hd, hs]; rfl, rfl, rfl,
          by simp [ha], by simp [hd], by simp [ha, hd], by simp [hs], by simp [hs]⟩

/-! ## C30: credentials and the upstream context -/

/-- Every request of the loop of `teamBuilder.Grants` carries the context the loop was
given. -/
theorem teamBuilder_Grants_loop_ctx (t : teamBuilder) (ctx : Context) (resource : Resource)
    (ms : List UserTeam) (acc : List Grant) :
    ∀ req ∈ (teamBuilder.Grants.loop t ctx resource ms acc).requests, req.ctx = ctx := by
  induction ms generalizing acc with
  | nil => simp [teamBuilder.Grants.loop]
  | cons m rest ih =>
    rw [teamBuilder.Grants.loop]
    cases hrel : m.Relationships with
    | none => simp
    | some rel =>
      simp only
      cases hget : t.client.GetUser ctx (RelationshipToUserTeamUser.GetData rel.User).Id with
      | error e => simp
      | ok res =>
        simp only
        cases hur : userResource res.GetData with
        | error e => simp
        | ok ur =>
          simp only
          intro req hreq
          rcases List.mem_cons.mp hreq with h | h
          · rw [h]
          · exact ih _ req h

/-- Every upstream request of `teamBuilder.Grants` carries the context that
`withAuthContext` builds from the caller's context and the syncer's own apiKey, appKey
and site. -/
theorem teamBuilder_Grants_ctx (codec : TokenCodec) (t : teamBuilder) (ctx : Context)
    (resource : Resource) (pToken : Token) :
    ∀ req ∈ (teamBuilder.Grants codec t ctx resource pToken).requests,
      req.ctx = withAuthContext ctx t.apiKey t.appKey t.site := by
  have hloop := teamBuilder_Grants_loop_ctx t (withAuthContext ctx t.apiKey t.appKey t.site) resource
  intro req hreq
  unfold teamBuilder.Grants at hreq
  simp only at hreq
  repeat' (split at hreq)
  all_goals first
    | exact absurd hreq (List.not_mem_nil _)
    | (rcases List.mem_cons.mp hreq with h | h <;>
        first
        | (rw [h])
        | exact hloop _ _ req h
        | exact absurd h (List.not_mem_nil _))

/-- Every upstream request of the other operations carries the context that
`withAuthContext` builds from the caller's context and the syncer's own apiKey, appKey
and site. -/
theorem requests_carry_auth_context (codec : TokenCodec) (ctx : Context)
    (parent : Option ResourceId) (resource : Resource) (pToken : Token) (principal : Resource)
    (entitlement : Entitlement) (g : Grant) (u : userBuilder) (t : teamBuilder) (r : roleBuilder) :
    (∀ req ∈ (userBuilder.List codec u ctx parent pToken).requests,
        req.ctx = withAuthContext ctx u.apiKey u.appKey u.site)
    ∧ (∀ req ∈ (teamBuilder.List codec t ctx parent pToken).requests,
        req.ctx = withAuthContext ctx t.apiKey t.appKey t.site)
    ∧ (∀ req ∈ (roleBuilder.List codec r ctx parent pToken).requests,
        req.ctx = withAuthContext ctx r.apiKey r.appKey r.site)
    ∧ (∀ req ∈ (roleBuilder.Grants codec r ctx resource pToken).requests,
        req.ctx = withAuthContext ctx r.apiKey r.appKey r.site)
    ∧ (∀ req ∈ (teamBuilder.Grant t ctx principal entitlement).requests,
        req.ctx = withAuthContext ctx t.apiKey t.appKey t.site)
    ∧ (∀ req ∈ (teamBuilder.Revoke t ctx g).requests,
        req.ctx = withAuthContext ctx t.apiKey t.appKey t.site)
    ∧ (∀ req ∈ (roleBuilder.Grant r ctx principal entitlement).requests,
        req.ctx = withAuthContext ctx r.apiKey r.appKey r.site)
    ∧ (∀ req ∈ (roleBuilder.Revoke r ctx g).requests,
        req.ctx = withAuthContext ctx r.apiKey r.appKey r.site) := by
  refine ⟨?_, ?_, ?_, ?_, ?_, ?_, ?_, ?_⟩
  · intro req hreq
    unfold userBuilder.List at hreq
    simp only at hreq
    repeat' (split at hreq)
    all_goals first
      | exact absurd hreq (List.not_mem_nil _)
      | (rw [List.mem_singleton.mp hreq])
  · intro req hreq
    unfold teamBuilder.List at hreq
    simp only at hreq
    repeat' (split at hreq)
    all_goals first
      | exact absurd hreq (List.not_mem_nil _)
      | (rw [List.mem_singleton.mp hreq])
  · intro req hreq
    unfold roleBuilder.List at hreq
    simp only at hreq
    repeat' (split at hreq)
    all_goals first
      | exact absurd hreq (List.not_mem_nil _)
      | (rw [List.mem_singleton.mp hreq])
  · intro req hreq
    unfold roleBuilder.Grants at hreq
    simp only at hreq
    repeat' (split at hreq)
    all_goals first
      | exact absurd hreq (List.not_mem_nil _)
      | (rw [List.mem_singleton.mp hreq])
  · intro req hreq
    unfold teamBuilder.Grant at hreq
    simp only at hreq
    repeat' (split at hreq)
    all_goals first
      | exact absurd hreq (List.not_mem_nil _)
      | (rw [List.mem_singleton.mp hreq])
  · intro req hreq
    unfold teamBuilder.Revoke at hreq
    simp only at hreq
    repeat' (split at hreq)
    all_goals first
      | exact absurd hreq (List.not_mem_nil _)
      | (rw [List.mem_singleton.mp hreq])
  · intro req hreq
    unfold roleBuilder.Grant at hreq
    simp only at hreq
    repeat' (split at hreq)
    all_goals first
      | exact absurd hreq (List.not_mem_nil _)
      | (rw [List.mem_singleton.mp hreq])
  · intro req hreq
    unfold roleBuilder.Revoke at hreq
    simp only at hreq
    repeat' (split at hreq)
    all_goals first
      | exact absurd hreq (List.not_mem_nil _)
      | (rw [List.mem_singleton.mp hreq])

/-- C30: credentials reach the upstream context unswapped. `ResourceSyncers` returns
exactly three syncers in the order user, team, role, each holding the connector's
client, site, apiKey and appKey in the fields of those names; and the context of every
upstream request that any operation of these three syncers issues (List of each, Grants,
Grant and Revoke of the team and role syncers) maps "apiKeyAuth" to the connector's
apiKey, "appKeyAuth" to its appKey and the server variable "site" to its site, and reads
every other key as the caller's context does. `withAuthContext` stores exactly these
three values for any apiKey, appKey and site. -/
theorem credentials_reach_context_unswapped (d : Datadog) (ctx0 ctx : Context)
    (codec : TokenCodec) (parent : Option ResourceId) (resource : Resource) (pToken : Token)
    (principal : Resource) (entitlement : Entitlement) (g : Grant)
    (apiKey appKey site : String) :
    (∃ u t r, d.ResourceSyncers ctx0 = [.user u, .team t, .role r]
      ∧ (u.client = d.client ∧ u.site = d.site ∧ u.apiKey = d.apiKey ∧ u.appKey = d.appKey)
      ∧ (t.client = d.client ∧ t.site = d.site ∧ t.apiKey = d.apiKey ∧ t.appKey = d.appKey)
      ∧ (r.client = d.client ∧ r.site = d.site ∧ r.apiKey = d.apiKey ∧ r.appKey = d.appKey)
      ∧ ∀ req,
          (req ∈ (userBuilder.List codec u ctx parent pToken).requests
            ∨ req ∈ (teamBuilder.List codec t ctx parent pToken).requests
            ∨ req ∈ (teamBuilder.Grants codec t ctx resource pToken).requests
            ∨ req ∈ (teamBuilder.Grant t ctx principal entitlement).requests
            ∨ req ∈ (teamBuilder.Revoke t ctx g).requests
            ∨ req ∈ (roleBuilder.List codec r ctx parent pToken).requests
            ∨ req ∈ (roleBuilder.Grants codec r ctx resource pToken).requests
            ∨ req ∈ (roleBuilder.Grant r ctx principal entitlement).requests
            ∨ req ∈ (roleBuilder.Revoke r ctx g).requests) →
          req.ctx.Value .ContextAPIKeys
              = some (.apiKeys [("apiKeyAuth", ⟨d.apiKey⟩), ("appKeyAuth", ⟨d.appKey⟩)])
          ∧ req.ctx.Value .ContextServerVariables = some (.serverVariables [("site", d.site)])
          ∧ ∀ key, key ≠ .ContextAPIKeys → key ≠ .ContextServerVariables →
              req.ctx.Value key = ctx.Value key)
    ∧ (withAuthContext ctx apiKey appKey site).Value .ContextAPIKeys
        = some (.apiKeys [("apiKeyAuth", ⟨apiKey⟩), ("appKeyAuth", ⟨appKey⟩)])
    ∧ (withAuthContext ctx apiKey appKey site).Value .ContextServerVariables
        = some (.serverVariables [("site", site)])
    ∧ (∀ key, key ≠ .ContextAPIKeys → key ≠ .ContextServerVariables →
        (withAuthContext ctx apiKey appKey site).Value key = ctx.Value key) := by
  refine ⟨⟨newUserBuilder d.client d.site d.apiKey d.appKey,
      newTeamBuilder d.client d.site d.apiKey d.appKey,
      newRoleBuilder d.client d.site d.apiKey d.appKey, rfl, ⟨rfl, rfl, rfl, rfl⟩,
      ⟨rfl, rfl, rfl, rfl⟩, ⟨rfl, rfl, rfl, rfl⟩, ?_⟩,
    withAuthContext_Value ctx apiKey appKey site⟩
  intro req hreq
  have hval := withAuthContext_Value ctx d.apiKey d.appKey d.site
  have hu := requests_carry_auth_context codec ctx parent resource pToken principal entitlement g
    (newUserBuilder d.client d.site d.apiKey d.appKey)
    (newTeamBuilder d.client d.site d.apiKey d.appKey)
    (newRoleBuilder d.client d.site d.apiKey d.appKey)
  have htg := teamBuilder_Grants_ctx codec (newTeamBuilder d.client d.site d.apiKey d.appKey) ctx
    resource pToken
  have hctx : req.ctx = withAuthContext ctx d.apiKey d.appKey d.site := by
    obtain ⟨h1, h2, h3, h4, h5, h6, h7, h8⟩ := hu
    rcases hreq with h | h | h | h | h | h | h | h | h
    · exact h1 req h
    · exact h2 req h
    · exact htg req h
    · exact h5 req h
    · exact h6 req h
    · exact h3 req h
    · exact h4 req h
    · exact h7 req h
    · exact h8 req h
  rw [hctx]
  exact hval

/-- C30, on a connector with three distinct credentials and a caller context that holds
a value under another key: the one request of the role listing of the third syncer reads
"api" under "apiKeyAuth", "app" under "appKeyAuth", "datadoghq.eu" under "site", and the
caller's value under the caller's key. -/
theorem credentials_reach_context_unswapped_witness :
    ∃ req,
      req ∈ (roleBuilder.List sampleCodec (newRoleBuilder refusingClient "datadoghq.eu" "api" "app")
          (.WithValue .background (.other "trace") (.other "t-1")) none ⟨0, ""⟩).requests
      ∧ req.call = .ListRoles 0
      ∧ req.ctx.Value .ContextAPIKeys
          = some (.apiKeys [("apiKeyAuth", ⟨"api"⟩), ("appKeyAuth", ⟨"app"⟩)])
      ∧ req.ctx.Value .ContextServerVariables = some (.serverVariables [("site", "datadoghq.eu")])
      ∧ ContextKey.other "trace" ≠ .ContextAPIKeys
      ∧ ContextKey.other "trace" ≠ .ContextServerVariables
      ∧ req.ctx.Value (.other "trace") = some (.other "t-1") := by
  obtain ⟨⟨u, t, r, hs, -, -, -, hreq⟩, -⟩ :=
    credentials_reach_context_unswapped ⟨refusingClient, "datadoghq.eu", "api", "app"⟩
      .background (.WithValue .background (.other "trace") (.other "t-1")) sampleCodec none
      sreResource ⟨0, ""⟩ aliceResource sreMember ⟨sreMember, aliceResource, ""⟩ "api" "app"
      "datadoghq.eu"
  have hr : r = newRoleBuilder refusingClient "datadoghq.eu" "api" "app" := by
    simp only [Datadog.ResourceSyncers, List.cons.injEq, ResourceSyncer.role.injEq] at hs
    exact hs.2.2.1.symm
  subst hr
  have hmem : (⟨withAuthContext (.WithValue .background (.other "trace") (.other "t-1")) "api"
        "app" "datadoghq.eu", .ListRoles 0⟩ : Request)
      ∈ (roleBuilder.List sampleCodec (newRoleBuilder refusingClient "datadoghq.eu" "api" "app")
          (.WithValue .background (.other "trace") (.other "t-1")) none ⟨0, ""⟩).requests := by
    decide
  obtain ⟨h1, h2, h3⟩ := hreq _ (Or.inr (Or.inr (Or.inr (Or.inr (Or.inr (Or.inl hmem))))))
  exact ⟨_, hmem, rfl, h1, h2, by decide, by decide,
    (h3 _ (by decide) (by decide)).trans (by decide)⟩

end BatonDatadog
